import Mathlib

/-
Verification of the schema translator in
`src/multi_vector_simulator/utils/data_parser.py` (repository rl-institut/mvs_eland).

The module converts energy-system payloads between the EPA (exchange) JSON shape
and the MVS (internal) JSON shape.  The payloads are JSON-like nested Python
dicts; we embed them as trees over `Value`, with Python dicts as insertion-ordered
association lists with unique keys (`PyDict`).  Python mutation of shared
sub-dicts is made explicit: each conversion entry point returns, besides its
result, the state of its input argument after the call (the source renames
fields with pop/insert on dicts it shares with the caller).  Fallible Python
operations (KeyError, TypeError, AttributeError, and the raised
MissingParameterError) are embedded with `Except`.

Side effects that never reach the returned values are not modelled: the
`logging.warning` calls, the `print`/`pprint` diagnostics (the missing/extra key
report of `convert_mvs_params_to_epa` is printed when `verbatim` is set and is
never part of the returned dict), and the `pprint.PrettyPrinter` setup.
-/

set_option autoImplicit false

universe u

/-- A JSON-like Python value: strings, integers, booleans, dicts, lists,
tuples (they arise in the source via a trailing-comma literal) and
`pandas.Series` objects (the internal representation of a timeseries, whose
`to_list` method yields the underlying list). -/
inductive Value : Type where
  | str : String → Value
  | int : Int → Value
  | bool : Bool → Value
  | dict : List (String × Value) → Value
  | list : List Value → Value
  | tuple : List Value → Value
  | series : List Value → Value

/-- A Python dict with string keys, as an insertion-ordered association list.
Real Python dicts have unique keys; every list built by the embedding from a
unique-key list again has unique keys. -/
abbrev PyDict (α : Type u) : Type u := List (String × α)

/-- Errors of the embedded code: the Python exception classes that can escape
the two conversion functions.  `missingParameterError` carries the list of
message lines that the source joins with a newline. -/
inductive PyErr : Type where
  | keyError : PyErr
  | typeError : PyErr
  | attributeError : PyErr
  | missingParameterError : List String → PyErr

/-- Python `d[k]` read access (first — and for unique keys only — binding). -/
def pyGet {α : Type u} : PyDict α → String → Option α
  | [], _ => none
  | (k, v) :: d, key => if k = key then some v else pyGet d key

/-- Python `d[k] = v`: update an existing key in place (keeping its position),
otherwise append the new binding at the end. -/
def pySet {α : Type u} : PyDict α → String → α → PyDict α
  | [], key, v => [(key, v)]
  | (k, w) :: d, key, v =>
    if k = key then (key, v) :: d else (k, w) :: pySet d key v

/-- Python `d.pop(k)`: remove the binding and return its value; `none` models
the raised KeyError when the key is absent. -/
def pyPop {α : Type u} : PyDict α → String → Option (α × PyDict α)
  | [], _ => none
  | (k, v) :: d, key =>
    if k = key then some (v, d)
    else
      match pyPop d key with
      | some (w, d2) => some (w, (k, v) :: d2)
      | none => none

/-- Remove a binding, keeping the dict unchanged when the key is absent. -/
def pyRemove {α : Type u} : PyDict α → String → PyDict α
  | [], _ => []
  | (k, v) :: d, key => if k = key then d else (k, v) :: pyRemove d key

/-- Python `k in d`. -/
def pyMem {α : Type u} (d : PyDict α) (key : String) : Bool :=
  (pyGet d key).isSome

/-- Python `list(d.keys())`. -/
def pyKeys {α : Type u} (d : PyDict α) : List String :=
  d.map Prod.fst

/-- Python substring containment `sub in s` for strings. -/
def strIn (sub s : String) : Bool :=
  decide (sub.data <:+: s.data)

/-- A Python dict comprehension `(v : k) for (k, v) in m.items()`: later
bindings of the same key silently overwrite earlier ones. -/
def invertPyDict (m : PyDict String) : PyDict String :=
  m.foldl (fun acc kv => pySet acc kv.2 kv.1) []

/-
Constants imported by the source from
`multi_vector_simulator.utils.constants_json_strings` and
`multi_vector_simulator.utils.constants`.  These modules are not part of the
sources provided; the values below are modelled from the spec.
-/

/-- Modelled from the spec: the internal (MVS) field-name constants imported
from the absent module `constants_json_strings`.  The spec names the internal
groups and fields with these identifiers (sections 3, 4.5, 6, 8 of the spec);
where the spec fixes a name (economic_data, constraints, label, unit,
timeseries, minimal_renewable_factor, output LP file, ...) that name is used,
and the remaining constants get the repository's documented snake/camel-case
names.  All that the claims rely on is that the constants are pairwise distinct
where the forward mapping table requires distinctness. -/
def ECONOMIC_DATA : String := "economic_data"

def PROJECT_DATA : String := "project_data"

def SIMULATION_SETTINGS : String := "simulation_settings"

def CONSTRAINTS : String := "constraints"

def ENERGY_CONSUMPTION : String := "energyConsumption"

def ENERGY_CONVERSION : String := "energyConversion"

def ENERGY_PRODUCTION : String := "energyProduction"

def ENERGY_STORAGE : String := "energyStorage"

def ENERGY_BUSSES : String := "energyBusses"

def ENERGY_PROVIDERS : String := "energyProviders"

def UNIT : String := "unit"

def LABEL : String := "label"

def OEMOF_ASSET_TYPE : String := "type_oemof"

def ENERGY_VECTOR : String := "energyVector"

def INFLOW_DIRECTION : String := "inflow_direction"

def OUTFLOW_DIRECTION : String := "outflow_direction"

def CONNECTED_CONSUMPTION_SOURCE : String := "connected_consumption_sources"

def CONNECTED_FEEDIN_SINK : String := "connected_feedin_sink"

def ENERGY_PRICE : String := "energy_price"

def FEEDIN_TARIFF : String := "feedin_tariff"

def PEAK_DEMAND_PRICING : String := "peak_demand_pricing"

def PEAK_DEMAND_PRICING_PERIOD : String := "peak_demand_pricing_period"

def RENEWABLE_SHARE_DSO : String := "renewable_share"

def DEVELOPMENT_COSTS : String := "development_costs"

def DISPATCH_PRICE : String := "dispatch_price"

def DISPATCHABILITY : String := "dispatchable"

def INSTALLED_CAP : String := "installedCap"

def LIFETIME : String := "lifetime"

def MAXIMUM_CAP : String := "maximumCap"

def OPTIMIZE_CAP : String := "optimizeCap"

def SPECIFIC_COSTS : String := "specific_costs"

def SPECIFIC_COSTS_OM : String := "specific_costs_om"

def TIMESERIES : String := "timeseries"

def AGE_INSTALLED : String := "age_installed"

def RENEWABLE_ASSET_BOOL : String := "renewableAsset"

def EFFICIENCY : String := "efficiency"

def INPUT_POWER : String := "input power"

def OUTPUT_POWER : String := "output power"

def STORAGE_CAPACITY : String := "storage capacity"

def PROJECT_ID : String := "project_id"

def PROJECT_NAME : String := "project_name"

def SCENARIO_ID : String := "scenario_id"

def SCENARIO_NAME : String := "scenario_name"

def START_DATE : String := "start_date"

def EVALUATED_PERIOD : String := "evaluated_period"

def OUTPUT_LP_FILE : String := "output_lp_file"

def MINIMAL_RENEWABLE_FACTOR : String := "minimal_renewable_factor"

def FIX_COST : String := "fixcost"

def KPI : String := "kpi"

def TIMESTEP : String := "timestep"

def KPI_SCALARS_DICT : String := "scalars"

def VALUE : String := "value"

def DATA : String := "data"

/-- The forward field-mapping table `MAP_EPA_MVS` of the source (lines 79-99):
exchange-side name to internal-side name, in source order. -/
def MAP_EPA_MVS : PyDict String :=
  [ ("economic_data", ECONOMIC_DATA),
    ("energy_providers", ENERGY_PROVIDERS),
    ("energy_busses", ENERGY_BUSSES),
    ("energy_consumption", ENERGY_CONSUMPTION),
    ("energy_conversion", ENERGY_CONVERSION),
    ("energy_production", ENERGY_PRODUCTION),
    ("energy_storage", ENERGY_STORAGE),
    ("project_data", PROJECT_DATA),
    ("simulation_settings", SIMULATION_SETTINGS),
    ("energy_vector", ENERGY_VECTOR),
    ("installed_capacity", INSTALLED_CAP),
    ("optimize_capacity", OPTIMIZE_CAP),
    ("maximum_capacity", MAXIMUM_CAP),
    ("input_timeseries", TIMESERIES),
    ("constraints", CONSTRAINTS),
    ("renewable_asset", RENEWABLE_ASSET_BOOL),
    (KPI, KPI),
    (FIX_COST, FIX_COST),
    ("time_step", TIMESTEP) ]

/-- The derived reverse table `MAP_MVS_EPA` of the source (line 101), built by
a dict comprehension over the forward table. -/
def MAP_MVS_EPA : PyDict String :=
  invertPyDict MAP_EPA_MVS

/-- `EPA_PARAM_KEYS` of the source (lines 104-110): the fields expected for
each parameter group of the json returned to EPA. -/
def EPA_PARAM_KEYS : PyDict (List String) :=
  [ (PROJECT_DATA, [PROJECT_ID, PROJECT_NAME, SCENARIO_ID, SCENARIO_NAME]),
    (SIMULATION_SETTINGS, [START_DATE, EVALUATED_PERIOD, TIMESTEP]),
    (CONSTRAINTS, []),
    (KPI, [KPI_SCALARS_DICT]),
    (FIX_COST, []) ]

/-- `EPA_ASSET_KEYS` of the source (lines 113-206): the fields expected for the
assets of each asset group of the json returned to EPA.  The duplicated
`OUTFLOW_DIRECTION` entries of the source lists are kept. -/
def EPA_ASSET_KEYS : PyDict (List String) :=
  [ (ENERGY_PROVIDERS,
      [ "asset_type", LABEL, OEMOF_ASSET_TYPE, "energy_vector",
        INFLOW_DIRECTION, OUTFLOW_DIRECTION, CONNECTED_CONSUMPTION_SOURCE,
        CONNECTED_FEEDIN_SINK, DEVELOPMENT_COSTS, DISPATCH_PRICE, ENERGY_PRICE,
        FEEDIN_TARIFF, "installed_capacity", LIFETIME, "optimize_capacity",
        PEAK_DEMAND_PRICING, PEAK_DEMAND_PRICING_PERIOD, RENEWABLE_SHARE_DSO,
        SPECIFIC_COSTS, SPECIFIC_COSTS_OM, UNIT ]),
    (ENERGY_CONSUMPTION,
      [ "asset_type", LABEL, INFLOW_DIRECTION, OEMOF_ASSET_TYPE,
        DEVELOPMENT_COSTS, DISPATCH_PRICE, "installed_capacity", LIFETIME,
        "optimize_capacity", SPECIFIC_COSTS, SPECIFIC_COSTS_OM,
        "input_timeseries", "energy_vector" ]),
    (ENERGY_CONVERSION,
      [ "asset_type", LABEL, "energy_vector", OEMOF_ASSET_TYPE,
        INFLOW_DIRECTION, OUTFLOW_DIRECTION, OUTFLOW_DIRECTION, AGE_INSTALLED,
        DEVELOPMENT_COSTS, DISPATCH_PRICE, EFFICIENCY, "installed_capacity",
        LIFETIME, "maximum_capacity", "optimize_capacity", SPECIFIC_COSTS,
        SPECIFIC_COSTS_OM ]),
    (ENERGY_PRODUCTION,
      [ "asset_type", LABEL, OEMOF_ASSET_TYPE, OUTFLOW_DIRECTION,
        OUTFLOW_DIRECTION, DEVELOPMENT_COSTS, DISPATCH_PRICE, DISPATCHABILITY,
        "installed_capacity", LIFETIME, "maximum_capacity",
        "optimize_capacity", SPECIFIC_COSTS, SPECIFIC_COSTS_OM,
        "input_timeseries", AGE_INSTALLED, "renewable_asset",
        "energy_vector" ]),
    (ENERGY_STORAGE,
      [ "asset_type", LABEL, "energy_vector", INFLOW_DIRECTION,
        OUTFLOW_DIRECTION, OUTFLOW_DIRECTION, OEMOF_ASSET_TYPE, INPUT_POWER,
        OUTPUT_POWER, STORAGE_CAPACITY, "optimize_capacity",
        "input_timeseries" ]),
    (ENERGY_BUSSES, [LABEL, "assets", "energy_vector"]) ]

/-- The parameter groups handled by the first loop of
`convert_epa_params_to_mvs` (source lines 226-232), in source order. -/
def epaToMvsParamGroups : List String :=
  [PROJECT_DATA, ECONOMIC_DATA, SIMULATION_SETTINGS, CONSTRAINTS, FIX_COST]

/-- The asset groups handled by the second loop of
`convert_epa_params_to_mvs` (source lines 250-257), in source order. -/
def epaToMvsAssetGroups : List String :=
  [ ENERGY_CONSUMPTION, ENERGY_CONVERSION, ENERGY_PRODUCTION, ENERGY_STORAGE,
    ENERGY_BUSSES, ENERGY_PROVIDERS ]

/-- The in-place renaming idiom of the source (e.g. lines 239-244): iterate
over a snapshot of the keys and, for every key found in the mapping table, pop
it and re-insert its value under the mapped name.  With unique keys the inner
pop always succeeds; its fallback branch keeps the dict unchanged. -/
def renameLoop (m : PyDict String) (d : PyDict Value) : PyDict Value :=
  (pyKeys d).foldl
    (fun acc k =>
      match pyGet m k with
      | some k2 =>
        match pyPop acc k with
        | some (v, acc2) => pySet acc2 k2 v
        | none => acc
      | none => acc)
    d

/-- A generic run of a fallible per-element step, embedding the `for` loops of
the source whose bodies may raise. -/
def stepLoop {σ ι : Type} (step : σ → ι → Except PyErr σ) :
    List ι → σ → Except PyErr σ
  | [], s => .ok s
  | g :: gs, s =>
    match step s g with
    | .ok s2 => stepLoop step gs s2
    | .error err => .error err

/-- One iteration of the parameter-group loop of `convert_epa_params_to_mvs`
(source lines 226-248).  The state is the pair of the growing `dict_values`
and the input payload as mutated so far: the group sub-dict is shared between
the two, so its in-place renaming shows up in both.  An absent group is only
logged (warning omitted).  Calling `.keys()` on a non-dict group raises. -/
def epaParamStep (s : PyDict Value × PyDict Value) (g : String) :
    Except PyErr (PyDict Value × PyDict Value) :=
  match pyGet MAP_MVS_EPA g with
  | none => .error .keyError
  | some e =>
    match pyGet s.2 e with
    | none => .ok s
    | some (.dict d) =>
      let d2 := renameLoop MAP_EPA_MVS d
      .ok (pySet s.1 g (.dict d2), pySet s.2 e (.dict d2))
    | some _ => .error .attributeError

/-- The inner loop over one exchange-side asset list (source lines 260-270):
re-key each record by its `label` field into `dict_asset`, renaming the
record fields in place (the list and the dict share the records, so the
returned list holds the renamed records).  A record that is not a dict, or
whose label is missing or not a string, raises. -/
def epaAssetFold : List Value → PyDict Value →
    Except PyErr (PyDict Value × List Value)
  | [], da => .ok (da, [])
  | a :: rest, da =>
    match a with
    | .dict ad =>
      match pyGet ad LABEL with
      | some (.str l) =>
        let ad2 := renameLoop MAP_EPA_MVS ad
        match epaAssetFold rest (pySet da l (.dict ad2)) with
        | .ok (daF, restF) => .ok (daF, .dict ad2 :: restF)
        | .error err => .error err
      | some _ => .error .typeError
      | none => .error .keyError
    | _ => .error .typeError

/-- The label field of a record, when the record is a dict with a string
label. -/
def recLabel : Value → Option String
  | .dict d =>
    match pyGet d LABEL with
    | some (.str s) => some s
    | _ => none
  | _ => none

/-- Patch the record of the asset list that is shared with the entry of
`dict_asset` at key `timeseries`: the last record of the list labeled
`timeseries` (later records with a duplicate label overwrite earlier ones in
the dict). -/
def setLastTsRecord (newFields : PyDict Value) : List Value → List Value
  | [] => []
  | a :: rest =>
    if rest.any (fun r => recLabel r == some TIMESERIES) then
      a :: setLastTsRecord newFields rest
    else if recLabel a == some TIMESERIES then
      .dict newFields :: rest
    else a :: rest

/-- Source lines 272-275: the unit-relocation step of the exchange-to-internal
asset conversion.  The source tests `TIMESERIES in dict_asset` on the
label-keyed dict (not on each asset), so the step fires only when some record
is labeled `timeseries`; it then pops that record's `unit` field and stores it
as an entry of the label-keyed dict.  The popped record is shared with the
returned asset list, which is patched accordingly. -/
def epaRelocateTimeseries (da : PyDict Value) (lst : List Value) :
    Except PyErr (PyDict Value × List Value) :=
  if pyMem da TIMESERIES then
    match pyGet da TIMESERIES with
    | some (.dict td) =>
      match pyPop td UNIT with
      | some (u, td2) =>
        .ok (pySet (pySet da TIMESERIES (.dict td2)) UNIT u,
             setLastTsRecord td2 lst)
      | none => .error .keyError
    | some _ => .error .attributeError
    | none => .error .keyError
  else .ok (da, lst)

/-- One iteration of the asset-group loop of `convert_epa_params_to_mvs`
(source lines 250-281).  Iterating a payload entry that is not a list
raises. -/
def epaAssetStep (s : PyDict Value × PyDict Value) (g : String) :
    Except PyErr (PyDict Value × PyDict Value) :=
  match pyGet MAP_MVS_EPA g with
  | none => .error .keyError
  | some e =>
    match pyGet s.2 e with
    | none => .ok s
    | some (.list assets) =>
      match epaAssetFold assets [] with
      | .ok (da, assets2) =>
        match epaRelocateTimeseries da assets2 with
        | .ok (da2, assets3) =>
          .ok (pySet s.1 g (.dict da2), pySet s.2 e (.list assets3))
        | .error err => .error err
      | .error err => .error err
    | some _ => .error .typeError

/-- Modelled from the spec: the reference catalogue behind the absent helper
`compare_input_parameters_with_reference` (imported from
`multi_vector_simulator.utils`, not among the provided sources).  Per the
spec the validator compares the fields expected for every group and category
with the fields actually present; the spec fixes the recoverable gaps
(constraints, the output-LP-file setting of the simulation settings, the
fixed-cost group), so the simulation-settings requirements include
`output_lp_file` next to the exchanged fields, and the remaining groups are
required to be present. -/
def REQUIRED_REFERENCE : PyDict (List String) :=
  [ (PROJECT_DATA, [PROJECT_ID, PROJECT_NAME, SCENARIO_ID, SCENARIO_NAME]),
    (ECONOMIC_DATA, []),
    (SIMULATION_SETTINGS,
      [START_DATE, EVALUATED_PERIOD, TIMESTEP, OUTPUT_LP_FILE]),
    (CONSTRAINTS, []),
    (FIX_COST, []),
    (ENERGY_CONSUMPTION, []),
    (ENERGY_CONVERSION, []),
    (ENERGY_PRODUCTION, []),
    (ENERGY_STORAGE, []),
    (ENERGY_BUSSES, []),
    (ENERGY_PROVIDERS, []) ]

/-- The keys of a payload entry, empty for a non-dict entry. -/
def valueKeys : Value → List String
  | .dict d => pyKeys d
  | _ => []

/-- Modelled from the spec: the missing-parameter report of
`compare_input_parameters_with_reference` — for every reference group absent
from the payload an entry with all its required sub-fields, and for every
present group missing some required sub-fields an entry with exactly those. -/
def compareMissing (dv : PyDict Value) : PyDict (List String) →
    PyDict (List String)
  | [] => []
  | (g, reqs) :: rest =>
    match pyGet dv g with
    | none => (g, reqs) :: compareMissing dv rest
    | some v =>
      let miss := reqs.filter (fun k => !(valueKeys v).contains k)
      if miss.isEmpty then compareMissing dv rest
      else (g, miss) :: compareMissing dv rest

/-- The per-group lines of the error message (source lines 320-325): the group
name followed by one line per missing sub-field. -/
def missingLines : PyDict (List String) → List String
  | [] => []
  | (g, ks) :: rest =>
    g :: (ks.map (fun k => "\t`" ++ k ++ "` parameter") ++ missingLines rest)

/-- The full line list of the raised `MissingParameterError` (source lines
312-327; the source joins them with a newline). -/
def buildErrorLines (d : PyDict (List String)) : List String :=
  [" ", " ",
    "The following parameter groups and sub parameters are missing from input parameters:"]
  ++ missingLines d

/-- The default constraints value of source lines 292-294.  The trailing comma
of the source literal makes the assigned value a one-element tuple wrapping
the default dict, not the dict itself. -/
def constraintsDefault : Value :=
  .tuple
    [.dict
      [(MINIMAL_RENEWABLE_FACTOR,
        .dict [(UNIT, .str "factor"), (VALUE, .int 0)])]]

/-- The value assigned for an absent output-LP-file setting (source lines
302-305). -/
def lpFileDefault : Value :=
  .dict [(UNIT, .str "bool"), (VALUE, .bool false)]

/-- The constraints default of `convert_epa_params_to_mvs` (source lines
291-295): rebind the constraints key of `dict_values` to the tuple-wrapped
default and drop the group from the missing report. -/
def defaultConstraintsStep (dv : PyDict Value) (d : PyDict (List String)) :
    PyDict Value × PyDict (List String) :=
  if pyMem d CONSTRAINTS then
    (pySet dv CONSTRAINTS constraintsDefault, pyRemove d CONSTRAINTS)
  else (dv, d)

/-- The output-LP-file default of `convert_epa_params_to_mvs` (source lines
297-306): when that setting is the only missing simulation-settings field,
write the default through the simulation-settings dict — which is shared with
the input payload, so the after-state is updated alongside `dict_values` —
and drop the group from the missing report. -/
def defaultSimSettingsStep (dv after : PyDict Value)
    (d : PyDict (List String)) :
    Except PyErr (PyDict Value × PyDict Value × PyDict (List String)) :=
  match pyGet d SIMULATION_SETTINGS with
  | none => .ok (dv, after, d)
  | some miss =>
    if miss.contains OUTPUT_LP_FILE && miss.length == 1 then
      match pyGet dv SIMULATION_SETTINGS with
      | some (.dict sd) =>
        match pyGet MAP_MVS_EPA SIMULATION_SETTINGS with
        | some e =>
          .ok (pySet dv SIMULATION_SETTINGS
                 (.dict (pySet sd OUTPUT_LP_FILE lpFileDefault)),
               pySet after e
                 (.dict (pySet sd OUTPUT_LP_FILE lpFileDefault)),
               pyRemove d SIMULATION_SETTINGS)
        | none => .error .keyError
      | some _ => .error .typeError
      | none => .error .keyError
    else .ok (dv, after, d)

/-- The fixed-cost default of `convert_epa_params_to_mvs` (source lines
308-310): rebind the fixed-cost key of `dict_values` to an empty group and
drop it from the missing report. -/
def defaultFixCostStep (dv : PyDict Value) (d : PyDict (List String)) :
    PyDict Value × PyDict (List String) :=
  if pyMem d FIX_COST then (pySet dv FIX_COST (.dict []), pyRemove d FIX_COST)
  else (dv, d)

/-- The recoverable-default block of `convert_epa_params_to_mvs` (source
lines 291-310): the three defaults in source order. -/
def applyRecoverableDefaults (dv after : PyDict Value)
    (d : PyDict (List String)) :
    Except PyErr (PyDict Value × PyDict Value × PyDict (List String)) :=
  match defaultSimSettingsStep (defaultConstraintsStep dv d).1 after
      (defaultConstraintsStep dv d).2 with
  | .error err => .error err
  | .ok (dvb, afterb, db) =>
    .ok ((defaultFixCostStep dvb db).1, afterb, (defaultFixCostStep dvb db).2)

/-- The entry point `convert_epa_params_to_mvs` (source lines 209-329).  On
success it returns the built `dict_values` together with the state of the
input payload after the call (the conversion renames fields on sub-dicts it
shares with the caller).  The check `MISSING_PARAMETERS_KEY in comparison` is
modelled as nonemptiness of the missing-parameter report. -/
def convert_epa_params_to_mvs (epa_dict : PyDict Value) :
    Except PyErr (PyDict Value × PyDict Value) :=
  match stepLoop epaParamStep epaToMvsParamGroups ([], epa_dict) with
  | .error err => .error err
  | .ok s1 =>
    match stepLoop epaAssetStep epaToMvsAssetGroups s1 with
    | .error err => .error err
    | .ok (dv, after) =>
      let d := compareMissing dv REQUIRED_REFERENCE
      if d.isEmpty then .ok (dv, after)
      else
        match applyRecoverableDefaults dv after d with
        | .error err => .error err
        | .ok (dv2, after2, d2) =>
          if d2.isEmpty then .ok (dv2, after2)
          else .error (.missingParameterError (buildErrorLines d2))

/-- The field loop of the parameter-group conversion of
`convert_mvs_params_to_epa` (source lines 358-371): drop every sub-field not
expected for the group — except that the test `param_group not in
(CONSTRAINTS)` is a substring test of the group name against the string
`constraints`, which exempts the constraints group — and rename the kept
fields found in the reverse mapping table. -/
def mvsParamFieldLoop (g : String) (expected : List String)
    (d : PyDict Value) : PyDict Value :=
  (pyKeys d).foldl
    (fun acc k =>
      if !expected.contains k && !strIn g CONSTRAINTS then
        pyRemove acc k
      else
        match pyGet MAP_MVS_EPA k with
        | some k2 =>
          match pyPop acc k with
          | some (v, acc2) => pySet acc2 k2 v
          | none => acc
        | none => acc)
    d

/-- One iteration of the parameter-group loop of `convert_mvs_params_to_epa`
(source lines 350-371).  The state is the pair of the growing `epa_dict` and
the input payload as mutated so far; the group sub-dict is shared between the
two.  `mvs_dict[param_group]` raises KeyError when the group is absent. -/
def mvsParamStep (s : PyDict Value × PyDict Value) (ge : String × List String) :
    Except PyErr (PyDict Value × PyDict Value) :=
  match pyGet MAP_MVS_EPA ge.1 with
  | none => .error .keyError
  | some e =>
    match pyGet s.2 ge.1 with
    | none => .error .keyError
    | some (.dict d) =>
      let d2 := mvsParamFieldLoop ge.1 ge.2 d
      .ok (pySet s.1 e (.dict d2), pySet s.2 ge.1 (.dict d2))
    | some _ => .error .attributeError

/-- One iteration of the per-asset key loop of `convert_mvs_params_to_epa`
(source lines 386-392): rename keys found in the reverse table, and for the
bus group flatten the `Asset_list` sub-dict into a plain list of its keys
(two independent `if` tests, as in the source). -/
def mvsAssetKeyStep (g : String) (acc : PyDict Value) (k : String) :
    Except PyErr (PyDict Value) :=
  let acc2 : PyDict Value :=
    match pyGet MAP_MVS_EPA k with
    | some k2 =>
      match pyPop acc k with
      | some (v, a) => pySet a k2 v
      | none => acc
    | none => acc
  if g == ENERGY_BUSSES && k == "Asset_list" then
    match pyPop acc2 k with
    | some (.dict bd, a) =>
      .ok (pySet a "assets" (.list ((pyKeys bd).map Value.str)))
    | some (_, _) => .error .attributeError
    | none => .error .keyError
  else .ok acc2

/-- The timeseries repackaging of `convert_mvs_params_to_epa` (source lines
396-399): when the (renamed) timeseries key is present, turn its
pandas-Series value into a list, pop the sibling `unit` field and store the
composite object in place of the series.  A non-Series value raises on
`to_list`, a missing unit raises on `pop`. -/
def mvsAssetTimeseries (ad : PyDict Value) : Except PyErr (PyDict Value) :=
  match pyGet MAP_MVS_EPA TIMESERIES with
  | none => .error .keyError
  | some tsKey =>
    if pyMem ad tsKey then
      match pyGet ad tsKey with
      | some (.series xs) =>
        match pyPop ad UNIT with
        | some (u, ad2) =>
          .ok (pySet ad2 tsKey (.dict [(UNIT, u), (DATA, .list xs)]))
        | none => .error .keyError
      | some _ => .error .attributeError
      | none => .error .keyError
    else .ok ad

/-- The body of the asset loop of `convert_mvs_params_to_epa` for one asset
(source lines 380-399): inject the mapping key as the `label` field, then run
the key loop over a snapshot of the keys, then repackage the timeseries. -/
def processAssetMvs (g : String) (label : String) (v : Value) :
    Except PyErr (PyDict Value) :=
  match v with
  | .dict ad =>
    let ad1 := pySet ad LABEL (.str label)
    match stepLoop (mvsAssetKeyStep g) (pyKeys ad1) ad1 with
    | .ok ad2 => mvsAssetTimeseries ad2
    | .error err => .error err
  | _ => .error .typeError

/-- The loop over the entries of one internal asset group (source lines
376-402): process each asset and append it to `list_asset` unless its label
contains the `_excess` or `_sink` substring.  The second component collects
the group entries as mutated by the processing (the input payload keeps every
entry, excluded ones included, but holds the processed records). -/
def mvsAssetFold (g : String) : List (String × Value) →
    Except PyErr (List (PyDict Value) × List (String × Value))
  | [] => .ok ([], [])
  | (label, v) :: rest =>
    match processAssetMvs g label v with
    | .error err => .error err
    | .ok a =>
      match mvsAssetFold g rest with
      | .error err => .error err
      | .ok (la, aft) =>
        if !strIn "_excess" label && !strIn "_sink" label then
          .ok (a :: la, (label, .dict a) :: aft)
        else
          .ok (la, (label, .dict a) :: aft)

/-- One iteration of the asset-group loop of `convert_mvs_params_to_epa`
(source lines 374-404).  `mvs_dict[asset_group]` raises KeyError when the
group is absent; a non-dict group raises when its assets are accessed. -/
def mvsAssetStep (s : PyDict Value × PyDict Value) (g : String) :
    Except PyErr (PyDict Value × PyDict Value) :=
  match pyGet s.2 g with
  | none => .error .keyError
  | some (.dict entries) =>
    match mvsAssetFold g entries with
    | .error err => .error err
    | .ok (la, aft) =>
      match pyGet MAP_MVS_EPA g with
      | none => .error .keyError
      | some e2 =>
        .ok (pySet s.1 e2 (.list (la.map Value.dict)), pySet s.2 g (.dict aft))
  | some _ => .error .typeError

/-- The pruning of one asset (source lines 414-419): drop every field not
expected for the asset group.  The extra/missing key recording of the source
(lines 420-427) feeds only the printed diagnostics, never the returned
payload, and is not modelled. -/
def pruneAssetFields (expected : List String) (a : PyDict Value) :
    PyDict Value :=
  (pyKeys a).foldl
    (fun acc k => if expected.contains k then acc else pyRemove acc k)
    a

/-- Prune every record of an output asset list; the records are dicts for
every list built by the conversion. -/
def prunedList (expected : List String) : List Value →
    Except PyErr (List Value)
  | [] => .ok []
  | .dict a :: rest =>
    match prunedList expected rest with
    | .ok r => .ok (.dict (pruneAssetFields expected a) :: r)
    | .error err => .error err
  | _ :: _ => .error .typeError

/-- The pruning pass mutates the records shared with the input payload: the
records that were appended to the output list (labels without the `_excess`
and `_sink` substrings) lose their unexpected fields in the after-state as
well. -/
def prunePatchAfter (expected : List String) : List (String × Value) →
    List (String × Value)
  | [] => []
  | (l, v) :: rest =>
    if !strIn "_excess" l && !strIn "_sink" l then
      (l,
        match v with
        | .dict a => .dict (pruneAssetFields expected a)
        | _ => v) :: prunePatchAfter expected rest
    else (l, v) :: prunePatchAfter expected rest

/-- One iteration of the validation loop of `convert_mvs_params_to_epa`
(source lines 410-427) for one asset group. -/
def pruneStep (s : PyDict Value × PyDict Value) (ge : String × List String) :
    Except PyErr (PyDict Value × PyDict Value) :=
  match pyGet MAP_MVS_EPA ge.1 with
  | none => .error .keyError
  | some e =>
    match pyGet s.1 e with
    | some (.list assets) =>
      match prunedList ge.2 assets with
      | .ok assets2 =>
        let after2 : PyDict Value :=
          match pyGet s.2 ge.1 with
          | some (.dict aft) =>
            pySet s.2 ge.1 (.dict (prunePatchAfter ge.2 aft))
          | _ => s.2
        .ok (pySet s.1 e (.list assets2), after2)
      | .error err => .error err
    | some _ => .error .typeError
    | none => .error .keyError

/-- The entry point `convert_mvs_params_to_epa` (source lines 332-436).  On
success it returns the built `epa_dict` together with the state of the input
payload after the call.  The `verbatim` flag only controls the printing of
the missing/extra key diagnostics and has no effect on the returned
payload. -/
def convert_mvs_params_to_epa (mvs_dict : PyDict Value) (verbatim : Bool) :
    Except PyErr (PyDict Value × PyDict Value) :=
  let _ := verbatim
  match stepLoop mvsParamStep EPA_PARAM_KEYS ([], mvs_dict) with
  | .error err => .error err
  | .ok s1 =>
    match stepLoop mvsAssetStep (pyKeys EPA_ASSET_KEYS) s1 with
    | .error err => .error err
    | .ok s2 => stepLoop pruneStep EPA_ASSET_KEYS s2

/-
Observers of conversion results and concrete payloads used by the claims.
-/

/-- Whether a conversion returned (rather than raised). -/
def convOk (r : Except PyErr (PyDict Value × PyDict Value)) : Bool :=
  match r with
  | .ok _ => true
  | .error _ => false

/-- A key of the returned payload of a successful conversion. -/
def convOutGet (r : Except PyErr (PyDict Value × PyDict Value))
    (k : String) : Option Value :=
  match r with
  | .ok (out, _) => pyGet out k
  | .error _ => none

/-- A complete exchange payload (all reference groups with their required
sub-fields, all asset categories) except for the constraints group. -/
def epaPayloadNoConstraints : PyDict Value :=
  [ ("project_data",
      .dict [("project_id", .str "1"), ("project_name", .str "p"),
        ("scenario_id", .str "2"), ("scenario_name", .str "s")]),
    ("economic_data", .dict [("currency", .str "EUR")]),
    ("simulation_settings",
      .dict [("start_date", .str "2020-01-01"), ("evaluated_period", .int 365),
        ("time_step", .int 60), ("output_lp_file", .bool false)]),
    ("fixcost", .dict []),
    ("energy_consumption", .list []),
    ("energy_conversion", .list []),
    ("energy_production", .list []),
    ("energy_storage", .list []),
    ("energy_busses", .list []),
    ("energy_providers", .list []) ]

/-- A complete exchange payload whose consumption list holds one record
labeled `demand` carrying a composite timeseries field. -/
def epaPayloadTimeseriesAsset : PyDict Value :=
  [ ("project_data",
      .dict [("project_id", .str "1"), ("project_name", .str "p"),
        ("scenario_id", .str "2"), ("scenario_name", .str "s")]),
    ("economic_data", .dict [("currency", .str "EUR")]),
    ("simulation_settings",
      .dict [("start_date", .str "2020-01-01"), ("evaluated_period", .int 365),
        ("time_step", .int 60), ("output_lp_file", .bool false)]),
    ("constraints", .dict []),
    ("fixcost", .dict []),
    ("energy_consumption",
      .list [.dict [("label", .str "demand"),
        ("input_timeseries",
          .dict [("unit", .str "kW"),
            ("data", .list [.int 1, .int 2, .int 3])])]]),
    ("energy_conversion", .list []),
    ("energy_production", .list []),
    ("energy_storage", .list []),
    ("energy_busses", .list []),
    ("energy_providers", .list []) ]

/-- The translated `demand` record as it comes out of the conversion of
`epaPayloadTimeseriesAsset`. -/
def demandOutFields : PyDict Value :=
  [ ("label", .str "demand"),
    ("timeseries",
      .dict [("unit", .str "kW"), ("data", .list [.int 1, .int 2, .int 3])]) ]

/-- An internal payload whose simulation settings carry the time-step field;
all expected groups present, all asset groups empty. -/
def mvsPayloadTimestep : PyDict Value :=
  [ ("project_data", .dict []),
    ("simulation_settings", .dict [("timestep", .int 60)]),
    ("constraints", .dict []),
    ("kpi", .dict []),
    ("fixcost", .dict []),
    ("energyConsumption", .dict []),
    ("energyConversion", .dict []),
    ("energyProduction", .dict []),
    ("energyStorage", .dict []),
    ("energyBusses", .dict []),
    ("energyProviders", .dict []) ]

/-- An internal payload that the internal-to-exchange conversion leaves
unchanged: every kept field is schema-sanctioned and rename-free, every asset
group empty. -/
def mvsPayloadFixed : PyDict Value :=
  [ ("project_data", .dict [("project_id", .str "1")]),
    ("simulation_settings", .dict [("start_date", .str "2020-01-01")]),
    ("constraints", .dict []),
    ("kpi", .dict []),
    ("fixcost", .dict []),
    ("energyConsumption", .dict []),
    ("energyConversion", .dict []),
    ("energyProduction", .dict []),
    ("energyStorage", .dict []),
    ("energyBusses", .dict []),
    ("energyProviders", .dict []) ]

/-- The exchange payload produced from `mvsPayloadFixed`. -/
def mvsPayloadFixedOut : PyDict Value :=
  [ ("project_data", .dict [("project_id", .str "1")]),
    ("simulation_settings", .dict [("start_date", .str "2020-01-01")]),
    ("constraints", .dict []),
    ("kpi", .dict []),
    ("fixcost", .dict []),
    ("energy_providers", .list []),
    ("energy_consumption", .list []),
    ("energy_conversion", .list []),
    ("energy_production", .list []),
    ("energy_storage", .list []),
    ("energy_busses", .list []) ]

/-- A complete, well-shaped exchange payload except for the economic-data
group. -/
def epaPayloadNoEconomicData : PyDict Value :=
  [ ("project_data",
      .dict [("project_id", .str "1"), ("project_name", .str "p"),
        ("scenario_id", .str "2"), ("scenario_name", .str "s")]),
    ("simulation_settings",
      .dict [("start_date", .str "2020-01-01"), ("evaluated_period", .int 365),
        ("time_step", .int 60), ("output_lp_file", .bool false)]),
    ("constraints", .dict []),
    ("fixcost", .dict []),
    ("energy_consumption",
      .list [.dict [("label", .str "demand"), ("lifetime", .int 20)]]),
    ("energy_conversion", .list []),
    ("energy_production", .list []),
    ("energy_storage", .list []),
    ("energy_busses", .list []),
    ("energy_providers", .list []) ]

/-- A well-shaped exchange payload missing the economic-data group whose
production list holds a record labeled `timeseries` without a unit field. -/
def epaPayloadTsLabelNoEcon : PyDict Value :=
  [ ("project_data",
      .dict [("project_id", .str "1"), ("project_name", .str "p"),
        ("scenario_id", .str "2"), ("scenario_name", .str "s")]),
    ("simulation_settings",
      .dict [("start_date", .str "2020-01-01"), ("evaluated_period", .int 365),
        ("time_step", .int 60), ("output_lp_file", .bool false)]),
    ("constraints", .dict []),
    ("fixcost", .dict []),
    ("energy_consumption", .list []),
    ("energy_conversion", .list []),
    ("energy_production",
      .list [.dict [("label", .str "timeseries"), ("lifetime", .int 1)]]),
    ("energy_storage", .list []),
    ("energy_busses", .list []),
    ("energy_providers", .list []) ]

/-- A complete exchange payload whose consumption list holds two records
labeled `unit` and one labeled `timeseries` carrying a unit field. -/
def epaPayloadDupUnit : PyDict Value :=
  [ ("project_data",
      .dict [("project_id", .str "1"), ("project_name", .str "p"),
        ("scenario_id", .str "2"), ("scenario_name", .str "s")]),
    ("economic_data", .dict [("currency", .str "EUR")]),
    ("simulation_settings",
      .dict [("start_date", .str "2020-01-01"), ("evaluated_period", .int 365),
        ("time_step", .int 60), ("output_lp_file", .bool false)]),
    ("constraints", .dict []),
    ("fixcost", .dict []),
    ("energy_consumption",
      .list [.dict [("label", .str "unit"), ("lifetime", .int 1)],
        .dict [("label", .str "unit"), ("lifetime", .int 2)],
        .dict [("label", .str "timeseries"), ("unit", .int 5)]]),
    ("energy_conversion", .list []),
    ("energy_production", .list []),
    ("energy_storage", .list []),
    ("energy_busses", .list []),
    ("energy_providers", .list []) ]

/-- A complete exchange payload whose consumption list holds two records
sharing the label `L`. -/
def epaPayloadDupLabels : PyDict Value :=
  [ ("project_data",
      .dict [("project_id", .str "1"), ("project_name", .str "p"),
        ("scenario_id", .str "2"), ("scenario_name", .str "s")]),
    ("economic_data", .dict [("currency", .str "EUR")]),
    ("simulation_settings",
      .dict [("start_date", .str "2020-01-01"), ("evaluated_period", .int 365),
        ("time_step", .int 60), ("output_lp_file", .bool false)]),
    ("constraints", .dict []),
    ("fixcost", .dict []),
    ("energy_consumption",
      .list [.dict [("label", .str "L"), ("lifetime", .int 1)],
        .dict [("label", .str "L"), ("lifetime", .int 2)]]),
    ("energy_conversion", .list []),
    ("energy_production", .list []),
    ("energy_storage", .list []),
    ("energy_busses", .list []),
    ("energy_providers", .list []) ]

/-
Convertibility of an internal payload: the class of inputs on which the
internal-to-exchange conversion provably returns.  Derived from the error
sites of `convert_mvs_params_to_epa`: absent or non-dict groups raise
KeyError/TypeError at the group accesses, a bus asset with a non-dict
`Asset_list` raises at the key flattening, a non-Series (renamed) timeseries
raises at `to_list`, and a timeseries without a sibling `unit` raises at the
unit pop.
-/

/-- One internal asset is convertible when it is a dict with unique keys, no
pre-existing exchange-side `input_timeseries` field, a Series-valued
`timeseries` accompanied by a `unit` field when one is present, and (for the
bus flattening) a dict-valued `Asset_list` field when one is present. -/
def assetConvertible (g : String) (v : Value) : Bool :=
  match v with
  | .dict ad =>
    decide (pyKeys ad).Nodup &&
    !pyMem ad "input_timeseries" &&
    (match pyGet ad TIMESERIES with
     | none => true
     | some (.series _) => pyMem ad UNIT
     | some _ => false) &&
    (match pyGet ad "Asset_list" with
     | none => true
     | some (.dict _) => true
     | some _ => !(g == ENERGY_BUSSES))
  | _ => false

/-- Every parameter group iterated by the first loop of
`convert_mvs_params_to_epa` is present as a dict. -/
def paramGroupsConvertible (mvs : PyDict Value) : Bool :=
  (pyKeys EPA_PARAM_KEYS).all (fun g =>
    match pyGet mvs g with
    | some (.dict _) => true
    | _ => false)

/-- One internal asset group is present as a dict of convertible assets. -/
def assetGroupConvertible (mvs : PyDict Value) (g : String) : Bool :=
  match pyGet mvs g with
  | some (.dict entries) => entries.all (fun p => assetConvertible g p.2)
  | _ => false

/-- A convertible internal payload: every group the conversion iterates is
present with the shape its error-free processing needs. -/
def mvsConvertible (mvs : PyDict Value) : Bool :=
  paramGroupsConvertible mvs &&
  (pyKeys EPA_ASSET_KEYS).all (assetGroupConvertible mvs)

/-- A convertible internal payload exercising the timeseries repackaging and
the bus flattening. -/
def mvsPayloadConvertible : PyDict Value :=
  [ ("project_data", .dict [("project_id", .str "1")]),
    ("simulation_settings", .dict [("start_date", .str "2020-01-01")]),
    ("constraints", .dict []),
    ("kpi", .dict []),
    ("fixcost", .dict []),
    ("energyConsumption",
      .dict [("demand",
        .dict [("timeseries", .series [.int 1, .int 2]),
          ("unit", .str "kW"), ("lifetime", .int 20)]),
        ("demand_excess", .dict [("lifetime", .int 1)])]),
    ("energyConversion", .dict []),
    ("energyProduction", .dict []),
    ("energyStorage", .dict []),
    ("energyBusses",
      .dict [("dcbus",
        .dict [("Asset_list",
          .dict [("demand", .dict []), ("pv", .dict [])]),
          ("energy_vector", .str "dc")])]),
    ("energyProviders", .dict []) ]

/-
Shape predicates: the payload shapes of section 6 of the spec, used as
hypotheses of the universally quantified claims about well-shaped payloads.
-/

/-- The exchange-side name of an internal group name (identity for names
without a mapping entry; every group name used by the loops has one). -/
def epaNameOf (g : String) : String :=
  (pyGet MAP_MVS_EPA g).getD g

/-- A record of an exchange asset list: an object carrying a string label. -/
def recordShaped (r : Value) : Bool :=
  match r with
  | .dict rd =>
    match pyGet rd LABEL with
    | some (.str _) => true
    | _ => false
  | _ => false

/-- A parameter-group entry of an exchange payload: absent or an object. -/
def paramEntryShaped (o : Option Value) : Bool :=
  match o with
  | none => true
  | some (.dict _) => true
  | some _ => false

/-- An asset-category entry of an exchange payload: absent or an array of
labeled records. -/
def assetEntryShaped (o : Option Value) : Bool :=
  match o with
  | none => true
  | some (.list assets) => assets.all recordShaped
  | some _ => false

/-- The exchange payloads described by the spec (section 6): parameter groups
are objects, asset categories are arrays of labeled records. -/
def epaShaped (p : PyDict Value) : Bool :=
  (epaToMvsParamGroups.all fun g => paramEntryShaped (pyGet p (epaNameOf g))) &&
  (epaToMvsAssetGroups.all fun g => assetEntryShaped (pyGet p (epaNameOf g)))

/-- Whether no record of an asset-category entry is labeled `timeseries`
(such a label triggers the misplaced relocation step of source lines
272-275). -/
def noTsEntry (o : Option Value) : Bool :=
  match o with
  | some (.list assets) => assets.all fun r => !(recLabel r == some TIMESERIES)
  | _ => true

/-- No asset record of the exchange payload is labeled `timeseries`. -/
def epaNoTimeseriesLabel (p : PyDict Value) : Bool :=
  epaToMvsAssetGroups.all fun g => noTsEntry (pyGet p (epaNameOf g))

/-- The last record of an asset list carrying the given string label (the
record whose translated fields survive in the label-keyed internal dict). -/
def lastLabeled (lab : String) : List Value → Option (PyDict Value)
  | [] => none
  | a :: rest =>
    match lastLabeled lab rest with
    | some r => some r
    | none =>
      match a with
      | .dict ad =>
        match pyGet ad LABEL with
        | some (.str s) => if s = lab then some ad else none
        | _ => none
      | _ => none

/-
Lemma layer: properties of the dict primitives and of the generic loops.
-/

theorem pyGet_pySet_self {α : Type u} (d : PyDict α) (k : String) (v : α) :
    pyGet (pySet d k v) k = some v := by
  induction d with
  | nil => simp [pySet, pyGet]
  | cons p d ih =>
    obtain ⟨a, b⟩ := p
    by_cases hp : a = k
    · subst hp
      simp [pySet, pyGet]
    · simp [pySet, pyGet, hp, ih]

theorem pyGet_pySet_ne {α : Type u} (d : PyDict α) (k k2 : String) (v : α)
    (h : k2 ≠ k) : pyGet (pySet d k v) k2 = pyGet d k2 := by
  have h2 : ¬(k = k2) := fun hh => h hh.symm
  induction d with
  | nil => simp [pySet, pyGet, h2]
  | cons p d ih =>
    obtain ⟨a, b⟩ := p
    by_cases hp : a = k
    · subst hp
      simp [pySet, pyGet, h2]
    · by_cases hk2 : a = k2
      · subst hk2
        simp [pySet, pyGet, hp]
      · simp [pySet, pyGet, hp, hk2, ih]

theorem pyGet_pyRemove_ne {α : Type u} (d : PyDict α) (k k2 : String)
    (h : k2 ≠ k) : pyGet (pyRemove d k) k2 = pyGet d k2 := by
  have h2 : ¬(k = k2) := fun hh => h hh.symm
  induction d with
  | nil => simp [pyRemove]
  | cons p d ih =>
    obtain ⟨a, b⟩ := p
    by_cases hp : a = k
    · subst hp
      simp [pyRemove, pyGet, h2]
    · by_cases hk2 : a = k2
      · subst hk2
        simp [pyRemove, pyGet, hp]
      · simp [pyRemove, pyGet, hp, hk2, ih]

theorem pyGet_pyPop_ne {α : Type u} (d : PyDict α) (k k2 : String)
    (hne : k2 ≠ k) :
    ∀ v d2, pyPop d k = some (v, d2) → pyGet d2 k2 = pyGet d k2 := by
  have h2 : ¬(k = k2) := fun hh => hne hh.symm
  induction d with
  | nil => intro v d2 h; exact Option.noConfusion h
  | cons p d ih =>
    intro v d2 h
    obtain ⟨a, b⟩ := p
    by_cases hp : a = k
    · subst hp
      simp only [pyPop, if_pos rfl] at h
      injection h with h1
      injection h1 with hv hd
      subst hd
      simp [pyGet, h2]
    · simp only [pyPop, if_neg hp] at h
      cases hrec : pyPop d k with
      | none => rw [hrec] at h; exact Option.noConfusion h
      | some w =>
        obtain ⟨w1, w2⟩ := w
        rw [hrec] at h
        injection h with h1
        injection h1 with hv hd
        subst hd
        by_cases hk2 : a = k2
        · subst hk2
          simp [pyGet]
        · simp only [pyGet, if_neg hk2]
          exact ih w1 w2 hrec

theorem pyGet_mem {α : Type u} (d : PyDict α) (k : String) (v : α)
    (h : pyGet d k = some v) : (k, v) ∈ d := by
  induction d with
  | nil => exact Option.noConfusion h
  | cons p d ih =>
    obtain ⟨a, b⟩ := p
    by_cases hp : a = k
    · subst hp
      simp only [pyGet, if_pos rfl] at h
      injection h with h
      subst h
      exact List.mem_cons_self _ _
    · simp only [pyGet, if_neg hp] at h
      exact List.mem_cons_of_mem _ (ih h)

theorem foldl_invariant {α β : Type} (f : α → β → α) (P : α → Prop)
    (l : List β) (a : α) (h : ∀ x b, b ∈ l → P x → P (f x b)) (ha : P a) :
    P (l.foldl f a) := by
  induction l generalizing a with
  | nil => exact ha
  | cons b l ih =>
    exact ih _ (fun x c hc => h x c (List.mem_cons_of_mem _ hc))
      (h a b (List.mem_cons_self _ _) ha)

theorem stepLoop_invariant {σ ι : Type} (step : σ → ι → Except PyErr σ)
    (P : σ → Prop) (l : List ι) (s s2 : σ)
    (h : stepLoop step l s = .ok s2)
    (hstep : ∀ t i t2, i ∈ l → step t i = .ok t2 → P t → P t2)
    (hs : P s) : P s2 := by
  induction l generalizing s with
  | nil =>
    simp only [stepLoop] at h
    injection h with h
    exact h ▸ hs
  | cons i l ih =>
    simp only [stepLoop] at h
    cases hi : step s i with
    | ok t =>
      rw [hi] at h
      exact ih t h
        (fun u j u2 hj => hstep u j u2 (List.mem_cons_of_mem _ hj))
        (hstep s i t (List.mem_cons_self _ _) hi hs)
    | error err =>
      rw [hi] at h
      exact Except.noConfusion h

theorem stepLoop_append {σ ι : Type} (step : σ → ι → Except PyErr σ)
    (l1 l2 : List ι) (s : σ) :
    stepLoop step (l1 ++ l2) s =
      match stepLoop step l1 s with
      | .ok t => stepLoop step l2 t
      | .error err => .error err := by
  induction l1 generalizing s with
  | nil => simp [stepLoop]
  | cons i l ih =>
    simp only [List.cons_append, stepLoop]
    cases step s i with
    | ok t => exact ih t
    | error err => rfl

theorem stepLoop_cons_ok {σ ι : Type} (step : σ → ι → Except PyErr σ)
    (i : ι) (l : List ι) (s s2 : σ)
    (h : stepLoop step (i :: l) s = .ok s2) :
    ∃ t, step s i = .ok t ∧ stepLoop step l t = .ok s2 := by
  simp only [stepLoop] at h
  cases hi : step s i with
  | ok t =>
    rw [hi] at h
    exact ⟨t, rfl, h⟩
  | error err =>
    rw [hi] at h
    exact Except.noConfusion h

theorem stepLoop_split {σ ι : Type} (step : σ → ι → Except PyErr σ)
    (l : List ι) (i : ι) (s s2 : σ) (hmem : i ∈ l)
    (h : stepLoop step l s = .ok s2) :
    ∃ l1 l2 t t2, l = l1 ++ i :: l2 ∧ stepLoop step l1 s = .ok t ∧
      step t i = .ok t2 ∧ stepLoop step l2 t2 = .ok s2 := by
  obtain ⟨l1, l2, rfl⟩ := List.append_of_mem hmem
  rw [stepLoop_append] at h
  cases h1 : stepLoop step l1 s with
  | ok t =>
    rw [h1] at h
    obtain ⟨t2, hstep, hrest⟩ := stepLoop_cons_ok step i l2 t s2 h
    exact ⟨l1, l2, t, t2, rfl, h1, hstep, hrest⟩
  | error err =>
    rw [h1] at h
    exact Except.noConfusion h

/-
Claim theorems: closed evaluations and counterexamples.
-/

/-- C1: for an exchange payload missing only the constraints group the
conversion succeeds, but the constraints group of the returned internal dict
is the one-element tuple produced by the trailing comma of source line 294
wrapping the default dict — not the default mapping itself that the claim
states. -/
theorem C1_constraints_default_is_tuple :
    convOk (convert_epa_params_to_mvs epaPayloadNoConstraints) = true ∧
    convOutGet (convert_epa_params_to_mvs epaPayloadNoConstraints) CONSTRAINTS
      = some constraintsDefault ∧
    constraintsDefault ≠
      .dict [(MINIMAL_RENEWABLE_FACTOR,
        .dict [(UNIT, .str "factor"), (VALUE, .int 0)])] :=
  ⟨rfl, rfl, fun h => Value.noConfusion h⟩

/-- C2: an exchange asset carrying a composite timeseries field keeps the
composite object and gains no sibling unit field: the relocation of source
lines 272-275 tests the label-keyed group dict instead of the asset, so for
an asset labeled `demand` it never fires. -/
theorem C2_timeseries_unit_not_relocated :
    ∃ da, convOutGet (convert_epa_params_to_mvs epaPayloadTimeseriesAsset)
        ENERGY_CONSUMPTION = some (.dict da) ∧
      pyGet da "demand" = some (.dict demandOutFields) ∧
      pyGet demandOutFields TIMESERIES
        = some (.dict [(UNIT, .str "kW"),
            (DATA, .list [.int 1, .int 2, .int 3])]) ∧
      pyGet demandOutFields UNIT = none :=
  ⟨_, rfl, rfl, rfl, rfl⟩

/-- C3 counterexample: after a successful exchange-to-internal conversion the
caller's input payload is mutated (its simulation-settings sub-dict now holds
the internal time-step field name), refuting purity of the entry points. -/
theorem C3_conversion_mutates_input :
    ∃ out after,
      convert_epa_params_to_mvs epaPayloadTimeseriesAsset = .ok (out, after) ∧
      after ≠ epaPayloadTimeseriesAsset := by
  refine ⟨_, _, rfl, ?_⟩
  intro h
  have h2 := congrArg (fun d => (pyGet d SIMULATION_SETTINGS).map valueKeys) h
  exact absurd h2 (by decide)

/-- C4 counterexample: an internal payload with an absent parameter group
raises KeyError instead of recording a diagnostic and returning. -/
theorem C4_absent_group_raises_keyerror :
    convert_mvs_params_to_epa [] false = .error .keyError := rfl

/-- C5 counterexample: the reverse-map construction of source line 101 is a
dict comprehension; on a forward table with two distinct keys sharing a value
it silently returns the ambiguous inverse keeping the later key — no
configuration error is raised. -/
theorem C5_duplicate_targets_inverted_silently :
    invertPyDict [("a", "x"), ("b", "x")] = [("x", "b")] ∧ "a" ≠ "b" :=
  ⟨rfl, by decide⟩

/-- C5 amended: no failing-fast mechanism exists (duplicates are silently
collapsed, later key winning), but the actual forward table has pairwise
distinct values, so the derived reverse table is its exact inverse: every
forward pair round-trips through both tables. -/
theorem C5_actual_tables_are_inverse :
    ∀ p ∈ MAP_EPA_MVS,
      pyGet MAP_MVS_EPA p.2 = some p.1 ∧ pyGet MAP_EPA_MVS p.1 = some p.2 := by
  decide

/-- Witness for C5 amended at the time-step pair. -/
theorem C5_actual_tables_are_inverse_witness :
    pyGet MAP_MVS_EPA ("time_step", "timestep").2
        = some ("time_step", "timestep").1 ∧
      pyGet MAP_EPA_MVS ("time_step", "timestep").1
        = some ("time_step", "timestep").2 :=
  C5_actual_tables_are_inverse ("time_step", "timestep") (by decide)

/-- C7 counterexample: the first call renames the time-step field of the
shared simulation-settings dict in place, so a second call on the same (now
mutated) input prunes the renamed field and returns a different exchange
dict. -/
theorem C7_second_call_differs :
    ∃ out1 after1 out2 after2,
      convert_mvs_params_to_epa mvsPayloadTimestep false = .ok (out1, after1) ∧
      convert_mvs_params_to_epa after1 false = .ok (out2, after2) ∧
      out1 ≠ out2 := by
  refine ⟨_, _, _, _, rfl, rfl, ?_⟩
  intro h
  have h2 := congrArg (fun d => (pyGet d "simulation_settings").map valueKeys) h
  exact absurd h2 (by decide)

/-- C7 amended: the conversion reads nothing but its arguments, so a repeated
invocation returns the same exchange dict whenever the first call left the
input value unchanged; in general the first call mutates its input in place,
and the counterexample shows the outputs then differ. -/
theorem C7_repeat_on_unchanged_input
    (m : PyDict Value) (vb : Bool) (out after : PyDict Value)
    (h : convert_mvs_params_to_epa m vb = .ok (out, after))
    (hfix : after = m) :
    convert_mvs_params_to_epa after vb = .ok (out, after) := by
  subst hfix
  exact h

/-- Witness for C7 amended: a payload the conversion leaves unchanged. -/
theorem C7_repeat_on_unchanged_input_witness :
    convert_mvs_params_to_epa mvsPayloadFixed false
      = .ok (mvsPayloadFixedOut, mvsPayloadFixed) :=
  C7_repeat_on_unchanged_input mvsPayloadFixed false mvsPayloadFixedOut
    mvsPayloadFixed rfl rfl

/-
Pipeline lemmas for convert_epa_params_to_mvs.
-/

theorem renameLoop_preserve (m : PyDict String) (d : PyDict Value)
    (k0 : String) (h1 : pyGet m k0 = none) (h2 : ∀ p ∈ m, p.2 ≠ k0) :
    pyGet (renameLoop m d) k0 = pyGet d k0 := by
  unfold renameLoop
  refine foldl_invariant _ (fun acc => pyGet acc k0 = pyGet d k0) _ _ ?_ rfl
  intro acc k hk hacc
  cases hm : pyGet m k with
  | none => simpa [hm] using hacc
  | some k2 =>
    by_cases hkk : k = k0
    · subst hkk
      rw [hm] at h1
      exact Option.noConfusion h1
    · have hk2 : k2 ≠ k0 := h2 (k, k2) (pyGet_mem _ _ _ hm)
      cases hp : pyPop acc k with
      | none => simpa [hm, hp] using hacc
      | some w =>
        obtain ⟨v, acc2⟩ := w
        have hpp := pyGet_pyPop_ne acc k k0 (fun hh => hkk hh.symm) v acc2 hp
        simp only [hm, hp]
        rw [pyGet_pySet_ne _ _ _ _ (Ne.symm hk2), hpp, hacc]

theorem epaParamStep_ok_cases (s s2 : PyDict Value × PyDict Value)
    (g : String) (h : epaParamStep s g = .ok s2) :
    ∃ e, pyGet MAP_MVS_EPA g = some e ∧
      ((pyGet s.2 e = none ∧ s2 = s) ∨
       (∃ d, pyGet s.2 e = some (.dict d) ∧
         s2 = (pySet s.1 g (.dict (renameLoop MAP_EPA_MVS d)),
               pySet s.2 e (.dict (renameLoop MAP_EPA_MVS d))))) := by
  unfold epaParamStep at h
  cases hm : pyGet MAP_MVS_EPA g with
  | none =>
    simp only [hm] at h
    exact Except.noConfusion h
  | some e =>
    simp only [hm] at h
    refine ⟨e, rfl, ?_⟩
    cases hv : pyGet s.2 e with
    | none =>
      simp only [hv] at h
      injection h with h
      exact .inl ⟨rfl, h.symm⟩
    | some v =>
      simp only [hv] at h
      cases v with
      | dict d =>
        injection h with h
        exact .inr ⟨d, rfl, h.symm⟩
      | str a => exact Except.noConfusion h
      | int a => exact Except.noConfusion h
      | bool a => exact Except.noConfusion h
      | list a => exact Except.noConfusion h
      | tuple a => exact Except.noConfusion h
      | series a => exact Except.noConfusion h

theorem epaShaped_param (p : PyDict Value) (g : String)
    (hsh : epaShaped p = true) (hg : g ∈ epaToMvsParamGroups) :
    paramEntryShaped (pyGet p (epaNameOf g)) = true := by
  simp only [epaShaped, Bool.and_eq_true, List.all_eq_true] at hsh
  exact hsh.1 g hg

theorem epaShaped_asset (p : PyDict Value) (g : String)
    (hsh : epaShaped p = true) (hg : g ∈ epaToMvsAssetGroups) :
    assetEntryShaped (pyGet p (epaNameOf g)) = true := by
  simp only [epaShaped, Bool.and_eq_true, List.all_eq_true] at hsh
  exact hsh.2 g hg

theorem epaParamStep_total (s : PyDict Value × PyDict Value) (g : String)
    (hg : g ∈ epaToMvsParamGroups) (hsh : epaShaped s.2 = true) :
    ∃ s2, epaParamStep s g = .ok s2 := by
  have hmap : ∃ e, pyGet MAP_MVS_EPA g = some e ∧ epaNameOf g = e := by
    fin_cases hg <;> exact ⟨_, rfl, rfl⟩
  obtain ⟨e, he, hname⟩ := hmap
  have hshape := epaShaped_param s.2 g hsh hg
  rw [hname] at hshape
  have hred : epaParamStep s g =
      (match pyGet s.2 e with
       | none => .ok s
       | some (.dict d) =>
         .ok (pySet s.1 g (.dict (renameLoop MAP_EPA_MVS d)),
              pySet s.2 e (.dict (renameLoop MAP_EPA_MVS d)))
       | some _ => .error .attributeError) := by
    unfold epaParamStep
    rw [he]
  rw [hred]
  cases hv : pyGet s.2 e with
  | none => exact ⟨s, rfl⟩
  | some v =>
    rw [hv] at hshape
    cases v with
    | dict d => exact ⟨_, rfl⟩
    | str a => exact absurd hshape (by simp [paramEntryShaped])
    | int a => exact absurd hshape (by simp [paramEntryShaped])
    | bool a => exact absurd hshape (by simp [paramEntryShaped])
    | list a => exact absurd hshape (by simp [paramEntryShaped])
    | tuple a => exact absurd hshape (by simp [paramEntryShaped])
    | series a => exact absurd hshape (by simp [paramEntryShaped])

theorem epaNames_inj :
    ∀ g1 ∈ epaToMvsParamGroups ++ epaToMvsAssetGroups,
    ∀ g2 ∈ epaToMvsParamGroups ++ epaToMvsAssetGroups,
      epaNameOf g1 = epaNameOf g2 → g1 = g2 := by
  decide

theorem epaGroups_disjoint :
    ∀ g ∈ epaToMvsParamGroups, g ∉ epaToMvsAssetGroups := by
  decide

theorem epaName_eq_of_map (g e : String)
    (h : pyGet MAP_MVS_EPA g = some e) : epaNameOf g = e := by
  rw [epaNameOf, h]
  rfl

theorem epaShaped_pySet_param (p : PyDict Value) (g : String)
    (d : List (String × Value)) (hg : g ∈ epaToMvsParamGroups)
    (hsh : epaShaped p = true) :
    epaShaped (pySet p (epaNameOf g) (.dict d)) = true := by
  simp only [epaShaped, Bool.and_eq_true, List.all_eq_true] at hsh ⊢
  obtain ⟨h1, h2⟩ := hsh
  constructor
  · intro g2 hg2
    by_cases heq : epaNameOf g2 = epaNameOf g
    · rw [heq, pyGet_pySet_self]
      rfl
    · rw [pyGet_pySet_ne _ _ _ _ heq]
      exact h1 g2 hg2
  · intro g2 hg2
    have hne : epaNameOf g2 ≠ epaNameOf g := by
      intro heq
      have h12 := epaNames_inj g2 (List.mem_append_right _ hg2) g
        (List.mem_append_left _ hg) heq
      exact epaGroups_disjoint g hg (h12 ▸ hg2)
    rw [pyGet_pySet_ne _ _ _ _ hne]
    exact h2 g2 hg2

theorem epaShaped_pySet_asset (p : PyDict Value) (g : String)
    (l : List Value) (hg : g ∈ epaToMvsAssetGroups)
    (hl : l.all recordShaped = true) (hsh : epaShaped p = true) :
    epaShaped (pySet p (epaNameOf g) (.list l)) = true := by
  simp only [epaShaped, Bool.and_eq_true, List.all_eq_true] at hsh ⊢
  obtain ⟨h1, h2⟩ := hsh
  constructor
  · intro g2 hg2
    have hne : epaNameOf g2 ≠ epaNameOf g := by
      intro heq
      have h12 := epaNames_inj g2 (List.mem_append_left _ hg2) g
        (List.mem_append_right _ hg) heq
      exact epaGroups_disjoint g2 hg2 (h12 ▸ hg)
    rw [pyGet_pySet_ne _ _ _ _ hne]
    exact h1 g2 hg2
  · intro g2 hg2
    by_cases heq : epaNameOf g2 = epaNameOf g
    · rw [heq, pyGet_pySet_self]
      exact hl
    · rw [pyGet_pySet_ne _ _ _ _ heq]
      exact h2 g2 hg2

theorem epaNoTs_pySet_param (p : PyDict Value) (g : String) (v : Value)
    (hg : g ∈ epaToMvsParamGroups)
    (hn : epaNoTimeseriesLabel p = true) :
    epaNoTimeseriesLabel (pySet p (epaNameOf g) v) = true := by
  simp only [epaNoTimeseriesLabel, List.all_eq_true] at hn ⊢
  intro g2 hg2
  have hne : epaNameOf g2 ≠ epaNameOf g := by
    intro heq
    have h12 := epaNames_inj g2 (List.mem_append_right _ hg2) g
      (List.mem_append_left _ hg) heq
    exact epaGroups_disjoint g hg (h12 ▸ hg2)
  rw [pyGet_pySet_ne _ _ _ _ hne]
  exact hn g2 hg2

theorem epaNoTs_pySet_asset (p : PyDict Value) (g : String) (l : List Value)
    (_hg : g ∈ epaToMvsAssetGroups)
    (hl : l.all (fun r => !(recLabel r == some TIMESERIES)) = true)
    (hn : epaNoTimeseriesLabel p = true) :
    epaNoTimeseriesLabel (pySet p (epaNameOf g) (.list l)) = true := by
  simp only [epaNoTimeseriesLabel, List.all_eq_true] at hn ⊢
  intro g2 hg2
  by_cases heq : epaNameOf g2 = epaNameOf g
  · rw [heq, pyGet_pySet_self]
    exact hl
  · rw [pyGet_pySet_ne _ _ _ _ heq]
    exact hn g2 hg2

theorem renameLoop_label (ad : PyDict Value) :
    pyGet (renameLoop MAP_EPA_MVS ad) LABEL = pyGet ad LABEL := by
  apply renameLoop_preserve
  · decide
  · decide

theorem epaAssetFold_total (assets : List Value) (da : PyDict Value)
    (hs : ∀ r ∈ assets, recordShaped r = true) :
    ∃ out, epaAssetFold assets da = .ok out := by
  induction assets generalizing da with
  | nil => exact ⟨(da, []), rfl⟩
  | cons a rest ih =>
    have ha := hs a (List.mem_cons_self _ _)
    cases a with
    | dict ad =>
      cases hl : pyGet ad LABEL with
      | none => simp [recordShaped, hl] at ha
      | some lv =>
        cases lv with
        | str l =>
          obtain ⟨⟨daF, restF⟩, hrec⟩ :=
            ih (pySet da l (.dict (renameLoop MAP_EPA_MVS ad)))
              (fun r hr => hs r (List.mem_cons_of_mem _ hr))
          refine ⟨(daF, .dict (renameLoop MAP_EPA_MVS ad) :: restF), ?_⟩
          simp only [epaAssetFold, hl, hrec]
        | int a => simp [recordShaped, hl] at ha
        | bool a => simp [recordShaped, hl] at ha
        | dict a => simp [recordShaped, hl] at ha
        | list a => simp [recordShaped, hl] at ha
        | tuple a => simp [recordShaped, hl] at ha
        | series a => simp [recordShaped, hl] at ha
    | str a => simp [recordShaped] at ha
    | int a => simp [recordShaped] at ha
    | bool a => simp [recordShaped] at ha
    | list a => simp [recordShaped] at ha
    | tuple a => simp [recordShaped] at ha
    | series a => simp [recordShaped] at ha

theorem epaAssetFold_get (assets : List Value) (da0 da : PyDict Value)
    (lst : List Value) (h : epaAssetFold assets da0 = .ok (da, lst))
    (k : String) :
    pyGet da k =
      match lastLabeled k assets with
      | some ad => some (.dict (renameLoop MAP_EPA_MVS ad))
      | none => pyGet da0 k := by
  induction assets generalizing da0 da lst with
  | nil =>
    simp only [epaAssetFold] at h
    injection h with h
    rw [Prod.mk.injEq] at h
    rw [← h.1]
    rfl
  | cons a rest ih =>
    cases a with
    | dict ad =>
      cases hl : pyGet ad LABEL with
      | none =>
        simp only [epaAssetFold, hl] at h
        exact Except.noConfusion h
      | some lv =>
        cases lv with
        | str l =>
          simp only [epaAssetFold, hl] at h
          cases hrec : epaAssetFold rest
              (pySet da0 l (.dict (renameLoop MAP_EPA_MVS ad))) with
          | error err =>
            rw [hrec] at h
            exact Except.noConfusion h
          | ok w =>
            obtain ⟨daF, restF⟩ := w
            rw [hrec] at h
            injection h with h
            rw [Prod.mk.injEq] at h
            obtain ⟨h1, h2⟩ := h
            subst h1
            have hih := ih _ _ _ hrec
            rw [hih]
            cases hlast : lastLabeled k rest with
            | some r => simp [lastLabeled, hlast]
            | none =>
              simp only [lastLabeled, hlast]
              by_cases hlk : l = k
              · subst hlk
                simp [hl, pyGet_pySet_self]
              · simp only [hl]
                rw [if_neg hlk, pyGet_pySet_ne _ _ _ _ (fun hh => hlk hh.symm)]
        | int a => simp only [epaAssetFold, hl] at h; exact Except.noConfusion h
        | bool a => simp only [epaAssetFold, hl] at h; exact Except.noConfusion h
        | dict a => simp only [epaAssetFold, hl] at h; exact Except.noConfusion h
        | list a => simp only [epaAssetFold, hl] at h; exact Except.noConfusion h
        | tuple a => simp only [epaAssetFold, hl] at h; exact Except.noConfusion h
        | series a => simp only [epaAssetFold, hl] at h; exact Except.noConfusion h
    | str a => exact Except.noConfusion h
    | int a => exact Except.noConfusion h
    | bool a => exact Except.noConfusion h
    | list a => exact Except.noConfusion h
    | tuple a => exact Except.noConfusion h
    | series a => exact Except.noConfusion h

theorem epaAssetFold_lst_spec (assets : List Value) (da0 da : PyDict Value)
    (lst : List Value) (h : epaAssetFold assets da0 = .ok (da, lst)) :
    ∀ r ∈ lst, ∃ ad, Value.dict ad ∈ assets ∧
      r = .dict (renameLoop MAP_EPA_MVS ad) := by
  induction assets generalizing da0 da lst with
  | nil =>
    simp only [epaAssetFold] at h
    injection h with h
    rw [Prod.mk.injEq] at h
    rw [← h.2]
    intro r hr
    exact absurd hr (List.not_mem_nil r)
  | cons a rest ih =>
    cases a with
    | dict ad =>
      cases hl : pyGet ad LABEL with
      | none =>
        simp only [epaAssetFold, hl] at h
        exact Except.noConfusion h
      | some lv =>
        cases lv with
        | str l =>
          simp only [epaAssetFold, hl] at h
          cases hrec : epaAssetFold rest
              (pySet da0 l (.dict (renameLoop MAP_EPA_MVS ad))) with
          | error err =>
            rw [hrec] at h
            exact Except.noConfusion h
          | ok w =>
            obtain ⟨daF, restF⟩ := w
            rw [hrec] at h
            injection h with h
            rw [Prod.mk.injEq] at h
            obtain ⟨h1, h2⟩ := h
            subst h1
            subst h2
            intro r hr
            rcases List.mem_cons.mp hr with hr | hr
            · exact ⟨ad, List.mem_cons_self _ _, hr⟩
            · obtain ⟨ad2, hmem, hr2⟩ := ih _ _ _ hrec r hr
              exact ⟨ad2, List.mem_cons_of_mem _ hmem, hr2⟩
        | int a => simp only [epaAssetFold, hl] at h; exact Except.noConfusion h
        | bool a => simp only [epaAssetFold, hl] at h; exact Except.noConfusion h
        | dict a => simp only [epaAssetFold, hl] at h; exact Except.noConfusion h
        | list a => simp only [epaAssetFold, hl] at h; exact Except.noConfusion h
        | tuple a => simp only [epaAssetFold, hl] at h; exact Except.noConfusion h
        | series a => simp only [epaAssetFold, hl] at h; exact Except.noConfusion h
    | str a => exact Except.noConfusion h
    | int a => exact Except.noConfusion h
    | bool a => exact Except.noConfusion h
    | list a => exact Except.noConfusion h
    | tuple a => exact Except.noConfusion h
    | series a => exact Except.noConfusion h

theorem lastLabeled_none_of_noTs (assets : List Value)
    (h : assets.all (fun r => !(recLabel r == some TIMESERIES)) = true) :
    lastLabeled TIMESERIES assets = none := by
  induction assets with
  | nil => rfl
  | cons a rest ih =>
    simp only [List.all_cons, Bool.and_eq_true] at h
    obtain ⟨ha, hrest⟩ := h
    have hr := ih hrest
    simp only [lastLabeled, hr]
    cases a with
    | dict ad =>
      cases hl : pyGet ad LABEL with
      | none => simp [hl]
      | some lv =>
        cases lv with
        | str s =>
          simp only [recLabel, hl] at ha
          have hs : ¬(s = TIMESERIES) := by
            intro hh
            subst hh
            simp at ha
          simp [hl, hs]
        | int a => simp [hl]
        | bool a => simp [hl]
        | dict a => simp [hl]
        | list a => simp [hl]
        | tuple a => simp [hl]
        | series a => simp [hl]
    | str a => rfl
    | int a => rfl
    | bool a => rfl
    | list a => rfl
    | tuple a => rfl
    | series a => rfl

theorem epaRelocate_noop (da : PyDict Value) (lst : List Value)
    (h : pyGet da TIMESERIES = none) :
    epaRelocateTimeseries da lst = .ok (da, lst) := by
  simp [epaRelocateTimeseries, pyMem, h]

theorem epaAssetStep_ok_cases (s s2 : PyDict Value × PyDict Value)
    (g : String) (h : epaAssetStep s g = .ok s2) :
    ∃ e, pyGet MAP_MVS_EPA g = some e ∧
      ((pyGet s.2 e = none ∧ s2 = s) ∨
       (∃ assets da lst da2 lst2,
          pyGet s.2 e = some (.list assets) ∧
          epaAssetFold assets [] = .ok (da, lst) ∧
          epaRelocateTimeseries da lst = .ok (da2, lst2) ∧
          s2 = (pySet s.1 g (.dict da2), pySet s.2 e (.list lst2)))) := by
  unfold epaAssetStep at h
  cases hm : pyGet MAP_MVS_EPA g with
  | none =>
    simp only [hm] at h
    exact Except.noConfusion h
  | some e =>
    simp only [hm] at h
    refine ⟨e, rfl, ?_⟩
    cases hv : pyGet s.2 e with
    | none =>
      simp only [hv] at h
      injection h with h
      exact .inl ⟨rfl, h.symm⟩
    | some v =>
      simp only [hv] at h
      cases v with
      | list assets =>
        cases hf : epaAssetFold assets [] with
        | error err =>
          simp only [hf] at h
          exact Except.noConfusion h
        | ok w =>
          obtain ⟨da, lst⟩ := w
          simp only [hf] at h
          cases hrel : epaRelocateTimeseries da lst with
          | error err =>
            simp only [hrel] at h
            exact Except.noConfusion h
          | ok w2 =>
            obtain ⟨da2, lst2⟩ := w2
            simp only [hrel] at h
            injection h with h
            exact .inr ⟨assets, da, lst, da2, lst2, rfl, hf, hrel, h.symm⟩
      | str a => exact Except.noConfusion h
      | int a => exact Except.noConfusion h
      | bool a => exact Except.noConfusion h
      | dict a => exact Except.noConfusion h
      | tuple a => exact Except.noConfusion h
      | series a => exact Except.noConfusion h

theorem epaAssetStep_total (s : PyDict Value × PyDict Value) (g : String)
    (hg : g ∈ epaToMvsAssetGroups) (hsh : epaShaped s.2 = true)
    (hts : epaNoTimeseriesLabel s.2 = true) :
    ∃ s2, epaAssetStep s g = .ok s2 := by
  have hmap : ∃ e, pyGet MAP_MVS_EPA g = some e ∧ epaNameOf g = e := by
    fin_cases hg <;> exact ⟨_, rfl, rfl⟩
  obtain ⟨e, he, hname⟩ := hmap
  have hshape := epaShaped_asset s.2 g hsh hg
  have hts2 : noTsEntry (pyGet s.2 (epaNameOf g)) = true := by
    simp only [epaNoTimeseriesLabel, List.all_eq_true] at hts
    exact hts g hg
  rw [hname] at hshape hts2
  have hred : epaAssetStep s g =
      (match pyGet s.2 e with
       | none => .ok s
       | some (.list assets) =>
         match epaAssetFold assets [] with
         | .ok (da, assets2) =>
           match epaRelocateTimeseries da assets2 with
           | .ok (da2, assets3) =>
             .ok (pySet s.1 g (.dict da2), pySet s.2 e (.list assets3))
           | .error err => .error err
         | .error err => .error err
       | some _ => .error .typeError) := by
    unfold epaAssetStep
    rw [he]
  rw [hred]
  cases hv : pyGet s.2 e with
  | none => exact ⟨s, rfl⟩
  | some v =>
    rw [hv] at hshape hts2
    cases v with
    | list assets =>
      have hrecs : ∀ r ∈ assets, recordShaped r = true := by
        simp only [assetEntryShaped, List.all_eq_true] at hshape
        exact hshape
      obtain ⟨⟨da, lst⟩, hf⟩ := epaAssetFold_total assets [] hrecs
      have hts3 : assets.all (fun r => !(recLabel r == some TIMESERIES)) = true :=
        hts2
      have hda : pyGet da TIMESERIES = none := by
        have hget := epaAssetFold_get assets [] da lst hf TIMESERIES
        rw [lastLabeled_none_of_noTs assets hts3] at hget
        exact hget
      have hrel := epaRelocate_noop da lst hda
      refine ⟨(pySet s.1 g (.dict da), pySet s.2 e (.list lst)), ?_⟩
      simp only [hf, hrel]
    | str a => exact absurd hshape (by simp [assetEntryShaped])
    | int a => exact absurd hshape (by simp [assetEntryShaped])
    | bool a => exact absurd hshape (by simp [assetEntryShaped])
    | dict a => exact absurd hshape (by simp [assetEntryShaped])
    | tuple a => exact absurd hshape (by simp [assetEntryShaped])
    | series a => exact absurd hshape (by simp [assetEntryShaped])

theorem stepLoop_total {σ ι : Type} (step : σ → ι → Except PyErr σ)
    (P : σ → Prop) (l : List ι) (s : σ) (hP : P s)
    (hstep : ∀ t i, i ∈ l → P t → ∃ t2, step t i = .ok t2 ∧ P t2) :
    ∃ s2, stepLoop step l s = .ok s2 ∧ P s2 := by
  induction l generalizing s with
  | nil => exact ⟨s, rfl, hP⟩
  | cons i l ih =>
    obtain ⟨t2, hst, hP2⟩ := hstep s i (List.mem_cons_self _ _) hP
    obtain ⟨s2, hloop, hPf⟩ :=
      ih t2 hP2 (fun t j hj => hstep t j (List.mem_cons_of_mem _ hj))
    refine ⟨s2, ?_, hPf⟩
    simp only [stepLoop, hst]
    exact hloop

theorem mem_pyRemove_of_ne {α : Type u} (d : PyDict α) (k g : String)
    (ks : α) (h : (g, ks) ∈ d) (hne : g ≠ k) : (g, ks) ∈ pyRemove d k := by
  induction d with
  | nil => exact absurd h (List.not_mem_nil _)
  | cons p d ih =>
    obtain ⟨a, b⟩ := p
    rcases List.mem_cons.mp h with h | h
    · rw [Prod.mk.injEq] at h
      obtain ⟨h1, h2⟩ := h
      subst h1
      subst h2
      simp only [pyRemove, if_neg (fun hh : g = k => hne hh)]
      exact List.mem_cons_self _ _
    · by_cases hk : a = k
      · simp only [pyRemove, if_pos hk]
        exact h
      · simp only [pyRemove, if_neg hk]
        exact List.mem_cons_of_mem _ (ih h)

theorem missingLines_mem (d : PyDict (List String)) (g : String)
    (ks : List String) (h : (g, ks) ∈ d) :
    g ∈ missingLines d ∧
      ∀ k ∈ ks, ("\t`" ++ k ++ "` parameter") ∈ missingLines d := by
  induction d with
  | nil => exact absurd h (List.not_mem_nil _)
  | cons p d ih =>
    obtain ⟨a, b⟩ := p
    rcases List.mem_cons.mp h with h | h
    · injection h with h1 h2
      subst h1
      subst h2
      constructor
      · exact List.mem_cons_self _ _
      · intro k hk
        refine List.mem_cons_of_mem _ ?_
        exact List.mem_append_left _ (List.mem_map_of_mem _ hk)
    · obtain ⟨ih1, ih2⟩ := ih h
      constructor
      · exact List.mem_cons_of_mem _ (List.mem_append_right _ ih1)
      · intro k hk
        exact List.mem_cons_of_mem _ (List.mem_append_right _ (ih2 k hk))

theorem compareMissing_mem_of_absent (dv : PyDict Value)
    (ref : PyDict (List String)) (g : String) (reqs : List String)
    (href : (g, reqs) ∈ ref) (habs : pyGet dv g = none) :
    (g, reqs) ∈ compareMissing dv ref := by
  induction ref with
  | nil => exact absurd href (List.not_mem_nil _)
  | cons p ref ih =>
    obtain ⟨a, rs⟩ := p
    rcases List.mem_cons.mp href with h | h
    · injection h with h1 h2
      subst h1
      subst h2
      simp only [compareMissing, habs]
      exact List.mem_cons_self _ _
    · simp only [compareMissing]
      cases hv : pyGet dv a with
      | none => exact List.mem_cons_of_mem _ (ih h)
      | some v =>
        by_cases hm : (rs.filter fun k => !(valueKeys v).contains k).isEmpty
        · simp only [hm, if_pos rfl]
          exact ih h
        · simp only [if_neg hm]
          exact List.mem_cons_of_mem _ (ih h)

theorem pyGet_none_of_not_mem_keys {α : Type u} (d : PyDict α) (g : String)
    (h : g ∉ pyKeys d) : pyGet d g = none := by
  induction d with
  | nil => rfl
  | cons p d ih =>
    obtain ⟨a, b⟩ := p
    have hga : ¬(a = g) := fun hh => h (hh ▸ List.mem_cons_self _ _)
    simp only [pyGet, if_neg hga]
    exact ih (fun hh => h (List.mem_cons_of_mem _ hh))

theorem compareMissing_mem_keys (dv : PyDict Value)
    (ref : PyDict (List String)) :
    ∀ q ∈ compareMissing dv ref, q.1 ∈ pyKeys ref := by
  induction ref with
  | nil => intro q hq; exact absurd hq (List.not_mem_nil _)
  | cons p ref ih =>
    obtain ⟨a, rs⟩ := p
    intro q hq
    cases hv : pyGet dv a with
    | none =>
      simp only [compareMissing, hv] at hq
      rcases List.mem_cons.mp hq with hq | hq
      · rw [hq]
        exact List.mem_cons_self _ _
      · exact List.mem_cons_of_mem _ (ih q hq)
    | some v =>
      simp only [compareMissing, hv] at hq
      split at hq
      · exact List.mem_cons_of_mem _ (ih q hq)
      · rcases List.mem_cons.mp hq with hq | hq
        · rw [hq]
          exact List.mem_cons_self _ _
        · exact List.mem_cons_of_mem _ (ih q hq)

theorem pyGet_compareMissing_none (dv : PyDict Value)
    (ref : PyDict (List String)) (g : String) (hg : g ∉ pyKeys ref) :
    pyGet (compareMissing dv ref) g = none := by
  cases hv : pyGet (compareMissing dv ref) g with
  | none => rfl
  | some v =>
    exact absurd (compareMissing_mem_keys dv ref _ (pyGet_mem _ _ _ hv)) hg

theorem pyGet_compareMissing (dv : PyDict Value) (ref : PyDict (List String))
    (g : String) (hnd : (pyKeys ref).Nodup) :
    pyGet (compareMissing dv ref) g =
      match pyGet ref g with
      | none => none
      | some reqs =>
        match pyGet dv g with
        | none => some reqs
        | some v =>
          if ((reqs.filter fun k => !(valueKeys v).contains k)).isEmpty
          then none
          else some (reqs.filter fun k => !(valueKeys v).contains k) := by
  induction ref with
  | nil => rfl
  | cons p ref ih =>
    obtain ⟨a, rs⟩ := p
    have hnd2 : (pyKeys ref).Nodup := (List.nodup_cons.mp hnd).2
    have hna : a ∉ pyKeys ref := (List.nodup_cons.mp hnd).1
    by_cases hag : a = g
    · subst hag
      cases hv : pyGet dv a with
      | none =>
        simp only [compareMissing, hv, pyGet, if_pos rfl, if_true]
      | some v =>
        simp only [compareMissing, hv, pyGet, if_pos rfl, if_true]
        split
        · exact pyGet_compareMissing_none dv ref a hna
        · simp [pyGet]
    · cases hv : pyGet dv a with
      | none =>
        simp only [compareMissing, hv, pyGet, if_neg hag]
        exact ih hnd2
      | some v =>
        simp only [compareMissing, hv]
        split
        · rw [ih hnd2]
          simp only [pyGet, if_neg hag]
        · simp only [pyGet, if_neg hag]
          exact ih hnd2

theorem defaultConstraintsStep_spec (dv : PyDict Value)
    (d : PyDict (List String)) :
    ∃ dva da, defaultConstraintsStep dv d = (dva, da) ∧
      (∀ g ks, (g, ks) ∈ d → g ≠ CONSTRAINTS → (g, ks) ∈ da) ∧
      pyGet dva SIMULATION_SETTINGS = pyGet dv SIMULATION_SETTINGS ∧
      pyGet da SIMULATION_SETTINGS = pyGet d SIMULATION_SETTINGS := by
  unfold defaultConstraintsStep
  by_cases hc : pyMem d CONSTRAINTS = true
  · rw [if_pos hc]
    refine ⟨_, _, rfl, ?_, ?_, ?_⟩
    · intro g ks hm hne
      exact mem_pyRemove_of_ne d CONSTRAINTS g ks hm hne
    · exact pyGet_pySet_ne _ _ _ _ (by decide)
    · exact pyGet_pyRemove_ne _ _ _ (by decide)
  · rw [if_neg hc]
    exact ⟨dv, d, rfl, fun g ks hm _ => hm, rfl, rfl⟩

theorem defaultSimSettingsStep_spec (dv after : PyDict Value)
    (d : PyDict (List String))
    (hsim : paramEntryShaped (pyGet dv SIMULATION_SETTINGS) = true)
    (hd : ∀ ks, pyGet d SIMULATION_SETTINGS = some ks →
      (ks.contains OUTPUT_LP_FILE && ks.length == 1) = true →
      pyGet dv SIMULATION_SETTINGS ≠ none) :
    ∃ dvb afterb db, defaultSimSettingsStep dv after d = .ok (dvb, afterb, db) ∧
      (∀ g ks, (g, ks) ∈ d → g ≠ SIMULATION_SETTINGS → (g, ks) ∈ db) := by
  cases hks : pyGet d SIMULATION_SETTINGS with
  | none =>
    refine ⟨dv, after, d, ?_, fun g ks hm _ => hm⟩
    unfold defaultSimSettingsStep
    rw [hks]
  | some ks =>
    have hred : defaultSimSettingsStep dv after d =
        (if (ks.contains OUTPUT_LP_FILE && ks.length == 1) then
          match pyGet dv SIMULATION_SETTINGS with
          | some (.dict sd) =>
            match pyGet MAP_MVS_EPA SIMULATION_SETTINGS with
            | some e =>
              .ok (pySet dv SIMULATION_SETTINGS
                     (.dict (pySet sd OUTPUT_LP_FILE lpFileDefault)),
                   pySet after e
                     (.dict (pySet sd OUTPUT_LP_FILE lpFileDefault)),
                   pyRemove d SIMULATION_SETTINGS)
            | none => .error .keyError
          | some _ => .error .typeError
          | none => .error .keyError
        else .ok (dv, after, d)) := by
      unfold defaultSimSettingsStep
      rw [hks]
    rw [hred]
    by_cases hc : (ks.contains OUTPUT_LP_FILE && ks.length == 1) = true
    · rw [if_pos hc]
      cases hv : pyGet dv SIMULATION_SETTINGS with
      | none => exact absurd hv (hd ks hks hc)
      | some v =>
        rw [hv] at hsim
        cases v with
        | dict sd =>
          refine ⟨_, _, _, rfl, ?_⟩
          intro g ks2 hm hne
          exact mem_pyRemove_of_ne d SIMULATION_SETTINGS g ks2 hm hne
        | str a => exact absurd hsim (by simp [paramEntryShaped])
        | int a => exact absurd hsim (by simp [paramEntryShaped])
        | bool a => exact absurd hsim (by simp [paramEntryShaped])
        | list a => exact absurd hsim (by simp [paramEntryShaped])
        | tuple a => exact absurd hsim (by simp [paramEntryShaped])
        | series a => exact absurd hsim (by simp [paramEntryShaped])
    · rw [if_neg hc]
      exact ⟨dv, after, d, rfl, fun g ks2 hm _ => hm⟩

theorem defaultFixCostStep_spec (dv : PyDict Value)
    (d : PyDict (List String)) :
    ∃ dvc dc, defaultFixCostStep dv d = (dvc, dc) ∧
      (∀ g ks, (g, ks) ∈ d → g ≠ FIX_COST → (g, ks) ∈ dc) := by
  unfold defaultFixCostStep
  by_cases hc : pyMem d FIX_COST = true
  · rw [if_pos hc]
    refine ⟨_, _, rfl, ?_⟩
    intro g ks hm hne
    exact mem_pyRemove_of_ne d FIX_COST g ks hm hne
  · rw [if_neg hc]
    exact ⟨dv, d, rfl, fun g ks hm _ => hm⟩

theorem applyRecoverableDefaults_spec (dv after : PyDict Value)
    (d : PyDict (List String))
    (hsim : paramEntryShaped (pyGet dv SIMULATION_SETTINGS) = true)
    (hd : ∀ ks, pyGet d SIMULATION_SETTINGS = some ks →
      (ks.contains OUTPUT_LP_FILE && ks.length == 1) = true →
      pyGet dv SIMULATION_SETTINGS ≠ none) :
    ∃ dv2 after2 d2,
      applyRecoverableDefaults dv after d = .ok (dv2, after2, d2) ∧
      ∀ g ks, (g, ks) ∈ d → g ≠ CONSTRAINTS → g ≠ SIMULATION_SETTINGS →
        g ≠ FIX_COST → (g, ks) ∈ d2 := by
  obtain ⟨dva, da, h1, hmem1, hsim1, hd1⟩ := defaultConstraintsStep_spec dv d
  have hsim2 : paramEntryShaped (pyGet dva SIMULATION_SETTINGS) = true := by
    rw [hsim1]
    exact hsim
  have hd2 : ∀ ks, pyGet da SIMULATION_SETTINGS = some ks →
      (ks.contains OUTPUT_LP_FILE && ks.length == 1) = true →
      pyGet dva SIMULATION_SETTINGS ≠ none := by
    intro ks hks hc
    rw [hsim1, hd1] at *
    exact hd ks (hd1 ▸ hks) hc
  obtain ⟨dvb, afterb, db, h2, hmem2⟩ :=
    defaultSimSettingsStep_spec dva after da hsim2 hd2
  obtain ⟨dvc, dc, h3, hmem3⟩ := defaultFixCostStep_spec dvb db
  refine ⟨dvc, afterb, dc, ?_, ?_⟩
  · unfold applyRecoverableDefaults
    simp only [h1, h2, h3]
  · intro g ks hm hc hs hf
    exact hmem3 g ks (hmem2 g ks (hmem1 g ks hm hc) hs) hf

theorem epaParamStep_keeps_base (t t2 : PyDict Value × PyDict Value)
    (g : String) (hg : g ∈ epaToMvsParamGroups)
    (hstep : epaParamStep t g = .ok t2)
    (hsh : epaShaped t.2 = true) (hts : epaNoTimeseriesLabel t.2 = true) :
    epaShaped t2.2 = true ∧ epaNoTimeseriesLabel t2.2 = true := by
  obtain ⟨e, he, hcase⟩ := epaParamStep_ok_cases t t2 g hstep
  have hname := epaName_eq_of_map g e he
  rcases hcase with ⟨_, rfl⟩ | ⟨d, hval, rfl⟩
  · exact ⟨hsh, hts⟩
  · subst hname
    exact ⟨epaShaped_pySet_param _ _ _ hg hsh,
           epaNoTs_pySet_param _ _ _ hg hts⟩

theorem epaAssetStep_keeps_base (t t2 : PyDict Value × PyDict Value)
    (g : String) (hg : g ∈ epaToMvsAssetGroups)
    (hstep : epaAssetStep t g = .ok t2)
    (hsh : epaShaped t.2 = true) (hts : epaNoTimeseriesLabel t.2 = true) :
    epaShaped t2.2 = true ∧ epaNoTimeseriesLabel t2.2 = true := by
  obtain ⟨e, he, hcase⟩ := epaAssetStep_ok_cases t t2 g hstep
  have hname := epaName_eq_of_map g e he
  rcases hcase with ⟨_, rfl⟩ |
    ⟨assets, da, lst, da2, lst2, hval, hf, hrel, rfl⟩
  · exact ⟨hsh, hts⟩
  · subst hname
    have hshape := epaShaped_asset t.2 g hsh hg
    have hts2 : noTsEntry (pyGet t.2 (epaNameOf g)) = true := by
      simp only [epaNoTimeseriesLabel, List.all_eq_true] at hts
      exact hts g hg
    rw [hval] at hshape hts2
    have hrecs : ∀ r ∈ assets, recordShaped r = true := by
      simp only [assetEntryShaped, List.all_eq_true] at hshape
      exact hshape
    have htsl : assets.all (fun r => !(recLabel r == some TIMESERIES)) = true :=
      hts2
    have hda : pyGet da TIMESERIES = none := by
      have hget := epaAssetFold_get assets [] da lst hf TIMESERIES
      rw [lastLabeled_none_of_noTs assets htsl] at hget
      exact hget
    have hrel2 := epaRelocate_noop da lst hda
    rw [hrel2] at hrel
    injection hrel with hrel
    rw [Prod.mk.injEq] at hrel
    obtain ⟨hda2, hlst2⟩ := hrel
    subst hda2
    subst hlst2
    have hlstshape : lst.all recordShaped = true := by
      rw [List.all_eq_true]
      intro r hr
      obtain ⟨ad, hmem, rfl⟩ := epaAssetFold_lst_spec assets [] da lst hf r hr
      have h0 := hrecs _ hmem
      simp only [recordShaped] at h0 ⊢
      rw [renameLoop_label]
      exact h0
    have hlstts : lst.all (fun r => !(recLabel r == some TIMESERIES)) = true := by
      rw [List.all_eq_true]
      intro r hr
      obtain ⟨ad, hmem, rfl⟩ := epaAssetFold_lst_spec assets [] da lst hf r hr
      have h0 := List.all_eq_true.mp htsl _ hmem
      simp only [recLabel] at h0 ⊢
      rw [renameLoop_label]
      exact h0
    exact ⟨epaShaped_pySet_asset _ _ _ hg hlstshape hsh,
           epaNoTs_pySet_asset _ _ _ hg hlstts hts⟩

/-- C6: for every well-shaped exchange payload whose economic-data group is
absent, and in which no asset record is labeled `timeseries` (a label that
would divert the conversion into the defective relocation step and can raise
KeyError first), the conversion raises MissingParameterError; its message
lines contain the economic-data group name and, for every group of the
post-default missing report, the group name and one line per missing
sub-field. -/
theorem C6_missing_economic_data_raises (epa : PyDict Value)
    (hsh : epaShaped epa = true) (hts : epaNoTimeseriesLabel epa = true)
    (habs : pyGet epa ECONOMIC_DATA = none) :
    ∃ dmiss, convert_epa_params_to_mvs epa
        = .error (.missingParameterError (buildErrorLines dmiss)) ∧
      (ECONOMIC_DATA, ([] : List String)) ∈ dmiss ∧
      ECONOMIC_DATA ∈ buildErrorLines dmiss ∧
      ∀ g ks, (g, ks) ∈ dmiss → g ∈ buildErrorLines dmiss ∧
        ∀ k ∈ ks, ("\t`" ++ k ++ "` parameter") ∈ buildErrorLines dmiss := by
  have hparam : ∀ t g, g ∈ epaToMvsParamGroups →
      (epaShaped t.2 = true ∧ epaNoTimeseriesLabel t.2 = true ∧
       pyGet t.2 ECONOMIC_DATA = none ∧ pyGet t.1 ECONOMIC_DATA = none ∧
       paramEntryShaped (pyGet t.1 SIMULATION_SETTINGS) = true) →
      ∃ t2, epaParamStep t g = .ok t2 ∧
        (epaShaped t2.2 = true ∧ epaNoTimeseriesLabel t2.2 = true ∧
         pyGet t2.2 ECONOMIC_DATA = none ∧ pyGet t2.1 ECONOMIC_DATA = none ∧
         paramEntryShaped (pyGet t2.1 SIMULATION_SETTINGS) = true) := by
    rintro t g hg ⟨h1, h2, h3, h4, h5⟩
    obtain ⟨t2, hstep⟩ := epaParamStep_total t g hg h1
    obtain ⟨hb1, hb2⟩ := epaParamStep_keeps_base t t2 g hg hstep h1 h2
    obtain ⟨e, he, hcase⟩ := epaParamStep_ok_cases t t2 g hstep
    have hname := epaName_eq_of_map g e he
    have hnotED : ∀ dd : List (String × Value),
        pyGet t.2 e = some (.dict dd) → g ≠ ECONOMIC_DATA := by
      intro dd hval hgED
      subst hgED
      have he2 : e = ECONOMIC_DATA := by
        have hmap : pyGet MAP_MVS_EPA ECONOMIC_DATA = some ECONOMIC_DATA := by
          decide
        rw [hmap] at he
        injection he with he2
        exact he2.symm
      subst he2
      rw [h3] at hval
      exact Option.noConfusion hval
    refine ⟨t2, hstep, hb1, hb2, ?_, ?_, ?_⟩
    · rcases hcase with ⟨hnone, rfl⟩ | ⟨dd, hval, rfl⟩
      · exact h3
      · have hgne := hnotED dd hval
        have hene : ECONOMIC_DATA ≠ e := by
          intro hh
          apply hgne
          refine epaNames_inj g (List.mem_append_left _ hg) ECONOMIC_DATA
            (List.mem_append_left _ (by decide)) ?_
          rw [hname, ← hh]
          decide
        rw [pyGet_pySet_ne _ _ _ _ hene]
        exact h3
    · rcases hcase with ⟨hnone, rfl⟩ | ⟨dd, hval, rfl⟩
      · exact h4
      · have hgne := hnotED dd hval
        rw [pyGet_pySet_ne _ _ _ _ (fun hh => hgne hh.symm)]
        exact h4
    · rcases hcase with ⟨hnone, rfl⟩ | ⟨dd, hval, rfl⟩
      · exact h5
      · by_cases hgs : g = SIMULATION_SETTINGS
        · subst hgs
          rw [pyGet_pySet_self]
          rfl
        · rw [pyGet_pySet_ne _ _ _ _ (fun hh => hgs hh.symm)]
          exact h5
  have hasset : ∀ t g, g ∈ epaToMvsAssetGroups →
      (epaShaped t.2 = true ∧ epaNoTimeseriesLabel t.2 = true ∧
       pyGet t.2 ECONOMIC_DATA = none ∧ pyGet t.1 ECONOMIC_DATA = none ∧
       paramEntryShaped (pyGet t.1 SIMULATION_SETTINGS) = true) →
      ∃ t2, epaAssetStep t g = .ok t2 ∧
        (epaShaped t2.2 = true ∧ epaNoTimeseriesLabel t2.2 = true ∧
         pyGet t2.2 ECONOMIC_DATA = none ∧ pyGet t2.1 ECONOMIC_DATA = none ∧
         paramEntryShaped (pyGet t2.1 SIMULATION_SETTINGS) = true) := by
    rintro t g hg ⟨h1, h2, h3, h4, h5⟩
    obtain ⟨t2, hstep⟩ := epaAssetStep_total t g hg h1 h2
    obtain ⟨hb1, hb2⟩ := epaAssetStep_keeps_base t t2 g hg hstep h1 h2
    obtain ⟨e, he, hcase⟩ := epaAssetStep_ok_cases t t2 g hstep
    have hname := epaName_eq_of_map g e he
    have hgED : g ≠ ECONOMIC_DATA :=
      fun hh => epaGroups_disjoint ECONOMIC_DATA (by decide) (hh ▸ hg)
    have hgSIM : g ≠ SIMULATION_SETTINGS :=
      fun hh => epaGroups_disjoint SIMULATION_SETTINGS (by decide) (hh ▸ hg)
    have heED : ECONOMIC_DATA ≠ e := by
      intro hh
      apply hgED
      refine epaNames_inj g (List.mem_append_right _ hg) ECONOMIC_DATA
        (List.mem_append_left _ (by decide)) ?_
      rw [hname, ← hh]
      decide
    refine ⟨t2, hstep, hb1, hb2, ?_, ?_, ?_⟩
    · rcases hcase with ⟨hnone, rfl⟩ |
        ⟨assets, da, lst, da2, lst2, hval, hf, hrel, rfl⟩
      · exact h3
      · rw [pyGet_pySet_ne _ _ _ _ heED]
        exact h3
    · rcases hcase with ⟨hnone, rfl⟩ |
        ⟨assets, da, lst, da2, lst2, hval, hf, hrel, rfl⟩
      · exact h4
      · rw [pyGet_pySet_ne _ _ _ _ (fun hh => hgED hh.symm)]
        exact h4
    · rcases hcase with ⟨hnone, rfl⟩ |
        ⟨assets, da, lst, da2, lst2, hval, hf, hrel, rfl⟩
      · exact h5
      · rw [pyGet_pySet_ne _ _ _ _ (fun hh => hgSIM hh.symm)]
        exact h5
  obtain ⟨s1, hloop1, hinv1⟩ := stepLoop_total epaParamStep _
    epaToMvsParamGroups ([], epa) ⟨hsh, hts, habs, rfl, rfl⟩
    (fun t i hi hP => hparam t i hi hP)
  obtain ⟨⟨dv, aft⟩, hloop2, hinv2⟩ := stepLoop_total epaAssetStep _
    epaToMvsAssetGroups s1 hinv1 (fun t i hi hP => hasset t i hi hP)
  obtain ⟨hf1, hf2, hf3, hf4, hf5⟩ := hinv2
  have hd : ∀ ks,
      pyGet (compareMissing dv REQUIRED_REFERENCE) SIMULATION_SETTINGS
        = some ks →
      (ks.contains OUTPUT_LP_FILE && ks.length == 1) = true →
      pyGet dv SIMULATION_SETTINGS ≠ none := by
    intro ks hks hc
    rw [pyGet_compareMissing dv REQUIRED_REFERENCE SIMULATION_SETTINGS
      (by decide)] at hks
    have href : pyGet REQUIRED_REFERENCE SIMULATION_SETTINGS
        = some [START_DATE, EVALUATED_PERIOD, TIMESTEP, OUTPUT_LP_FILE] := by
      decide
    cases hv : pyGet dv SIMULATION_SETTINGS with
    | some v => exact fun hh => Option.noConfusion hh
    | none =>
      rw [hv] at hks
      simp only [href] at hks
      injection hks with hks
      subst hks
      exact absurd hc (by decide)
  obtain ⟨dv2, after2, d2, hdef, hkeep⟩ :=
    applyRecoverableDefaults_spec dv aft
      (compareMissing dv REQUIRED_REFERENCE) hf5 hd
  have hmem : (ECONOMIC_DATA, ([] : List String)) ∈
      compareMissing dv REQUIRED_REFERENCE :=
    compareMissing_mem_of_absent dv REQUIRED_REFERENCE ECONOMIC_DATA []
      (by decide) hf4
  have hmem2 : (ECONOMIC_DATA, ([] : List String)) ∈ d2 :=
    hkeep _ _ hmem (by decide) (by decide) (by decide)
  have hem : (compareMissing dv REQUIRED_REFERENCE).isEmpty = false := by
    cases hcc : compareMissing dv REQUIRED_REFERENCE with
    | nil =>
      rw [hcc] at hmem
      exact absurd hmem (List.not_mem_nil _)
    | cons a l => rfl
  have hem2 : d2.isEmpty = false := by
    cases hcc : d2 with
    | nil =>
      rw [hcc] at hmem2
      exact absurd hmem2 (List.not_mem_nil _)
    | cons a l => rfl
  refine ⟨d2, ?_, hmem2, ?_, ?_⟩
  · unfold convert_epa_params_to_mvs
    simp only [hloop1, hloop2, hem, hdef, hem2, Bool.false_eq_true, if_false]
  · unfold buildErrorLines
    exact List.mem_append_right _
      ((missingLines_mem d2 ECONOMIC_DATA [] hmem2).1)
  · intro g ks hgks
    obtain ⟨hL1, hL2⟩ := missingLines_mem d2 g ks hgks
    unfold buildErrorLines
    exact ⟨List.mem_append_right _ hL1,
      fun k hk => List.mem_append_right _ (hL2 k hk)⟩

/-- Witness for C6 at a concrete well-shaped payload missing the
economic-data group. -/
theorem C6_missing_economic_data_raises_witness :
    ∃ dmiss, convert_epa_params_to_mvs epaPayloadNoEconomicData
        = .error (.missingParameterError (buildErrorLines dmiss)) ∧
      (ECONOMIC_DATA, ([] : List String)) ∈ dmiss ∧
      ECONOMIC_DATA ∈ buildErrorLines dmiss ∧
      ∀ g ks, (g, ks) ∈ dmiss → g ∈ buildErrorLines dmiss ∧
        ∀ k ∈ ks, ("\t`" ++ k ++ "` parameter") ∈ buildErrorLines dmiss :=
  C6_missing_economic_data_raises epaPayloadNoEconomicData (by decide)
    (by decide) rfl

/-- C6 counterexample: for a well-shaped payload missing the economic-data
group but holding a record labeled `timeseries` without a unit field, the
misplaced relocation step raises KeyError before validation, so no
MissingParameterError with a message is raised. -/
theorem C6_ts_labeled_asset_preempts :
    convert_epa_params_to_mvs epaPayloadTsLabelNoEcon = .error .keyError :=
  rfl

/-- C8 counterexample: with two records labeled `unit` and one labeled
`timeseries`, the conversion returns, but the misplaced relocation step
overwrites the entry at label `unit` with the popped unit value, so the entry
does not equal the translated fields of the later `unit` record. -/
theorem C8_relocation_overwrites_duplicate_entry :
    ∃ da, convOk (convert_epa_params_to_mvs epaPayloadDupUnit) = true ∧
      convOutGet (convert_epa_params_to_mvs epaPayloadDupUnit)
        ENERGY_CONSUMPTION = some (.dict da) ∧
      pyGet da "unit" = some (.int 5) ∧
      (Value.int 5) ≠ .dict [("label", .str "unit"), ("lifetime", .int 2)] :=
  ⟨_, rfl, rfl, rfl, fun h => Value.noConfusion h⟩

theorem convert_epa_ok_inv (epa out after : PyDict Value)
    (h : convert_epa_params_to_mvs epa = .ok (out, after)) :
    ∃ s1 dv aft, stepLoop epaParamStep epaToMvsParamGroups ([], epa) = .ok s1 ∧
      stepLoop epaAssetStep epaToMvsAssetGroups s1 = .ok (dv, aft) ∧
      ((out = dv ∧ after = aft) ∨
       (∃ d2, applyRecoverableDefaults dv aft
           (compareMissing dv REQUIRED_REFERENCE) = .ok (out, after, d2))) := by
  unfold convert_epa_params_to_mvs at h
  cases h1 : stepLoop epaParamStep epaToMvsParamGroups ([], epa) with
  | error err =>
    simp only [h1] at h
    exact Except.noConfusion h
  | ok s1 =>
    simp only [h1] at h
    cases h2 : stepLoop epaAssetStep epaToMvsAssetGroups s1 with
    | error err =>
      simp only [h2] at h
      exact Except.noConfusion h
    | ok s2 =>
      obtain ⟨dv, aft⟩ := s2
      simp only [h2] at h
      refine ⟨s1, dv, aft, rfl, h2, ?_⟩
      by_cases hem : (compareMissing dv REQUIRED_REFERENCE).isEmpty = true
      · rw [if_pos hem] at h
        injection h with h
        rw [Prod.mk.injEq] at h
        exact .inl ⟨h.1.symm, h.2.symm⟩
      · rw [if_neg hem] at h
        cases hdef : applyRecoverableDefaults dv aft
            (compareMissing dv REQUIRED_REFERENCE) with
        | error err =>
          simp only [hdef] at h
          exact Except.noConfusion h
        | ok w =>
          obtain ⟨dv2, after2, d2⟩ := w
          simp only [hdef] at h
          by_cases hem2 : d2.isEmpty = true
          · rw [if_pos hem2] at h
            injection h with h
            rw [Prod.mk.injEq] at h
            refine .inr ⟨d2, ?_⟩
            rw [← h.1, ← h.2]
          · rw [if_neg hem2] at h
            exact Except.noConfusion h

theorem defaultConstraintsStep_inv (dv : PyDict Value)
    (d : PyDict (List String)) :
    (pyMem d CONSTRAINTS = true ∧
      defaultConstraintsStep dv d =
        (pySet dv CONSTRAINTS constraintsDefault, pyRemove d CONSTRAINTS)) ∨
    (pyMem d CONSTRAINTS = false ∧ defaultConstraintsStep dv d = (dv, d)) := by
  unfold defaultConstraintsStep
  by_cases hc : pyMem d CONSTRAINTS = true
  · rw [if_pos hc]
    exact .inl ⟨hc, rfl⟩
  · rw [if_neg hc]
    have hc2 : pyMem d CONSTRAINTS = false := by
      cases hcc : pyMem d CONSTRAINTS with
      | false => rfl
      | true => exact absurd hcc hc
    exact .inr ⟨hc2, rfl⟩

theorem defaultConstraintsStep_dv (dv : PyDict Value)
    (d : PyDict (List String)) (k : String) (hk : k ≠ CONSTRAINTS) :
    pyGet (defaultConstraintsStep dv d).1 k = pyGet dv k := by
  unfold defaultConstraintsStep
  by_cases hc : pyMem d CONSTRAINTS = true
  · rw [if_pos hc]
    exact pyGet_pySet_ne _ _ _ _ hk
  · rw [if_neg hc]

theorem defaultFixCostStep_dv (dv : PyDict Value) (d : PyDict (List String))
    (k : String) (hk : k ≠ FIX_COST) :
    pyGet (defaultFixCostStep dv d).1 k = pyGet dv k := by
  unfold defaultFixCostStep
  by_cases hc : pyMem d FIX_COST = true
  · rw [if_pos hc]
    exact pyGet_pySet_ne _ _ _ _ hk
  · rw [if_neg hc]

theorem defaultSimSettingsStep_inv (dv after : PyDict Value)
    (d : PyDict (List String)) (dvb afterb : PyDict Value)
    (db : PyDict (List String))
    (h : defaultSimSettingsStep dv after d = .ok (dvb, afterb, db)) :
    (dvb = dv ∧ afterb = after ∧ db = d) ∨
    (∃ sd, pyGet dv SIMULATION_SETTINGS = some (.dict sd) ∧
      dvb = pySet dv SIMULATION_SETTINGS
        (.dict (pySet sd OUTPUT_LP_FILE lpFileDefault)) ∧
      afterb = pySet after "simulation_settings"
        (.dict (pySet sd OUTPUT_LP_FILE lpFileDefault)) ∧
      db = pyRemove d SIMULATION_SETTINGS) := by
  unfold defaultSimSettingsStep at h
  cases hks : pyGet d SIMULATION_SETTINGS with
  | none =>
    simp only [hks] at h
    injection h with h
    rw [Prod.mk.injEq, Prod.mk.injEq] at h
    exact .inl ⟨h.1.symm, h.2.1.symm, h.2.2.symm⟩
  | some ks =>
    simp only [hks] at h
    by_cases hc : (ks.contains OUTPUT_LP_FILE && ks.length == 1) = true
    · rw [if_pos hc] at h
      cases hv : pyGet dv SIMULATION_SETTINGS with
      | none =>
        simp only [hv] at h
        exact Except.noConfusion h
      | some v =>
        simp only [hv] at h
        cases v with
        | dict sd =>
          have hmap : pyGet MAP_MVS_EPA SIMULATION_SETTINGS
              = some "simulation_settings" := by decide
          simp only [hmap] at h
          injection h with h
          rw [Prod.mk.injEq, Prod.mk.injEq] at h
          exact .inr ⟨sd, rfl, h.1.symm, h.2.1.symm, h.2.2.symm⟩
        | str a => exact Except.noConfusion h
        | int a => exact Except.noConfusion h
        | bool a => exact Except.noConfusion h
        | list a => exact Except.noConfusion h
        | tuple a => exact Except.noConfusion h
        | series a => exact Except.noConfusion h
    · rw [if_neg hc] at h
      injection h with h
      rw [Prod.mk.injEq, Prod.mk.injEq] at h
      exact .inl ⟨h.1.symm, h.2.1.symm, h.2.2.symm⟩

theorem applyRecoverableDefaults_inv (dv after : PyDict Value)
    (d : PyDict (List String)) (dv2 after2 : PyDict Value)
    (d2 : PyDict (List String))
    (h : applyRecoverableDefaults dv after d = .ok (dv2, after2, d2)) :
    ∃ dvb afterb db,
      defaultSimSettingsStep (defaultConstraintsStep dv d).1 after
        (defaultConstraintsStep dv d).2 = .ok (dvb, afterb, db) ∧
      dv2 = (defaultFixCostStep dvb db).1 ∧ after2 = afterb ∧
      d2 = (defaultFixCostStep dvb db).2 := by
  unfold applyRecoverableDefaults at h
  cases hss : defaultSimSettingsStep (defaultConstraintsStep dv d).1 after
      (defaultConstraintsStep dv d).2 with
  | error err =>
    simp only [hss] at h
    exact Except.noConfusion h
  | ok w =>
    obtain ⟨dvb, afterb, db⟩ := w
    simp only [hss] at h
    injection h with h
    rw [Prod.mk.injEq, Prod.mk.injEq] at h
    exact ⟨dvb, afterb, db, rfl, h.1.symm, h.2.1.symm, h.2.2.symm⟩

theorem applyRecoverableDefaults_dv_preserve (dv after : PyDict Value)
    (d : PyDict (List String)) (dv2 after2 : PyDict Value)
    (d2 : PyDict (List String)) (k : String)
    (h : applyRecoverableDefaults dv after d = .ok (dv2, after2, d2))
    (hk1 : k ≠ CONSTRAINTS) (hk2 : k ≠ SIMULATION_SETTINGS)
    (hk3 : k ≠ FIX_COST) :
    pyGet dv2 k = pyGet dv k := by
  obtain ⟨dvb, afterb, db, hss, hdv2, _, _⟩ :=
    applyRecoverableDefaults_inv dv after d dv2 after2 d2 h
  have hca : pyGet (defaultConstraintsStep dv d).1 k = pyGet dv k :=
    defaultConstraintsStep_dv dv d k hk1
  have hsb : pyGet dvb k = pyGet (defaultConstraintsStep dv d).1 k := by
    rcases defaultSimSettingsStep_inv _ _ _ _ _ _ hss with
      ⟨rfl, _, _⟩ | ⟨sd, _, rfl, _, _⟩
    · rfl
    · exact pyGet_pySet_ne _ _ _ _ hk2
  rw [hdv2, defaultFixCostStep_dv dvb db k hk3, hsb, hca]

/-- C8 amended: for a successful conversion of a payload whose asset list for
a category has its last record labeled `lab` with fields `ad`, and no record
labeled `timeseries` (which would let the misplaced relocation step rewrite
the `timeseries` and `unit` entries of the mapping), the internal mapping's
entry at `lab` is the translated fields of that last record; duplicate labels
are not an error, the later record silently winning. -/
theorem C8_last_duplicate_wins (epa out after : PyDict Value)
    (g e lab : String) (assets : List Value) (ad : PyDict Value)
    (h : convert_epa_params_to_mvs epa = .ok (out, after))
    (hg : g ∈ epaToMvsAssetGroups)
    (he : pyGet MAP_MVS_EPA g = some e)
    (hval : pyGet epa e = some (.list assets))
    (hlast : lastLabeled lab assets = some ad)
    (hts : lastLabeled TIMESERIES assets = none) :
    ∃ da, pyGet out g = some (.dict da) ∧
      pyGet da lab = some (.dict (renameLoop MAP_EPA_MVS ad)) := by
  obtain ⟨s1, dv, aft, hloop1, hloop2, hrest⟩ :=
    convert_epa_ok_inv epa out after h
  have hge := epaName_eq_of_map g e he
  have hs1 : pyGet s1.2 e = some (.list assets) := by
    have hinv := stepLoop_invariant epaParamStep
      (fun s => pyGet s.2 e = some (.list assets)) epaToMvsParamGroups
      ([], epa) s1 hloop1 ?_ hval
    · exact hinv
    · intro t i t2 hi hstep hP
      obtain ⟨e2, he2, hcase⟩ := epaParamStep_ok_cases t t2 i hstep
      rcases hcase with ⟨_, rfl⟩ | ⟨dd, hv2, rfl⟩
      · exact hP
      · have hne : e ≠ e2 := by
          intro hh
          have hie := epaName_eq_of_map i e2 he2
          have hig : i = g := epaNames_inj i (List.mem_append_left _ hi) g
            (List.mem_append_right _ hg) (by rw [hie, hge, hh])
          exact epaGroups_disjoint i hi (hig ▸ hg)
        rw [pyGet_pySet_ne _ _ _ _ hne]
        exact hP
  have hnd : epaToMvsAssetGroups.Nodup := by decide
  obtain ⟨l1, l2, t, t2, hsplit, hpre, hstepg, hpost⟩ :=
    stepLoop_split epaAssetStep epaToMvsAssetGroups g s1 (dv, aft) hg hloop2
  have hgl : g ∉ l1 ∧ g ∉ l2 := by
    rw [hsplit, List.nodup_append] at hnd
    exact ⟨fun hh => hnd.2.2 hh (List.mem_cons_self _ _),
      (List.nodup_cons.mp hnd.2.1).1⟩
  have hsub1 : ∀ i ∈ l1, i ∈ epaToMvsAssetGroups := by
    intro i hi
    rw [hsplit]
    exact List.mem_append_left _ hi
  have hsub2 : ∀ i ∈ l2, i ∈ epaToMvsAssetGroups := by
    intro i hi
    rw [hsplit]
    exact List.mem_append_right _ (List.mem_cons_of_mem _ hi)
  have ht : pyGet t.2 e = some (.list assets) := by
    have hinv := stepLoop_invariant epaAssetStep
      (fun s => pyGet s.2 e = some (.list assets)) l1 s1 t hpre ?_ hs1
    · exact hinv
    · intro u i u2 hi hstep hP
      obtain ⟨e2, he2, hcase⟩ := epaAssetStep_ok_cases u u2 i hstep
      rcases hcase with ⟨_, rfl⟩ |
        ⟨as2, da, lst, da2, lst2, hv2, hf, hrel, rfl⟩
      · exact hP
      · have hne : e ≠ e2 := by
          intro hh
          have hie := epaName_eq_of_map i e2 he2
          have hig : i = g := epaNames_inj i
            (List.mem_append_right _ (hsub1 i hi)) g
            (List.mem_append_right _ hg) (by rw [hie, hge, hh])
          exact hgl.1 (hig ▸ hi)
        rw [pyGet_pySet_ne _ _ _ _ hne]
        exact hP
  obtain ⟨e2, he2, hcase⟩ := epaAssetStep_ok_cases t t2 g hstepg
  have hee : e = e2 := Option.some.inj (he.symm.trans he2)
  subst hee
  rcases hcase with ⟨hnone, rfl⟩ |
    ⟨as2, da, lst, da2, lst2, hv2, hf, hrel, rfl⟩
  · rw [ht] at hnone
    exact Option.noConfusion hnone
  · rw [ht] at hv2
    injection hv2 with hv2
    injection hv2 with hv2
    subst hv2
    have hda : pyGet da TIMESERIES = none := by
      have hget := epaAssetFold_get assets [] da lst hf TIMESERIES
      rw [hts] at hget
      exact hget
    have hrel2 := epaRelocate_noop da lst hda
    rw [hrel2] at hrel
    injection hrel with hrel
    rw [Prod.mk.injEq] at hrel
    obtain ⟨hda2, hlst2⟩ := hrel
    subst hda2
    subst hlst2
    have hdvg : pyGet dv g = some (.dict da) := by
      have hinv := stepLoop_invariant epaAssetStep
        (fun s => pyGet s.1 g = some (.dict da)) l2
        (pySet t.1 g (.dict da), pySet t.2 e (.list lst)) (dv, aft) hpost ?_
        (pyGet_pySet_self _ _ _)
      · exact hinv
      · intro u i u2 hi hstep hP
        obtain ⟨e3, he3, hcase2⟩ := epaAssetStep_ok_cases u u2 i hstep
        rcases hcase2 with ⟨_, rfl⟩ |
          ⟨as3, da3, lst3, da4, lst4, hv3, hf3, hrel3, rfl⟩
        · exact hP
        · have hne : g ≠ i := fun hh => hgl.2 (hh ▸ hi)
          rw [pyGet_pySet_ne _ _ _ _ hne]
          exact hP
    have houtg : pyGet out g = some (.dict da) := by
      rcases hrest with ⟨rfl, rfl⟩ | ⟨d2, hdef⟩
      · exact hdvg
      · have hc1 : g ≠ CONSTRAINTS :=
          fun hh => epaGroups_disjoint CONSTRAINTS (by decide) (hh ▸ hg)
        have hc2 : g ≠ SIMULATION_SETTINGS :=
          fun hh => epaGroups_disjoint SIMULATION_SETTINGS (by decide)
            (hh ▸ hg)
        have hc3 : g ≠ FIX_COST :=
          fun hh => epaGroups_disjoint FIX_COST (by decide) (hh ▸ hg)
        rw [applyRecoverableDefaults_dv_preserve dv aft _ out after d2 g hdef
          hc1 hc2 hc3]
        exact hdvg
    refine ⟨da, houtg, ?_⟩
    have hget := epaAssetFold_get assets [] da lst hf lab
    rw [hlast] at hget
    exact hget

/-- Witness for C8 amended: two records labeled `L`, the entry holds the
later record's translated fields. -/
theorem C8_last_duplicate_wins_witness :
    ∃ out after,
      convert_epa_params_to_mvs epaPayloadDupLabels = .ok (out, after) ∧
      ∃ da, pyGet out ENERGY_CONSUMPTION = some (.dict da) ∧
        pyGet da "L" = some (.dict (renameLoop MAP_EPA_MVS
          [("label", .str "L"), ("lifetime", .int 2)])) := by
  refine ⟨_, _, rfl, ?_⟩
  exact C8_last_duplicate_wins epaPayloadDupLabels _ _ ENERGY_CONSUMPTION
    "energy_consumption" "L" _ _ rfl (by decide) rfl rfl rfl rfl

theorem applyRecoverableDefaults_pair (dv after : PyDict Value)
    (d : PyDict (List String)) (dv2 after2 : PyDict Value)
    (d2 : PyDict (List String)) (g e : String)
    (h : applyRecoverableDefaults dv after d = .ok (dv2, after2, d2))
    (hg : g ∈ epaToMvsParamGroups) (he : pyGet MAP_MVS_EPA g = some e)
    (hgc : g = CONSTRAINTS → pyMem d CONSTRAINTS = false)
    (hgf : g = FIX_COST → pyMem d FIX_COST = false) :
    (pyGet dv g = pyGet after e → pyGet dv2 g = pyGet after2 e) ∧
    (pyGet dv g ≠ none → pyGet dv2 g ≠ none) := by
  obtain ⟨dvb, afterb, db, hss, hdv2, hafter2, hd2⟩ :=
    applyRecoverableDefaults_inv dv after d dv2 after2 d2 h
  have hge := epaName_eq_of_map g e he
  have hstage1 : pyGet (defaultConstraintsStep dv d).1 g = pyGet dv g := by
    rcases defaultConstraintsStep_inv dv d with ⟨hcm, hval⟩ | ⟨hcm, hval⟩
    · by_cases hgc2 : g = CONSTRAINTS
      · rw [hgc hgc2] at hcm
        exact Bool.noConfusion hcm
      · rw [hval]
        exact pyGet_pySet_ne _ _ _ _ hgc2
    · rw [hval]
  have hdbf : g = FIX_COST → pyMem db FIX_COST = false := by
    intro hgf2
    have h0 := hgf hgf2
    have hda : pyMem (defaultConstraintsStep dv d).2 FIX_COST = false := by
      rcases defaultConstraintsStep_inv dv d with ⟨hcm, hval⟩ | ⟨hcm, hval⟩
      · rw [hval]
        show (pyGet (pyRemove d CONSTRAINTS) FIX_COST).isSome = false
        rw [pyGet_pyRemove_ne _ _ _ (by decide)]
        exact h0
      · rw [hval]
        exact h0
    rcases defaultSimSettingsStep_inv _ _ _ _ _ _ hss with
      ⟨_, _, hb3⟩ | ⟨sd, _, _, _, hb3⟩
    · rw [hb3]
      exact hda
    · rw [hb3]
      show (pyGet (pyRemove _ SIMULATION_SETTINGS) FIX_COST).isSome = false
      rw [pyGet_pyRemove_ne _ _ _ (by decide)]
      exact hda
  have hfix : pyGet (defaultFixCostStep dvb db).1 g = pyGet dvb g := by
    unfold defaultFixCostStep
    by_cases hfc : pyMem db FIX_COST = true
    · rw [if_pos hfc]
      by_cases hgf2 : g = FIX_COST
      · rw [hdbf hgf2] at hfc
        exact Bool.noConfusion hfc
      · exact pyGet_pySet_ne _ _ _ _ hgf2
    · rw [if_neg hfc]
  rw [hdv2, hafter2, hfix]
  rcases defaultSimSettingsStep_inv _ _ _ _ _ _ hss with
    ⟨rfl, rfl, _⟩ | ⟨sd, hsd, rfl, rfl, _⟩
  · rw [hstage1]
    exact ⟨fun hh => hh, fun hh => hh⟩
  · by_cases hgs : g = SIMULATION_SETTINGS
    · subst hgs
      have hes : e = "simulation_settings" := by
        have hmap : pyGet MAP_MVS_EPA SIMULATION_SETTINGS
            = some "simulation_settings" := by decide
        exact (Option.some.inj (hmap.symm.trans he)).symm
      subst hes
      rw [pyGet_pySet_self, pyGet_pySet_self]
      exact ⟨fun _ => rfl, fun _ hh => Option.noConfusion hh⟩
    · have hnes : e ≠ "simulation_settings" := by
        intro hh
        apply hgs
        have hmap : epaNameOf SIMULATION_SETTINGS = "simulation_settings" := by
          decide
        exact epaNames_inj g (List.mem_append_left _ hg) SIMULATION_SETTINGS
          (List.mem_append_left _ (by decide)) (by rw [hge, hh, hmap])
      rw [pyGet_pySet_ne _ _ _ _ hgs, pyGet_pySet_ne _ _ _ _ hnes, hstage1]
      exact ⟨fun hh => hh, fun hh => hh⟩

/-- C3 amended: the entry points are not pure — they rename fields on
sub-dicts shared with the caller.  For every successful exchange-to-internal
conversion and every parameter group present in the input, the returned
dict's entry for the group is exactly the caller's mutated sub-structure: it
equals the post-call input payload's entry at the group's exchange-side
name (and the group is present in the output). -/
theorem C3_output_group_is_mutated_input_group (epa out after : PyDict Value)
    (g e : String)
    (h : convert_epa_params_to_mvs epa = .ok (out, after))
    (hg : g ∈ epaToMvsParamGroups)
    (he : pyGet MAP_MVS_EPA g = some e)
    (hpres : pyMem epa e = true) :
    pyGet out g = pyGet after e ∧ pyGet out g ≠ none := by
  obtain ⟨s1, dv, aft, hloop1, hloop2, hrest⟩ :=
    convert_epa_ok_inv epa out after h
  have hge := epaName_eq_of_map g e he
  obtain ⟨v, hv⟩ : ∃ v, pyGet epa e = some v := by
    cases hvv : pyGet epa e with
    | none =>
      rw [pyMem, hvv] at hpres
      exact Bool.noConfusion hpres
    | some v => exact ⟨v, rfl⟩
  have hndp : epaToMvsParamGroups.Nodup := by decide
  obtain ⟨l1, l2, t, t2, hsplit, hpre, hstepg, hpost⟩ :=
    stepLoop_split epaParamStep epaToMvsParamGroups g ([], epa) s1 hg hloop1
  have hgl : g ∉ l1 ∧ g ∉ l2 := by
    rw [hsplit, List.nodup_append] at hndp
    exact ⟨fun hh => hndp.2.2 hh (List.mem_cons_self _ _),
      (List.nodup_cons.mp hndp.2.1).1⟩
  have hsub1 : ∀ i ∈ l1, i ∈ epaToMvsParamGroups := by
    intro i hi
    rw [hsplit]
    exact List.mem_append_left _ hi
  have hsub2 : ∀ i ∈ l2, i ∈ epaToMvsParamGroups := by
    intro i hi
    rw [hsplit]
    exact List.mem_append_right _ (List.mem_cons_of_mem _ hi)
  have ht : pyGet t.2 e = some v := by
    have hinv := stepLoop_invariant epaParamStep
      (fun s => pyGet s.2 e = some v) l1 ([], epa) t hpre ?_ hv
    · exact hinv
    · intro u i u2 hi hstep hP
      obtain ⟨e2, he2, hcase⟩ := epaParamStep_ok_cases u u2 i hstep
      rcases hcase with ⟨_, rfl⟩ | ⟨dd, hv2, rfl⟩
      · exact hP
      · have hne : e ≠ e2 := by
          intro hh
          have hie := epaName_eq_of_map i e2 he2
          have hig : i = g := epaNames_inj i
            (List.mem_append_left _ (hsub1 i hi)) g
            (List.mem_append_left _ hg) (by rw [hie, hge, hh])
          exact hgl.1 (hig ▸ hi)
        rw [pyGet_pySet_ne _ _ _ _ hne]
        exact hP
  obtain ⟨e2, he2, hcase⟩ := epaParamStep_ok_cases t t2 g hstepg
  have hee : e = e2 := Option.some.inj (he.symm.trans he2)
  subst hee
  rcases hcase with ⟨hnone, rfl⟩ | ⟨dd, hv2, rfl⟩
  · rw [ht] at hnone
    exact Option.noConfusion hnone
  · have hQ : pyGet dv g = pyGet aft e ∧ pyGet dv g ≠ none := by
      have hQ0 : pyGet (pySet t.1 g (.dict (renameLoop MAP_EPA_MVS dd))) g
            = pyGet (pySet t.2 e (.dict (renameLoop MAP_EPA_MVS dd))) e ∧
          pyGet (pySet t.1 g (.dict (renameLoop MAP_EPA_MVS dd))) g ≠ none := by
        rw [pyGet_pySet_self, pyGet_pySet_self]
        exact ⟨rfl, fun hh => Option.noConfusion hh⟩
      have hQ1 := stepLoop_invariant epaParamStep
        (fun s => pyGet s.1 g = pyGet s.2 e ∧ pyGet s.1 g ≠ none) l2
        _ s1 hpost ?_ hQ0
      · refine stepLoop_invariant epaAssetStep
          (fun s => pyGet s.1 g = pyGet s.2 e ∧ pyGet s.1 g ≠ none)
          epaToMvsAssetGroups s1 (dv, aft) hloop2 ?_ hQ1
        intro u i u2 hi hstep hP
        obtain ⟨e3, he3, hcase2⟩ := epaAssetStep_ok_cases u u2 i hstep
        rcases hcase2 with ⟨_, rfl⟩ |
          ⟨as3, da3, lst3, da4, lst4, hv3, hf3, hrel3, rfl⟩
        · exact hP
        · have hgi : g ≠ i :=
            fun hh => epaGroups_disjoint g hg (hh ▸ hi)
          have hne : e ≠ e3 := by
            intro hh
            have hie := epaName_eq_of_map i e3 he3
            apply hgi
            exact epaNames_inj g (List.mem_append_left _ hg) i
              (List.mem_append_right _ hi) (by rw [hie, hge, hh])
          rw [pyGet_pySet_ne _ _ _ _ hgi, pyGet_pySet_ne _ _ _ _ hne]
          exact hP
      · intro u i u2 hi hstep hP
        obtain ⟨e3, he3, hcase2⟩ := epaParamStep_ok_cases u u2 i hstep
        rcases hcase2 with ⟨_, rfl⟩ | ⟨dd3, hv3, rfl⟩
        · exact hP
        · have hgi : g ≠ i := fun hh => hgl.2 (hh ▸ hi)
          have hne : e ≠ e3 := by
            intro hh
            have hie := epaName_eq_of_map i e3 he3
            apply hgi
            exact epaNames_inj g (List.mem_append_left _ hg) i
              (List.mem_append_left _ (hsub2 i hi)) (by rw [hie, hge, hh])
          rw [pyGet_pySet_ne _ _ _ _ hgi, pyGet_pySet_ne _ _ _ _ hne]
          exact hP
    rcases hrest with ⟨rfl, rfl⟩ | ⟨d2, hdef⟩
    · exact hQ
    · have hgc : g = CONSTRAINTS →
          pyMem (compareMissing dv REQUIRED_REFERENCE) CONSTRAINTS = false := by
        intro hgc2
        rw [pyMem, pyGet_compareMissing dv REQUIRED_REFERENCE CONSTRAINTS
          (by decide)]
        have href : pyGet REQUIRED_REFERENCE CONSTRAINTS = some [] := by decide
        cases hvv : pyGet dv CONSTRAINTS with
        | none =>
          rw [← hgc2] at hvv
          exact absurd hvv hQ.2
        | some w => simp [href, hvv]
      have hgf : g = FIX_COST →
          pyMem (compareMissing dv REQUIRED_REFERENCE) FIX_COST = false := by
        intro hgf2
        rw [pyMem, pyGet_compareMissing dv REQUIRED_REFERENCE FIX_COST
          (by decide)]
        have href : pyGet REQUIRED_REFERENCE FIX_COST = some [] := by decide
        cases hvv : pyGet dv FIX_COST with
        | none =>
          rw [← hgf2] at hvv
          exact absurd hvv hQ.2
        | some w => simp [href, hvv]
      obtain ⟨hp1, hp2⟩ := applyRecoverableDefaults_pair dv aft _ out after d2
        g e hdef hg he hgc hgf
      exact ⟨hp1 hQ.1, hp2 hQ.2⟩

/-- Witness for C3 amended at the simulation-settings group of a concrete
payload. -/
theorem C3_output_group_is_mutated_input_group_witness :
    ∃ out after,
      convert_epa_params_to_mvs epaPayloadTimeseriesAsset = .ok (out, after) ∧
      pyGet out SIMULATION_SETTINGS = pyGet after "simulation_settings" ∧
      pyGet out SIMULATION_SETTINGS ≠ none := by
  refine ⟨_, _, rfl, ?_⟩
  exact C3_output_group_is_mutated_input_group epaPayloadTimeseriesAsset _ _
    SIMULATION_SETTINGS "simulation_settings" rfl (by decide) rfl rfl

theorem pyPop_eq {α : Type u} (d : PyDict α) (k : String) :
    pyPop d k = match pyGet d k with
      | some v => some (v, pyRemove d k)
      | none => none := by
  induction d with
  | nil => rfl
  | cons p d ih =>
    obtain ⟨a, b⟩ := p
    by_cases hp : a = k
    · subst hp
      simp [pyPop, pyGet, pyRemove]
    · simp only [pyPop, pyGet, pyRemove, if_neg hp, ih]
      cases pyGet d k with
      | none => rfl
      | some v => rfl

theorem mem_pyKeys_iff {α : Type u} (d : PyDict α) (k : String) :
    k ∈ pyKeys d ↔ (pyGet d k).isSome = true := by
  induction d with
  | nil => simp [pyKeys, pyGet]
  | cons p d ih =>
    obtain ⟨a, b⟩ := p
    by_cases hp : a = k
    · subst hp
      simp [pyKeys, pyGet]
    · simp only [pyKeys, List.map_cons, List.mem_cons, pyGet, if_neg hp]
      rw [← pyKeys]
      constructor
      · intro hh
        rcases hh with hh | hh
        · exact absurd hh.symm hp
        · exact ih.mp hh
      · intro hh
        exact Or.inr (ih.mpr hh)

theorem pyKeys_pySet_mem {α : Type u} (d : PyDict α) (k : String) (v : α)
    (h : k ∈ pyKeys d) : pyKeys (pySet d k v) = pyKeys d := by
  induction d with
  | nil => simp [pyKeys] at h
  | cons p d ih =>
    obtain ⟨a, b⟩ := p
    by_cases hp : a = k
    · subst hp
      simp [pySet, pyKeys]
    · simp only [pyKeys, List.map_cons, List.mem_cons] at h
      rcases h with h | h
      · exact absurd h.symm hp
      · simp only [pySet, if_neg hp, pyKeys, List.map_cons,
          List.cons.injEq, true_and]
        exact ih h

theorem pyKeys_pySet_not_mem {α : Type u} (d : PyDict α) (k : String) (v : α)
    (h : k ∉ pyKeys d) : pyKeys (pySet d k v) = pyKeys d ++ [k] := by
  induction d with
  | nil => rfl
  | cons p d ih =>
    obtain ⟨a, b⟩ := p
    simp only [pyKeys, List.map_cons, List.mem_cons] at h
    push_neg at h
    simp only [pySet, if_neg (fun hh : a = k => h.1 hh.symm), pyKeys,
      List.map_cons, List.cons_append, List.cons.injEq, true_and]
    exact ih h.2

theorem pyKeys_pySet_nodup {α : Type u} (d : PyDict α) (k : String) (v : α)
    (h : (pyKeys d).Nodup) : (pyKeys (pySet d k v)).Nodup := by
  by_cases hm : k ∈ pyKeys d
  · rw [pyKeys_pySet_mem d k v hm]
    exact h
  · rw [pyKeys_pySet_not_mem d k v hm]
    simp [List.nodup_append, h, hm]

theorem mapMvsEpa_val_not_special (k k2 : String)
    (h : pyGet MAP_MVS_EPA k = some k2) :
    k2 ≠ LABEL ∧ k2 ≠ UNIT ∧ k2 ≠ "Asset_list" ∧ k2 ≠ "assets" ∧
      k2 ≠ TIMESERIES := by
  have hm := pyGet_mem _ _ _ h
  have hall : ∀ p ∈ MAP_MVS_EPA, p.2 ≠ LABEL ∧ p.2 ≠ UNIT ∧
      p.2 ≠ "Asset_list" ∧ p.2 ≠ "assets" ∧ p.2 ≠ TIMESERIES := by decide
  exact hall (k, k2) hm

theorem mapMvsEpa_its_preimage (k : String)
    (h : pyGet MAP_MVS_EPA k = some "input_timeseries") : k = TIMESERIES := by
  have hm := pyGet_mem _ _ _ h
  have hall : ∀ p ∈ MAP_MVS_EPA, p.2 = "input_timeseries" →
      p.1 = TIMESERIES := by decide
  exact hall (k, "input_timeseries") hm rfl

theorem mvsAssetKeyStep_not_bus (g : String) (acc : PyDict Value) (k : String)
    (hc : (g == ENERGY_BUSSES && k == "Asset_list") = false) :
    mvsAssetKeyStep g acc k = .ok (match pyGet MAP_MVS_EPA k with
      | some k2 =>
        match pyPop acc k with
        | some (v, a) => pySet a k2 v
        | none => acc
      | none => acc) := by
  simp only [mvsAssetKeyStep, hc, Bool.false_eq_true, if_false]

theorem mvsAssetKeyStep_bus (acc : PyDict Value) (bd : PyDict Value)
    (h : pyGet acc "Asset_list" = some (.dict bd)) :
    mvsAssetKeyStep ENERGY_BUSSES acc "Asset_list" =
      .ok (pySet (pyRemove acc "Asset_list") "assets"
        (.list ((pyKeys bd).map Value.str))) := by
  have hm : pyGet MAP_MVS_EPA "Asset_list" = none := by decide
  simp only [mvsAssetKeyStep, hm, beq_self_eq_true, Bool.and_self, if_true]
  rw [pyPop_eq, h]

theorem keyLoop_spec (g : String) (ks : List String) :
    ∀ acc : PyDict Value, ks.Nodup →
    (TIMESERIES ∈ ks →
      (∃ w, pyGet acc TIMESERIES = some w) ∧
        pyGet acc "input_timeseries" = none) →
    (g = ENERGY_BUSSES → "Asset_list" ∈ ks →
      ∃ bd, pyGet acc "Asset_list" = some (.dict bd)) →
    ∃ ad2, stepLoop (mvsAssetKeyStep g) ks acc = .ok ad2 ∧
      pyGet ad2 "input_timeseries" =
        (if TIMESERIES ∈ ks then pyGet acc TIMESERIES
         else pyGet acc "input_timeseries") ∧
      pyGet ad2 UNIT = pyGet acc UNIT ∧
      pyGet ad2 LABEL = pyGet acc LABEL := by
  induction ks with
  | nil =>
    intro acc _ _ _
    exact ⟨acc, rfl, by rw [if_neg (List.not_mem_nil _)], rfl, rfl⟩
  | cons k ks ih =>
    intro acc hnd hts hbus
    have hknks := (List.nodup_cons.mp hnd).1
    have hnd2 := (List.nodup_cons.mp hnd).2
    cases hmk : pyGet MAP_MVS_EPA k with
    | some k2 =>
      have hnone : ∀ s : String, pyGet MAP_MVS_EPA s = none → k ≠ s := by
        intro s hs hh
        rw [hh, hs] at hmk
        exact Option.noConfusion hmk
      have hkAL : k ≠ "Asset_list" := hnone _ (by decide)
      have hcond : (g == ENERGY_BUSSES && k == "Asset_list") = false := by
        have h2 : (k == "Asset_list") = false := by
          rw [beq_eq_false_iff_ne]
          exact hkAL
        rw [h2, Bool.and_false]
      have hspec := mapMvsEpa_val_not_special k k2 hmk
      by_cases hkts : k = TIMESERIES
      · subst hkts
        have hk2 : k2 = "input_timeseries" := by
          have hd : pyGet MAP_MVS_EPA TIMESERIES = some "input_timeseries" :=
            by decide
          exact (Option.some.inj (hd.symm.trans hmk)).symm
        subst hk2
        obtain ⟨⟨w, hw⟩, hits⟩ := hts (List.mem_cons_self _ _)
        have hstep : mvsAssetKeyStep g acc TIMESERIES =
            .ok (pySet (pyRemove acc TIMESERIES) "input_timeseries" w) := by
          rw [mvsAssetKeyStep_not_bus g acc TIMESERIES hcond, hmk, pyPop_eq,
            hw]
        have hts2 : TIMESERIES ∈ ks →
            (∃ w2, pyGet (pySet (pyRemove acc TIMESERIES) "input_timeseries"
              w) TIMESERIES = some w2) ∧
            pyGet (pySet (pyRemove acc TIMESERIES) "input_timeseries" w)
              "input_timeseries" = none :=
          fun hh => absurd hh hknks
        have hbus2 : g = ENERGY_BUSSES → "Asset_list" ∈ ks →
            ∃ bd, pyGet (pySet (pyRemove acc TIMESERIES) "input_timeseries" w)
              "Asset_list" = some (.dict bd) := by
          intro hg hAL
          obtain ⟨bd, hbd⟩ := hbus hg (List.mem_cons_of_mem _ hAL)
          refine ⟨bd, ?_⟩
          rw [pyGet_pySet_ne _ _ _ _ (by decide),
            pyGet_pyRemove_ne _ _ _ (by decide)]
          exact hbd
        obtain ⟨ad2, hloop, hits2, hunit2, hlabel2⟩ := ih _ hnd2 hts2 hbus2
        refine ⟨ad2, ?_, ?_, ?_, ?_⟩
        · simp only [stepLoop, hstep]
          exact hloop
        · rw [hits2, if_neg hknks, if_pos (List.mem_cons_self _ _),
            pyGet_pySet_self, hw]
        · rw [hunit2, pyGet_pySet_ne _ _ _ _ (by decide),
            pyGet_pyRemove_ne _ _ _ (by decide)]
        · rw [hlabel2, pyGet_pySet_ne _ _ _ _ (by decide),
            pyGet_pyRemove_ne _ _ _ (by decide)]
      · have hk2its : k2 ≠ "input_timeseries" :=
          fun hh => hkts (mapMvsEpa_its_preimage k (hh ▸ hmk))
        have hmemshift : (TIMESERIES ∈ k :: ks) ↔ (TIMESERIES ∈ ks) := by
          rw [List.mem_cons]
          exact ⟨fun hh => hh.resolve_left (fun hh2 => hkts hh2.symm),
            Or.inr⟩
        cases hgk : pyGet acc k with
        | some v =>
          have hstep : mvsAssetKeyStep g acc k =
              .ok (pySet (pyRemove acc k) k2 v) := by
            rw [mvsAssetKeyStep_not_bus g acc k hcond, hmk, pyPop_eq, hgk]
          have hpres : ∀ X, X ≠ k2 → X ≠ k →
              pyGet (pySet (pyRemove acc k) k2 v) X = pyGet acc X := by
            intro X h1 h2
            rw [pyGet_pySet_ne _ _ _ _ h1, pyGet_pyRemove_ne _ _ _ h2]
          have hts2 : TIMESERIES ∈ ks →
              (∃ w2, pyGet (pySet (pyRemove acc k) k2 v) TIMESERIES
                = some w2) ∧
              pyGet (pySet (pyRemove acc k) k2 v) "input_timeseries"
                = none := by
            intro hh
            obtain ⟨⟨w, hw⟩, hits⟩ := hts (List.mem_cons_of_mem _ hh)
            refine ⟨⟨w, ?_⟩, ?_⟩
            · rw [hpres _ (Ne.symm hspec.2.2.2.2) (Ne.symm hkts)]
              exact hw
            · rw [hpres _ (Ne.symm hk2its)
                (Ne.symm (hnone "input_timeseries" (by decide)))]
              exact hits
          have hbus2 : g = ENERGY_BUSSES → "Asset_list" ∈ ks →
              ∃ bd, pyGet (pySet (pyRemove acc k) k2 v) "Asset_list"
                = some (.dict bd) := by
            intro hg hAL
            obtain ⟨bd, hbd⟩ := hbus hg (List.mem_cons_of_mem _ hAL)
            refine ⟨bd, ?_⟩
            rw [hpres _ (Ne.symm hspec.2.2.1) (Ne.symm hkAL)]
            exact hbd
          obtain ⟨ad2, hloop, hits2, hunit2, hlabel2⟩ := ih _ hnd2 hts2 hbus2
          refine ⟨ad2, ?_, ?_, ?_, ?_⟩
          · simp only [stepLoop, hstep]
            exact hloop
          · rw [hits2]
            by_cases hmem : TIMESERIES ∈ ks
            · rw [if_pos hmem, if_pos (hmemshift.mpr hmem),
                hpres _ (Ne.symm hspec.2.2.2.2) (Ne.symm hkts)]
            · rw [if_neg hmem, if_neg (fun hh => hmem (hmemshift.mp hh)),
                hpres _ (Ne.symm hk2its)
                  (Ne.symm (hnone "input_timeseries" (by decide)))]
          · rw [hunit2, hpres UNIT (Ne.symm hspec.2.1)
              (Ne.symm (hnone UNIT (by decide)))]
          · rw [hlabel2, hpres LABEL (Ne.symm hspec.1)
              (Ne.symm (hnone LABEL (by decide)))]
        | none =>
          have hstep : mvsAssetKeyStep g acc k = .ok acc := by
            rw [mvsAssetKeyStep_not_bus g acc k hcond, hmk, pyPop_eq, hgk]
          obtain ⟨ad2, hloop, hits2, hunit2, hlabel2⟩ := ih acc hnd2
            (fun hh => hts (List.mem_cons_of_mem _ hh))
            (fun hg hh => hbus hg (List.mem_cons_of_mem _ hh))
          refine ⟨ad2, ?_, ?_, hunit2, hlabel2⟩
          · simp only [stepLoop, hstep]
            exact hloop
          · rw [hits2]
            by_cases hmem : TIMESERIES ∈ ks
            · rw [if_pos hmem, if_pos (hmemshift.mpr hmem)]
            · rw [if_neg hmem, if_neg (fun hh => hmem (hmemshift.mp hh))]
    | none =>
      have hkts : k ≠ TIMESERIES := by
        intro hh
        rw [hh] at hmk
        have hd : pyGet MAP_MVS_EPA TIMESERIES = some "input_timeseries" :=
          by decide
        rw [hd] at hmk
        exact Option.noConfusion hmk
      have hmemshift : (TIMESERIES ∈ k :: ks) ↔ (TIMESERIES ∈ ks) := by
        rw [List.mem_cons]
        exact ⟨fun hh => hh.resolve_left (fun hh2 => hkts hh2.symm), Or.inr⟩
      by_cases hcond : (g == ENERGY_BUSSES && k == "Asset_list") = true
      · obtain ⟨hgb, hkA⟩ := Bool.and_eq_true _ _ ▸ hcond
        have hgb2 : g = ENERGY_BUSSES := eq_of_beq hgb
        have hkA2 : k = "Asset_list" := eq_of_beq hkA
        subst hgb2
        subst hkA2
        obtain ⟨bd, hbd⟩ := hbus rfl (List.mem_cons_self _ _)
        have hstep := mvsAssetKeyStep_bus acc bd hbd
        have hpres : ∀ X, X ≠ "assets" → X ≠ "Asset_list" →
            pyGet (pySet (pyRemove acc "Asset_list") "assets"
              (.list ((pyKeys bd).map Value.str))) X = pyGet acc X := by
          intro X h1 h2
          rw [pyGet_pySet_ne _ _ _ _ h1, pyGet_pyRemove_ne _ _ _ h2]
        have hts2 : TIMESERIES ∈ ks →
            (∃ w2, pyGet (pySet (pyRemove acc "Asset_list") "assets"
              (.list ((pyKeys bd).map Value.str))) TIMESERIES = some w2) ∧
            pyGet (pySet (pyRemove acc "Asset_list") "assets"
              (.list ((pyKeys bd).map Value.str))) "input_timeseries"
              = none := by
          intro hh
          obtain ⟨⟨w, hw⟩, hits⟩ := hts (List.mem_cons_of_mem _ hh)
          refine ⟨⟨w, ?_⟩, ?_⟩
          · rw [hpres _ (by decide) (by decide)]
            exact hw
          · rw [hpres _ (by decide) (by decide)]
            exact hits
        have hbus2 : ENERGY_BUSSES = ENERGY_BUSSES → "Asset_list" ∈ ks →
            ∃ bd2, pyGet (pySet (pyRemove acc "Asset_list") "assets"
              (.list ((pyKeys bd).map Value.str))) "Asset_list"
              = some (.dict bd2) :=
          fun _ hh => absurd hh hknks
        obtain ⟨ad2, hloop, hits2, hunit2, hlabel2⟩ := ih _ hnd2 hts2 hbus2
        refine ⟨ad2, ?_, ?_, ?_, ?_⟩
        · simp only [stepLoop, hstep]
          exact hloop
        · rw [hits2]
          by_cases hmem : TIMESERIES ∈ ks
          · rw [if_pos hmem, if_pos (hmemshift.mpr hmem),
              hpres _ (by decide) (by decide)]
          · rw [if_neg hmem, if_neg (fun hh => hmem (hmemshift.mp hh)),
              hpres _ (by decide) (by decide)]
        · rw [hunit2, hpres _ (by decide) (by decide)]
        · rw [hlabel2, hpres _ (by decide) (by decide)]
      · have hcondf : (g == ENERGY_BUSSES && k == "Asset_list") = false := by
          cases hx : (g == ENERGY_BUSSES && k == "Asset_list") with
          | false => rfl
          | true => exact absurd hx hcond
        have hstep : mvsAssetKeyStep g acc k = .ok acc := by
          rw [mvsAssetKeyStep_not_bus g acc k hcondf, hmk]
        obtain ⟨ad2, hloop, hits2, hunit2, hlabel2⟩ := ih acc hnd2
          (fun hh => hts (List.mem_cons_of_mem _ hh))
          (fun hg hh => hbus hg (List.mem_cons_of_mem _ hh))
        refine ⟨ad2, ?_, ?_, hunit2, hlabel2⟩
        · simp only [stepLoop, hstep]
          exact hloop
        · rw [hits2]
          by_cases hmem : TIMESERIES ∈ ks
          · rw [if_pos hmem, if_pos (hmemshift.mpr hmem)]
          · rw [if_neg hmem, if_neg (fun hh => hmem (hmemshift.mp hh))]

theorem processAssetMvs_total (g label : String) (v : Value)
    (h : assetConvertible g v = true) :
    ∃ a, processAssetMvs g label v = .ok a := by
  cases v <;> try exact Bool.noConfusion h
  rename_i ad
  simp only [assetConvertible, Bool.and_eq_true] at h
  obtain ⟨⟨⟨hnd, hits⟩, hts⟩, hAL⟩ := h
  have hnd2 : (pyKeys ad).Nodup := of_decide_eq_true hnd
  have hits2 : pyGet ad "input_timeseries" = none := by
    cases hx : pyGet ad "input_timeseries" with
    | none => rfl
    | some w =>
      rw [pyMem, hx] at hits
      exact Bool.noConfusion hits
  have hnd1 : (pyKeys (pySet ad LABEL (.str label))).Nodup :=
    pyKeys_pySet_nodup _ _ _ hnd2
  have hpres1 : ∀ X, X ≠ LABEL →
      pyGet (pySet ad LABEL (.str label)) X = pyGet ad X :=
    fun X hX => pyGet_pySet_ne _ _ _ _ hX
  have htsH : TIMESERIES ∈ pyKeys (pySet ad LABEL (.str label)) →
      (∃ w, pyGet (pySet ad LABEL (.str label)) TIMESERIES = some w) ∧
      pyGet (pySet ad LABEL (.str label)) "input_timeseries" = none := by
    intro hm
    rw [mem_pyKeys_iff] at hm
    refine ⟨Option.isSome_iff_exists.mp hm, ?_⟩
    rw [hpres1 _ (by decide)]
    exact hits2
  have hbusH : g = ENERGY_BUSSES →
      "Asset_list" ∈ pyKeys (pySet ad LABEL (.str label)) →
      ∃ bd, pyGet (pySet ad LABEL (.str label)) "Asset_list"
        = some (.dict bd) := by
    intro hg hm
    subst hg
    rw [mem_pyKeys_iff, hpres1 _ (by decide)] at hm
    rw [hpres1 _ (by decide)]
    obtain ⟨w, hw⟩ := Option.isSome_iff_exists.mp hm
    rw [hw] at hAL ⊢
    cases w
    case dict bd => exact ⟨bd, rfl⟩
    all_goals exact absurd (show (!(ENERGY_BUSSES == ENERGY_BUSSES)) = true from hAL) (by decide)
  obtain ⟨ad2, hloop, hits3, hunit3, hlabel3⟩ :=
    keyLoop_spec g (pyKeys (pySet ad LABEL (.str label)))
      (pySet ad LABEL (.str label)) hnd1 htsH hbusH
  have hstep1 : processAssetMvs g label (.dict ad) = mvsAssetTimeseries ad2 :=
    by simp only [processAssetMvs, hloop]
  rw [hstep1]
  have hmapts : pyGet MAP_MVS_EPA TIMESERIES = some "input_timeseries" := by
    decide
  cases hta : pyGet ad TIMESERIES with
  | none =>
    have hnm : TIMESERIES ∉ pyKeys (pySet ad LABEL (.str label)) := by
      rw [mem_pyKeys_iff, hpres1 _ (by decide), hta]
      exact fun hh => Bool.noConfusion hh
    have hits4 : pyGet ad2 "input_timeseries" = none := by
      rw [hits3, if_neg hnm, hpres1 _ (by decide)]
      exact hits2
    refine ⟨ad2, ?_⟩
    simp only [mvsAssetTimeseries, hmapts, pyMem, hits4, Option.isSome_none,
      Bool.false_eq_true, if_false]
  | some w =>
    rw [hta] at hts
    cases w <;> try exact Bool.noConfusion hts
    rename_i xs
    have hmm : TIMESERIES ∈ pyKeys (pySet ad LABEL (.str label)) := by
      rw [mem_pyKeys_iff, hpres1 _ (by decide), hta]
      rfl
    have hits4 : pyGet ad2 "input_timeseries" = some (.series xs) := by
      rw [hits3, if_pos hmm, hpres1 _ (by decide)]
      exact hta
    obtain ⟨u, hu⟩ := Option.isSome_iff_exists.mp hts
    have hu2 : pyGet ad2 UNIT = some u := by
      rw [hunit3, hpres1 _ (by decide)]
      exact hu
    refine ⟨pySet (pyRemove ad2 UNIT) "input_timeseries"
      (.dict [(UNIT, u), (DATA, .list xs)]), ?_⟩
    simp only [mvsAssetTimeseries, hmapts, pyMem, hits4, Option.isSome_some,
      if_true, pyPop_eq, hu2]

theorem mvsAssetKeyStep_label (g : String) (t : PyDict Value) (k : String)
    (t2 : PyDict Value) (h : mvsAssetKeyStep g t k = .ok t2) :
    pyGet t2 LABEL = pyGet t LABEL := by
  by_cases hc : (g == ENERGY_BUSSES && k == "Asset_list") = true
  · have hkA : k = "Asset_list" := eq_of_beq ((Bool.and_eq_true _ _ ▸ hc).2)
    subst hkA
    have hm : pyGet MAP_MVS_EPA "Asset_list" = none := by decide
    simp only [mvsAssetKeyStep, hm, hc, if_true, pyPop_eq] at h
    cases hga : pyGet t "Asset_list" with
    | none =>
      rw [hga] at h
      exact Except.noConfusion h
    | some w =>
      rw [hga] at h
      cases w <;> try exact Except.noConfusion h
      rename_i bd
      injection h with h
      rw [← h, pyGet_pySet_ne _ _ _ _ (by decide),
        pyGet_pyRemove_ne _ _ _ (by decide)]
  · have hcf : (g == ENERGY_BUSSES && k == "Asset_list") = false := by
      cases hx : (g == ENERGY_BUSSES && k == "Asset_list") with
      | false => rfl
      | true => exact absurd hx hc
    rw [mvsAssetKeyStep_not_bus g t k hcf] at h
    injection h with h
    cases hmk : pyGet MAP_MVS_EPA k with
    | none =>
      rw [hmk] at h
      rw [← h]
    | some k2 =>
      rw [hmk, pyPop_eq] at h
      cases hgk : pyGet t k with
      | none =>
        rw [hgk] at h
        rw [← h]
      | some v =>
        rw [hgk] at h
        have hkL : k ≠ LABEL := by
          intro hh
          rw [hh] at hmk
          have hd : pyGet MAP_MVS_EPA LABEL = none := by decide
          rw [hd] at hmk
          exact Option.noConfusion hmk
        rw [← h, pyGet_pySet_ne _ _ _ _
            (Ne.symm (mapMvsEpa_val_not_special k k2 hmk).1),
          pyGet_pyRemove_ne _ _ _ (Ne.symm hkL)]

theorem keyStepLoop_label (g : String) (ks : List String)
    (acc ad2 : PyDict Value)
    (h : stepLoop (mvsAssetKeyStep g) ks acc = .ok ad2) :
    pyGet ad2 LABEL = pyGet acc LABEL :=
  stepLoop_invariant _ (fun s => pyGet s LABEL = pyGet acc LABEL) ks acc ad2 h
    (fun t i t2 _ hstep hP => (mvsAssetKeyStep_label g t i t2 hstep).trans hP)
    rfl

theorem mvsAssetTimeseries_label (ad a : PyDict Value)
    (h : mvsAssetTimeseries ad = .ok a) :
    pyGet a LABEL = pyGet ad LABEL := by
  have hmapts : pyGet MAP_MVS_EPA TIMESERIES = some "input_timeseries" := by
    decide
  simp only [mvsAssetTimeseries, hmapts] at h
  by_cases hm : pyMem ad "input_timeseries" = true
  · rw [if_pos hm] at h
    cases hga : pyGet ad "input_timeseries" with
    | none =>
      rw [hga] at h
      exact Except.noConfusion h
    | some w =>
      rw [hga] at h
      cases w <;> try exact Except.noConfusion h
      rename_i xs
      rw [pyPop_eq] at h
      cases hgu : pyGet ad UNIT with
      | none =>
        rw [hgu] at h
        exact Except.noConfusion h
      | some u =>
        rw [hgu] at h
        injection h with h
        rw [← h, pyGet_pySet_ne _ _ _ _ (by decide),
          pyGet_pyRemove_ne _ _ _ (by decide)]
  · rw [if_neg hm] at h
    injection h with h
    rw [← h]

theorem processAssetMvs_label (g label : String) (v : Value)
    (a : PyDict Value) (h : processAssetMvs g label v = .ok a) :
    pyGet a LABEL = some (.str label) := by
  cases v <;> try exact Except.noConfusion h
  rename_i ad
  simp only [processAssetMvs] at h
  cases hl : stepLoop (mvsAssetKeyStep g) (pyKeys (pySet ad LABEL (.str label)))
      (pySet ad LABEL (.str label)) with
  | error err =>
    rw [hl] at h
    exact Except.noConfusion h
  | ok ad2 =>
    rw [hl] at h
    rw [mvsAssetTimeseries_label ad2 a h, keyStepLoop_label g _ _ _ hl,
      pyGet_pySet_self]

theorem bool_not_true {b : Bool} (h : (!b) = true) : b = false := by
  cases b
  · rfl
  · exact Bool.noConfusion h

theorem mvsAssetFold_total (g : String) (entries : List (String × Value))
    (h : ∀ p ∈ entries, assetConvertible g p.2 = true) :
    ∃ la aft, mvsAssetFold g entries = .ok (la, aft) := by
  induction entries with
  | nil => exact ⟨[], [], rfl⟩
  | cons p rest ih =>
    obtain ⟨label, v⟩ := p
    obtain ⟨a, ha⟩ := processAssetMvs_total g label v
      (h (label, v) (List.mem_cons_self _ _))
    obtain ⟨la, aft, hr⟩ := ih (fun q hq => h q (List.mem_cons_of_mem _ hq))
    by_cases hc : (!strIn "_excess" label && !strIn "_sink" label) = true
    · refine ⟨a :: la, (label, .dict a) :: aft, ?_⟩
      simp only [mvsAssetFold, ha, hr, if_pos hc]
    · refine ⟨la, (label, .dict a) :: aft, ?_⟩
      simp only [mvsAssetFold, ha, hr, if_neg hc]

theorem mvsAssetFold_mem (g : String) (entries : List (String × Value))
    (la : List (PyDict Value)) (aft : List (String × Value))
    (h : mvsAssetFold g entries = .ok (la, aft)) :
    ∀ a ∈ la, ∃ label v, (label, v) ∈ entries ∧
      processAssetMvs g label v = .ok a ∧
      strIn "_excess" label = false ∧ strIn "_sink" label = false := by
  induction entries generalizing la aft with
  | nil =>
    simp only [mvsAssetFold] at h
    injection h with h
    injection h with h1 h2
    intro a ha
    rw [← h1] at ha
    exact absurd ha (List.not_mem_nil _)
  | cons p rest ih =>
    obtain ⟨label, v⟩ := p
    simp only [mvsAssetFold] at h
    cases hp : processAssetMvs g label v with
    | error err =>
      simp only [hp] at h
      exact Except.noConfusion h
    | ok a0 =>
      simp only [hp] at h
      cases hr : mvsAssetFold g rest with
      | error err =>
        simp only [hr] at h
        exact Except.noConfusion h
      | ok q =>
        obtain ⟨la0, aft0⟩ := q
        simp only [hr] at h
        by_cases hc : (!strIn "_excess" label && !strIn "_sink" label) = true
        · rw [if_pos hc] at h
          injection h with h
          have hla : la = a0 :: la0 := (congrArg Prod.fst h).symm
          intro a ha
          rw [hla, List.mem_cons] at ha
          rcases ha with rfl | ha
          · obtain ⟨hc1, hc2⟩ := Bool.and_eq_true _ _ ▸ hc
            exact ⟨label, v, List.mem_cons_self _ _, hp, bool_not_true hc1,
              bool_not_true hc2⟩
          · obtain ⟨lb, vb, hmem, hpb, he1, he2⟩ := ih la0 aft0 hr a ha
            exact ⟨lb, vb, List.mem_cons_of_mem _ hmem, hpb, he1, he2⟩
        · rw [if_neg hc] at h
          injection h with h
          have hla : la = la0 := (congrArg Prod.fst h).symm
          intro a ha
          rw [hla] at ha
          obtain ⟨lb, vb, hmem, hpb, he1, he2⟩ := ih la0 aft0 hr a ha
          exact ⟨lb, vb, List.mem_cons_of_mem _ hmem, hpb, he1, he2⟩

theorem mvsAssetStep_ok_inv (s s2 : PyDict Value × PyDict Value) (g : String)
    (h : mvsAssetStep s g = .ok s2) :
    ∃ entries la aft e2, pyGet s.2 g = some (.dict entries) ∧
      mvsAssetFold g entries = .ok (la, aft) ∧
      pyGet MAP_MVS_EPA g = some e2 ∧
      s2 = (pySet s.1 e2 (.list (la.map Value.dict)),
        pySet s.2 g (.dict aft)) := by
  simp only [mvsAssetStep] at h
  cases hg : pyGet s.2 g with
  | none =>
    simp only [hg] at h
    exact Except.noConfusion h
  | some w =>
    simp only [hg] at h
    cases w <;> try exact Except.noConfusion h
    rename_i entries
    cases hf : mvsAssetFold g entries with
    | error err =>
      simp only [hf] at h
      exact Except.noConfusion h
    | ok q =>
      obtain ⟨la, aft⟩ := q
      simp only [hf] at h
      cases hm : pyGet MAP_MVS_EPA g with
      | none =>
        simp only [hm] at h
        exact Except.noConfusion h
      | some e2 =>
        simp only [hm] at h
        injection h with h
        exact ⟨entries, la, aft, e2, rfl, hf, rfl, h.symm⟩

theorem mvsAssetStep_total (s : PyDict Value × PyDict Value) (g : String)
    (hmap : (pyGet MAP_MVS_EPA g).isSome = true)
    (hg : assetGroupConvertible s.2 g = true) :
    ∃ s2, mvsAssetStep s g = .ok s2 := by
  unfold assetGroupConvertible at hg
  cases hge : pyGet s.2 g with
  | none =>
    simp only [hge] at hg
    exact Bool.noConfusion hg
  | some w =>
    simp only [hge] at hg
    cases w <;> try exact Bool.noConfusion hg
    rename_i entries
    have hall : ∀ p ∈ entries, assetConvertible g p.2 = true :=
      List.all_eq_true.mp hg
    obtain ⟨la, aft, hf⟩ := mvsAssetFold_total g entries hall
    obtain ⟨e2, he2⟩ := Option.isSome_iff_exists.mp hmap
    refine ⟨(pySet s.1 e2 (.list (la.map Value.dict)),
      pySet s.2 g (.dict aft)), ?_⟩
    simp only [mvsAssetStep, hge, hf, he2]

theorem mvsParamStep_ok (s : PyDict Value × PyDict Value) (g : String)
    (exp : List String) (e : String) (d : PyDict Value)
    (he : pyGet MAP_MVS_EPA g = some e) (hd : pyGet s.2 g = some (.dict d)) :
    mvsParamStep s (g, exp) =
      .ok (pySet s.1 e (.dict (mvsParamFieldLoop g exp d)),
        pySet s.2 g (.dict (mvsParamFieldLoop g exp d))) := by
  simp only [mvsParamStep, he, hd]

theorem assetLoop_frame1 (gs : List String)
    (s s2 : PyDict Value × PyDict Value) (x : String)
    (h : stepLoop mvsAssetStep gs s = .ok s2)
    (hx : ∀ g ∈ gs, ∀ e, pyGet MAP_MVS_EPA g = some e → e ≠ x) :
    pyGet s2.1 x = pyGet s.1 x := by
  refine stepLoop_invariant _ (fun t => pyGet t.1 x = pyGet s.1 x) gs s s2 h
    ?_ rfl
  intro t g t2 hg hstep hP
  obtain ⟨entries, la, aft, e2, _, _, hm, hts2⟩ :=
    mvsAssetStep_ok_inv t t2 g hstep
  have h1 : t2.1 = pySet t.1 e2 (.list (la.map Value.dict)) := by rw [hts2]
  rw [h1, pyGet_pySet_ne _ _ _ _ (Ne.symm (hx g hg e2 hm))]
  exact hP

theorem assetLoop_total_out : ∀ (gs : List String)
    (s : PyDict Value × PyDict Value), gs.Nodup →
    (∀ g ∈ gs, (pyGet MAP_MVS_EPA g).isSome = true) →
    (∀ g ∈ gs, assetGroupConvertible s.2 g = true) →
    (∀ g1 ∈ gs, ∀ g2 ∈ gs, g1 ≠ g2 →
      pyGet MAP_MVS_EPA g1 ≠ pyGet MAP_MVS_EPA g2) →
    ∃ s2, stepLoop mvsAssetStep gs s = .ok s2 ∧
      ∀ g ∈ gs, ∀ e, pyGet MAP_MVS_EPA g = some e →
        ∃ la : List (PyDict Value),
          pyGet s2.1 e = some (.list (la.map Value.dict)) := by
  intro gs
  induction gs with
  | nil =>
    intro s _ _ _ _
    exact ⟨s, rfl, fun g hg => absurd hg (List.not_mem_nil _)⟩
  | cons g0 gs ih =>
    intro s hnd hmap hconv hinj
    obtain ⟨s1, hs1⟩ := mvsAssetStep_total s g0
      (hmap g0 (List.mem_cons_self _ _)) (hconv g0 (List.mem_cons_self _ _))
    obtain ⟨entries, la, aft, e2, hge, hf, hm, hs1eq⟩ :=
      mvsAssetStep_ok_inv s s1 g0 hs1
    have hs1_2 : s1.2 = pySet s.2 g0 (.dict aft) := by rw [hs1eq]
    have hs1_1 : s1.1 = pySet s.1 e2 (.list (la.map Value.dict)) := by
      rw [hs1eq]
    have hnd2 := (List.nodup_cons.mp hnd).2
    have hg0n := (List.nodup_cons.mp hnd).1
    have hconv2 : ∀ g ∈ gs, assetGroupConvertible s1.2 g = true := by
      intro g hg
      have hne : g ≠ g0 := fun hh => hg0n (hh ▸ hg)
      have h0 := hconv g (List.mem_cons_of_mem _ hg)
      unfold assetGroupConvertible at h0 ⊢
      rw [hs1_2, pyGet_pySet_ne _ _ _ _ hne]
      exact h0
    obtain ⟨s2, hloop, hout⟩ := ih s1 hnd2
      (fun g hg => hmap g (List.mem_cons_of_mem _ hg)) hconv2
      (fun g1 h1 g2 h2 => hinj g1 (List.mem_cons_of_mem _ h1) g2
        (List.mem_cons_of_mem _ h2))
    refine ⟨s2, ?_, ?_⟩
    · simp only [stepLoop, hs1]
      exact hloop
    · intro g hg e he
      rcases List.mem_cons.mp hg with hgg | hg2
      · subst hgg
        have hee : e = e2 := Option.some.inj (he.symm.trans hm)
        subst hee
        have hframe : pyGet s2.1 e = pyGet s1.1 e := by
          apply assetLoop_frame1 gs s1 s2 e hloop
          intro g2 hg2b e3 he3 hee3
          have heq : pyGet MAP_MVS_EPA g2 = pyGet MAP_MVS_EPA g := by
            rw [he3, hee3, hm]
          exact hinj g2 (List.mem_cons_of_mem _ hg2b) g
            (List.mem_cons_self _ _) (fun hh => hg0n (hh ▸ hg2b)) heq
        refine ⟨la, ?_⟩
        rw [hframe, hs1_1, pyGet_pySet_self]
      · exact hout g hg2 e he

theorem prunedList_map (exp : List String) (la : List (PyDict Value)) :
    prunedList exp (la.map Value.dict) =
      .ok ((la.map (pruneAssetFields exp)).map Value.dict) := by
  induction la with
  | nil => rfl
  | cons a la ih => simp only [List.map_cons, prunedList, ih]

theorem pruneStep_ok (s : PyDict Value × PyDict Value) (g : String)
    (exp : List String) (e : String) (la : List (PyDict Value))
    (he : pyGet MAP_MVS_EPA g = some e)
    (hl : pyGet s.1 e = some (.list (la.map Value.dict))) :
    ∃ aft2, pruneStep s (g, exp) =
      .ok (pySet s.1 e
        (.list ((la.map (pruneAssetFields exp)).map Value.dict)), aft2) := by
  cases hsg : pyGet s.2 g with
  | none =>
    exact ⟨s.2, by simp only [pruneStep, he, hl, prunedList_map, hsg]⟩
  | some w =>
    cases w
    case dict aft =>
      refine ⟨pySet s.2 g (.dict (prunePatchAfter exp aft)), ?_⟩
      simp only [pruneStep, he, hl, prunedList_map, hsg]
    all_goals exact ⟨s.2, by simp only [pruneStep, he, hl, prunedList_map, hsg]⟩

theorem pruneStep_ok_inv (s s2 : PyDict Value × PyDict Value)
    (ge : String × List String) (h : pruneStep s ge = .ok s2) :
    ∃ e assets assets2, pyGet MAP_MVS_EPA ge.1 = some e ∧
      pyGet s.1 e = some (.list assets) ∧
      prunedList ge.2 assets = .ok assets2 ∧
      s2.1 = pySet s.1 e (.list assets2) := by
  simp only [pruneStep] at h
  cases hm : pyGet MAP_MVS_EPA ge.1 with
  | none =>
    simp only [hm] at h
    exact Except.noConfusion h
  | some e =>
    simp only [hm] at h
    cases hl : pyGet s.1 e with
    | none =>
      simp only [hl] at h
      exact Except.noConfusion h
    | some w =>
      simp only [hl] at h
      cases w <;> try exact Except.noConfusion h
      rename_i assets
      cases hpl : prunedList ge.2 assets with
      | error err =>
        simp only [hpl] at h
        exact Except.noConfusion h
      | ok assets2 =>
        simp only [hpl] at h
        injection h with h
        refine ⟨e, assets, assets2, rfl, hl, hpl, ?_⟩
        rw [← h]

/-- C4 amended: the internal-to-exchange conversion can raise — an absent
parameter or asset group raises KeyError at the subscript, a non-dict group
or asset TypeError, a bus asset with a non-dict `Asset_list` or a non-Series
timeseries raises at the flattening/`to_list`, and a timeseries without a
sibling unit raises at the unit pop.  On the convertible class — every
iterated group present as a dict, every asset a dict with unique keys, no
exchange-side `input_timeseries` field, Series timeseries accompanied by a
unit, dict-valued `Asset_list` — `convert_mvs_params_to_epa` always returns
an exchange dict; missing or extra fields inside a present group are indeed
recorded only as diagnostics. -/
theorem C4_convertible_payload_never_raises (mvs : PyDict Value) (vb : Bool)
    (h : mvsConvertible mvs = true) :
    ∃ out after, convert_mvs_params_to_epa mvs vb = .ok (out, after) := by
  simp only [mvsConvertible, Bool.and_eq_true] at h
  obtain ⟨hparam, hassets⟩ := h
  have hassets2 : ∀ g ∈ pyKeys EPA_ASSET_KEYS,
      assetGroupConvertible mvs g = true := List.all_eq_true.mp hassets
  have hparam2 : ∀ g ∈ pyKeys EPA_PARAM_KEYS,
      (match pyGet mvs g with
        | some (.dict _) => true
        | _ => false) = true := List.all_eq_true.mp hparam
  have hdmap : ∀ ge ∈ (EPA_PARAM_KEYS : PyDict (List String)),
      (pyGet MAP_MVS_EPA ge.1).isSome = true := by decide
  have hdisj : ∀ ge ∈ (EPA_PARAM_KEYS : PyDict (List String)),
      ∀ g2 ∈ pyKeys EPA_ASSET_KEYS, ge.1 ≠ g2 := by decide
  have hInit : (∀ ge ∈ (EPA_PARAM_KEYS : PyDict (List String)),
      ∃ dd, pyGet (([], mvs) : PyDict Value × PyDict Value).2 ge.1
        = some (.dict dd)) ∧
      (∀ g ∈ pyKeys EPA_ASSET_KEYS,
        pyGet (([], mvs) : PyDict Value × PyDict Value).2 g
          = pyGet mvs g) := by
    constructor
    · intro ge hge
      have h0 := hparam2 ge.1 (List.mem_map_of_mem _ hge)
      cases hx : pyGet mvs ge.1 with
      | none =>
        simp only [hx] at h0
        exact Bool.noConfusion h0
      | some w =>
        simp only [hx] at h0
        cases w <;> try exact Bool.noConfusion h0
        rename_i dd
        exact ⟨dd, rfl⟩
    · intro g _
      rfl
  have hStep : ∀ t ge, ge ∈ (EPA_PARAM_KEYS : PyDict (List String)) →
      ((∀ ge2 ∈ (EPA_PARAM_KEYS : PyDict (List String)),
        ∃ dd, pyGet t.2 ge2.1 = some (.dict dd)) ∧
       (∀ g ∈ pyKeys EPA_ASSET_KEYS, pyGet t.2 g = pyGet mvs g)) →
      ∃ t2, mvsParamStep t ge = .ok t2 ∧
      ((∀ ge2 ∈ (EPA_PARAM_KEYS : PyDict (List String)),
        ∃ dd, pyGet t2.2 ge2.1 = some (.dict dd)) ∧
       (∀ g ∈ pyKeys EPA_ASSET_KEYS, pyGet t2.2 g = pyGet mvs g)) := by
    intro t ge hge hPt
    obtain ⟨g, exp⟩ := ge
    obtain ⟨e, he⟩ := Option.isSome_iff_exists.mp (hdmap (g, exp) hge)
    obtain ⟨dd, hdd⟩ := hPt.1 (g, exp) hge
    refine ⟨_, mvsParamStep_ok t g exp e dd he hdd, ?_, ?_⟩
    · intro ge' hge'
      by_cases hgg : ge'.1 = g
      · refine ⟨mvsParamFieldLoop g exp dd, ?_⟩
        show pyGet (pySet t.2 g (.dict (mvsParamFieldLoop g exp dd))) ge'.1
          = some (Value.dict (mvsParamFieldLoop g exp dd))
        rw [hgg, pyGet_pySet_self]
      · obtain ⟨dd', hdd'⟩ := hPt.1 ge' hge'
        refine ⟨dd', ?_⟩
        show pyGet (pySet t.2 g (.dict (mvsParamFieldLoop g exp dd))) ge'.1
          = some (Value.dict dd')
        rw [pyGet_pySet_ne _ _ _ _ hgg]
        exact hdd'
    · intro g2 hg2
      show pyGet (pySet t.2 g (.dict (mvsParamFieldLoop g exp dd))) g2
        = pyGet mvs g2
      rw [pyGet_pySet_ne _ _ _ _ (Ne.symm (hdisj (g, exp) hge g2 hg2))]
      exact hPt.2 g2 hg2
  obtain ⟨s1, hploop, hP1⟩ := stepLoop_total mvsParamStep
    (fun s => (∀ ge ∈ (EPA_PARAM_KEYS : PyDict (List String)),
        ∃ dd, pyGet s.2 ge.1 = some (.dict dd)) ∧
      (∀ g ∈ pyKeys EPA_ASSET_KEYS, pyGet s.2 g = pyGet mvs g))
    EPA_PARAM_KEYS ([], mvs) hInit hStep
  have hconvAt1 : ∀ g ∈ pyKeys EPA_ASSET_KEYS,
      assetGroupConvertible s1.2 g = true := by
    intro g hg
    have h0 := hassets2 g hg
    unfold assetGroupConvertible at h0 ⊢
    rw [hP1.2 g hg]
    exact h0
  have hndA : (pyKeys EPA_ASSET_KEYS).Nodup := by decide
  have hmapA : ∀ g ∈ pyKeys EPA_ASSET_KEYS,
      (pyGet MAP_MVS_EPA g).isSome = true := by decide
  have hinjA : ∀ g1 ∈ pyKeys EPA_ASSET_KEYS, ∀ g2 ∈ pyKeys EPA_ASSET_KEYS,
      g1 ≠ g2 → pyGet MAP_MVS_EPA g1 ≠ pyGet MAP_MVS_EPA g2 := by decide
  obtain ⟨s2, haloop, hout⟩ := assetLoop_total_out (pyKeys EPA_ASSET_KEYS) s1
    hndA hmapA hconvAt1 hinjA
  have hdmapA2 : ∀ ge ∈ (EPA_ASSET_KEYS : PyDict (List String)),
      (pyGet MAP_MVS_EPA ge.1).isSome = true := by decide
  have hPInit : ∀ ge ∈ (EPA_ASSET_KEYS : PyDict (List String)), ∀ e,
      pyGet MAP_MVS_EPA ge.1 = some e →
      ∃ la : List (PyDict Value),
        pyGet s2.1 e = some (.list (la.map Value.dict)) :=
    fun ge hge e he => hout ge.1 (List.mem_map_of_mem _ hge) e he
  have hPStep : ∀ t ge, ge ∈ (EPA_ASSET_KEYS : PyDict (List String)) →
      (∀ ge2 ∈ (EPA_ASSET_KEYS : PyDict (List String)), ∀ e,
        pyGet MAP_MVS_EPA ge2.1 = some e →
        ∃ la : List (PyDict Value),
          pyGet t.1 e = some (.list (la.map Value.dict))) →
      ∃ t2, pruneStep t ge = .ok t2 ∧
      (∀ ge2 ∈ (EPA_ASSET_KEYS : PyDict (List String)), ∀ e,
        pyGet MAP_MVS_EPA ge2.1 = some e →
        ∃ la : List (PyDict Value),
          pyGet t2.1 e = some (.list (la.map Value.dict))) := by
    intro t ge hge hPt
    obtain ⟨g, exp⟩ := ge
    obtain ⟨e, he⟩ := Option.isSome_iff_exists.mp (hdmapA2 (g, exp) hge)
    obtain ⟨la, hla⟩ := hPt (g, exp) hge e he
    obtain ⟨aft2, hstep⟩ := pruneStep_ok t g exp e la he hla
    refine ⟨_, hstep, ?_⟩
    intro ge' hge' e' he'
    by_cases hee : e' = e
    · subst hee
      refine ⟨la.map (pruneAssetFields exp), ?_⟩
      show pyGet (pySet t.1 e'
        (.list ((la.map (pruneAssetFields exp)).map Value.dict))) e'
        = some (Value.list (((la.map (pruneAssetFields exp))).map Value.dict))
      rw [pyGet_pySet_self]
    · obtain ⟨la', hla'⟩ := hPt ge' hge' e' he'
      refine ⟨la', ?_⟩
      show pyGet (pySet t.1 e
        (.list ((la.map (pruneAssetFields exp)).map Value.dict))) e'
        = some (Value.list (la'.map Value.dict))
      rw [pyGet_pySet_ne _ _ _ _ hee]
      exact hla'
  obtain ⟨s3, hprune, _⟩ := stepLoop_total pruneStep
    (fun s => ∀ ge ∈ (EPA_ASSET_KEYS : PyDict (List String)), ∀ e,
      pyGet MAP_MVS_EPA ge.1 = some e →
      ∃ la : List (PyDict Value),
        pyGet s.1 e = some (.list (la.map Value.dict)))
    EPA_ASSET_KEYS s2 hPInit hPStep
  refine ⟨s3.1, s3.2, ?_⟩
  simp only [convert_mvs_params_to_epa, hploop, haloop]
  rw [hprune]

/-- Witness for C4 amended: the conversion returns on a concrete convertible
payload exercising the timeseries repackaging, the bus flattening and the
excess-label exclusion. -/
theorem C4_convertible_payload_never_raises_witness :
    ∃ out after,
      convert_mvs_params_to_epa mvsPayloadConvertible false
        = .ok (out, after) :=
  C4_convertible_payload_never_raises mvsPayloadConvertible false (by decide)

theorem mvsParamStep_ok_inv (s s2 : PyDict Value × PyDict Value)
    (ge : String × List String) (h : mvsParamStep s ge = .ok s2) :
    ∃ e d, pyGet MAP_MVS_EPA ge.1 = some e ∧
      pyGet s.2 ge.1 = some (.dict d) ∧
      s2 = (pySet s.1 e (.dict (mvsParamFieldLoop ge.1 ge.2 d)),
        pySet s.2 ge.1 (.dict (mvsParamFieldLoop ge.1 ge.2 d))) := by
  simp only [mvsParamStep] at h
  cases hm : pyGet MAP_MVS_EPA ge.1 with
  | none =>
    simp only [hm] at h
    exact Except.noConfusion h
  | some e =>
    simp only [hm] at h
    cases hd : pyGet s.2 ge.1 with
    | none =>
      simp only [hd] at h
      exact Except.noConfusion h
    | some w =>
      simp only [hd] at h
      cases w <;> try exact Except.noConfusion h
      rename_i d
      injection h with h
      exact ⟨e, d, rfl, rfl, h.symm⟩

theorem paramLoop_frame2 (ks : List (String × List String))
    (s s1 : PyDict Value × PyDict Value) (x : String)
    (h : stepLoop mvsParamStep ks s = .ok s1)
    (hx : ∀ ge ∈ ks, ge.1 ≠ x) : pyGet s1.2 x = pyGet s.2 x := by
  refine stepLoop_invariant _ (fun t => pyGet t.2 x = pyGet s.2 x) ks s s1 h
    ?_ rfl
  intro t ge t2 hge hstep hP
  obtain ⟨e, d, _, _, ht2⟩ := mvsParamStep_ok_inv t t2 ge hstep
  have h1 : t2.2 = pySet t.2 ge.1 (.dict (mvsParamFieldLoop ge.1 ge.2 d)) :=
    by rw [ht2]
  rw [h1, pyGet_pySet_ne _ _ _ _ (Ne.symm (hx ge hge))]
  exact hP

theorem assetLoop_frame2 (gs : List String)
    (s s2 : PyDict Value × PyDict Value) (x : String)
    (h : stepLoop mvsAssetStep gs s = .ok s2)
    (hx : x ∉ gs) : pyGet s2.2 x = pyGet s.2 x := by
  refine stepLoop_invariant _ (fun t => pyGet t.2 x = pyGet s.2 x) gs s s2 h
    ?_ rfl
  intro t g t2 hg hstep hP
  obtain ⟨entries, la, aft, e2, _, _, _, ht2⟩ :=
    mvsAssetStep_ok_inv t t2 g hstep
  have h1 : t2.2 = pySet t.2 g (.dict aft) := by rw [ht2]
  have hgx : x ≠ g := fun hh => hx (hh ▸ hg)
  rw [h1, pyGet_pySet_ne _ _ _ _ hgx]
  exact hP

theorem pruneLoop_frame1 (ks : List (String × List String))
    (s s2 : PyDict Value × PyDict Value) (x : String)
    (h : stepLoop pruneStep ks s = .ok s2)
    (hx : ∀ ge ∈ ks, ∀ e, pyGet MAP_MVS_EPA ge.1 = some e → e ≠ x) :
    pyGet s2.1 x = pyGet s.1 x := by
  refine stepLoop_invariant _ (fun t => pyGet t.1 x = pyGet s.1 x) ks s s2 h
    ?_ rfl
  intro t ge t2 hge hstep hP
  obtain ⟨e, assets, assets2, hm, _, _, ht2⟩ := pruneStep_ok_inv t t2 ge hstep
  rw [ht2, pyGet_pySet_ne _ _ _ _ (Ne.symm (hx ge hge e hm))]
  exact hP

theorem pruneFold_get (expected : List String) (x : String)
    (hx : expected.contains x = true) (ks : List String) :
    ∀ acc : PyDict Value,
      pyGet (ks.foldl
        (fun acc k => if expected.contains k then acc else pyRemove acc k)
        acc) x = pyGet acc x := by
  induction ks with
  | nil => intro acc; rfl
  | cons k ks ih =>
    intro acc
    by_cases hk : expected.contains k = true
    · simp only [List.foldl_cons, if_pos hk]
      exact ih acc
    · simp only [List.foldl_cons, if_neg hk]
      rw [ih (pyRemove acc k), pyGet_pyRemove_ne _ _ _ ?_]
      intro hh
      subst hh
      exact hk hx

theorem pruneAssetFields_get (expected : List String) (a : PyDict Value)
    (x : String) (hx : expected.contains x = true) :
    pyGet (pruneAssetFields expected a) x = pyGet a x :=
  pruneFold_get expected x hx (pyKeys a) a

theorem convert_mvs_ok_inv (mvs out after : PyDict Value) (vb : Bool)
    (h : convert_mvs_params_to_epa mvs vb = .ok (out, after)) :
    ∃ s1 s2, stepLoop mvsParamStep EPA_PARAM_KEYS ([], mvs) = .ok s1 ∧
      stepLoop mvsAssetStep (pyKeys EPA_ASSET_KEYS) s1 = .ok s2 ∧
      stepLoop pruneStep EPA_ASSET_KEYS s2 = .ok (out, after) := by
  simp only [convert_mvs_params_to_epa] at h
  cases h1 : stepLoop mvsParamStep EPA_PARAM_KEYS ([], mvs) with
  | error err =>
    simp only [h1] at h
    exact Except.noConfusion h
  | ok s1 =>
    simp only [h1] at h
    cases h2 : stepLoop mvsAssetStep (pyKeys EPA_ASSET_KEYS) s1 with
    | error err =>
      simp only [h2] at h
      exact Except.noConfusion h
    | ok s2 =>
      simp only [h2] at h
      exact ⟨s1, s2, rfl, h2, h⟩

theorem mvs_output_record_trace (mvs out after : PyDict Value) (vb : Bool)
    (g : String) (exp : List String) (e : String) (l : List Value) (r : Value)
    (h : convert_mvs_params_to_epa mvs vb = .ok (out, after))
    (hge : (g, exp) ∈ (EPA_ASSET_KEYS : PyDict (List String)))
    (he : pyGet MAP_MVS_EPA g = some e)
    (hl : pyGet out e = some (.list l)) (hr : r ∈ l) :
    ∃ entries a label v, pyGet mvs g = some (.dict entries) ∧
      (label, v) ∈ entries ∧ processAssetMvs g label v = .ok a ∧
      r = .dict (pruneAssetFields exp a) ∧
      strIn "_excess" label = false ∧ strIn "_sink" label = false := by
  obtain ⟨s1, s2, hploop, haloop, hprune⟩ :=
    convert_mvs_ok_inv mvs out after vb h
  have hgmem : g ∈ pyKeys EPA_ASSET_KEYS := List.mem_map_of_mem _ hge
  have hndK : (pyKeys EPA_ASSET_KEYS).Nodup := by decide
  have hinjA : ∀ g1 ∈ pyKeys EPA_ASSET_KEYS, ∀ g2 ∈ pyKeys EPA_ASSET_KEYS,
      g1 ≠ g2 → pyGet MAP_MVS_EPA g1 ≠ pyGet MAP_MVS_EPA g2 := by decide
  have hdisj : ∀ ge2 ∈ (EPA_PARAM_KEYS : PyDict (List String)),
      ∀ g2 ∈ pyKeys EPA_ASSET_KEYS, ge2.1 ≠ g2 := by decide
  have hpf : pyGet s1.2 g = pyGet mvs g := by
    have h9 := paramLoop_frame2 EPA_PARAM_KEYS ([], mvs) s1 g hploop
      (fun ge2 hge2 => hdisj ge2 hge2 g hgmem)
    exact h9
  obtain ⟨l1, l2, t, t2, hsplit, hpre, hstepg, hpost⟩ :=
    stepLoop_split mvsAssetStep (pyKeys EPA_ASSET_KEYS) g s1 s2 hgmem haloop
  have hndK1 : (pyKeys EPA_ASSET_KEYS).Nodup := hndK
  rw [hsplit, List.nodup_append] at hndK1
  have hgnotl1 : g ∉ l1 := fun hh => hndK1.2.2 hh (List.mem_cons_self _ _)
  have hgnotl2 : g ∉ l2 := (List.nodup_cons.mp hndK1.2.1).1
  have hsub2 : ∀ i ∈ l2, i ∈ pyKeys EPA_ASSET_KEYS := by
    intro i hi
    rw [hsplit]
    exact List.mem_append_right _ (List.mem_cons_of_mem _ hi)
  have htg : pyGet t.2 g = pyGet mvs g := by
    rw [assetLoop_frame2 l1 s1 t g hpre hgnotl1, hpf]
  obtain ⟨entries, la, aft, e2, hent, hfold, hm2, ht2eq⟩ :=
    mvsAssetStep_ok_inv t t2 g hstepg
  have hee2 : e = e2 := Option.some.inj (he.symm.trans hm2)
  subst hee2
  have hmvse : pyGet mvs g = some (.dict entries) := by
    rw [← htg]
    exact hent
  have ht21 : t2.1 = pySet t.1 e (.list (la.map Value.dict)) := by rw [ht2eq]
  have hframe2 : pyGet s2.1 e = pyGet t2.1 e := by
    apply assetLoop_frame1 l2 t2 s2 e hpost
    intro g2 hg2 e3 he3 hee3
    have heq : pyGet MAP_MVS_EPA g2 = pyGet MAP_MVS_EPA g := by
      rw [he3, hee3, he]
    exact hinjA g2 (hsub2 g2 hg2) g hgmem
      (fun hh => hgnotl2 (hh ▸ hg2)) heq
  have hs21 : pyGet s2.1 e = some (.list (la.map Value.dict)) := by
    rw [hframe2, ht21, pyGet_pySet_self]
  obtain ⟨p1, p2, u, u2, hpsplit, hppre, hpstepg, hppost⟩ :=
    stepLoop_split pruneStep EPA_ASSET_KEYS (g, exp) s2 (out, after) hge
      hprune
  have hkeysplit : pyKeys EPA_ASSET_KEYS
      = p1.map Prod.fst ++ g :: p2.map Prod.fst := by
    simp only [pyKeys]
    rw [hpsplit, List.map_append, List.map_cons]
  have hndK2 : (pyKeys EPA_ASSET_KEYS).Nodup := by decide
  rw [hkeysplit, List.nodup_append] at hndK2
  have hgp1 : g ∉ p1.map Prod.fst :=
    fun hh => hndK2.2.2 hh (List.mem_cons_self _ _)
  have hgp2 : g ∉ p2.map Prod.fst := (List.nodup_cons.mp hndK2.2.1).1
  have hmemsub : ∀ q ∈ p1, q.1 ∈ pyKeys EPA_ASSET_KEYS := by
    intro q hq
    apply List.mem_map_of_mem
    rw [hpsplit]
    exact List.mem_append_left _ hq
  have hmemsub2 : ∀ q ∈ p2, q.1 ∈ pyKeys EPA_ASSET_KEYS := by
    intro q hq
    apply List.mem_map_of_mem
    rw [hpsplit]
    exact List.mem_append_right _ (List.mem_cons_of_mem _ hq)
  have hue : pyGet u.1 e = some (.list (la.map Value.dict)) := by
    rw [pruneLoop_frame1 p1 s2 u e hppre ?_, hs21]
    intro ge2 hge2 e3 he3 hee3
    have hne : ge2.1 ≠ g :=
      fun hh => hgp1 (hh ▸ List.mem_map_of_mem Prod.fst hge2)
    have heq : pyGet MAP_MVS_EPA ge2.1 = pyGet MAP_MVS_EPA g := by
      rw [he3, hee3, he]
    exact hinjA ge2.1 (hmemsub ge2 hge2) g hgmem hne heq
  obtain ⟨e4, assets, assets2, hm3, hgot, hpl, hu21⟩ :=
    pruneStep_ok_inv u u2 (g, exp) hpstepg
  have hee4 : e = e4 := Option.some.inj (he.symm.trans hm3)
  subst hee4
  have hassets : assets = la.map Value.dict :=
    (Value.list.inj (Option.some.inj (hue.symm.trans hgot))).symm
  subst hassets
  have hassets2 : assets2 = (la.map (pruneAssetFields exp)).map Value.dict :=
    (Except.ok.inj ((prunedList_map exp la).symm.trans hpl)).symm
  have hu21e : pyGet u2.1 e = some (.list assets2) := by
    rw [hu21, pyGet_pySet_self]
  have houte : pyGet out e = some (.list assets2) := by
    have hfr : pyGet (out, after).1 e = pyGet u2.1 e := by
      apply pruneLoop_frame1 p2 u2 (out, after) e hppost
      intro ge2 hge2 e3 he3 hee3
      have hne : ge2.1 ≠ g :=
        fun hh => hgp2 (hh ▸ List.mem_map_of_mem Prod.fst hge2)
      have heq : pyGet MAP_MVS_EPA ge2.1 = pyGet MAP_MVS_EPA g := by
        rw [he3, hee3, he]
      exact hinjA ge2.1 (hmemsub2 ge2 hge2) g hgmem hne heq
    have hfr2 : pyGet out e = pyGet u2.1 e := hfr
    rw [hfr2, hu21e]
  have hleq : l = assets2 :=
    (Value.list.inj (Option.some.inj (houte.symm.trans hl))).symm
  rw [hleq, hassets2] at hr
  obtain ⟨pr, hprmem, hpreq⟩ := List.mem_map.mp hr
  obtain ⟨a0, ha0mem, hpreq2⟩ := List.mem_map.mp hprmem
  obtain ⟨label, v, hmem, hproc, hx1, hx2⟩ :=
    mvsAssetFold_mem g entries la aft hfold a0 ha0mem
  refine ⟨entries, a0, label, v, hmvse, hmem, hproc, ?_, hx1, hx2⟩
  rw [← hpreq, ← hpreq2]

/-- C10: every asset record in every asset list of the exchange dict returned
by `convert_mvs_params_to_epa` contains a label field equal to the key under
which that asset was stored in the input mapping: the label is injected
before the renaming loop, no rename source or target collides with it, and it
is declared in the expected-field list of every asset category, so the
pruning pass never removes it. -/
theorem C10_label_equals_input_key (mvs out after : PyDict Value) (vb : Bool)
    (g : String) (exp : List String) (e : String) (l : List Value) (r : Value)
    (h : convert_mvs_params_to_epa mvs vb = .ok (out, after))
    (hge : (g, exp) ∈ (EPA_ASSET_KEYS : PyDict (List String)))
    (he : pyGet MAP_MVS_EPA g = some e)
    (hl : pyGet out e = some (.list l)) (hr : r ∈ l) :
    ∃ a entries label v, r = .dict a ∧
      pyGet mvs g = some (.dict entries) ∧ (label, v) ∈ entries ∧
      pyGet a LABEL = some (.str label) := by
  obtain ⟨entries, a0, label, v, hmvse, hmem, hproc, hreq, _, _⟩ :=
    mvs_output_record_trace mvs out after vb g exp e l r h hge he hl hr
  have hexp : exp.contains LABEL = true := by
    have hall : ∀ ge ∈ (EPA_ASSET_KEYS : PyDict (List String)),
        ge.2.contains LABEL = true := by decide
    exact hall (g, exp) hge
  refine ⟨pruneAssetFields exp a0, entries, label, v, hreq, hmvse, hmem, ?_⟩
  rw [pruneAssetFields_get exp a0 LABEL hexp]
  exact processAssetMvs_label g label v a0 hproc

/-- Witness for C10 at a concrete convertible payload: the record of the
returned consumption list carries the label `demand`, the key under which the
asset was stored in the input group. -/
theorem C10_label_equals_input_key_witness :
    ∃ out after,
      convert_mvs_params_to_epa mvsPayloadConvertible false
        = .ok (out, after) ∧
      ∃ l, pyGet out "energy_consumption" = some (.list l) ∧
      ∃ r, r ∈ l ∧ ∃ a entries label v, r = .dict a ∧
        pyGet mvsPayloadConvertible "energyConsumption"
          = some (.dict entries) ∧
        (label, v) ∈ entries ∧ pyGet a LABEL = some (.str label) := by
  refine ⟨_, _, rfl, _, rfl, _, List.mem_cons_self _ _, ?_⟩
  exact C10_label_equals_input_key mvsPayloadConvertible _ _ false
    "energyConsumption"
    [ "asset_type", LABEL, INFLOW_DIRECTION, OEMOF_ASSET_TYPE,
      DEVELOPMENT_COSTS, DISPATCH_PRICE, "installed_capacity", LIFETIME,
      "optimize_capacity", SPECIFIC_COSTS, SPECIFIC_COSTS_OM,
      "input_timeseries", "energy_vector" ]
    "energy_consumption" _ _ rfl (by decide) rfl rfl
    (List.mem_cons_self _ _)

/-- C9: no asset with an excess-handling or auxiliary-sink label reaches the
returned exchange dict.  Every record of every returned asset list stems from
an input entry whose key does not even contain the `_excess` or `_sink`
substring (the code's test is substring containment, which subsumes the
suffix reading), and the record's label field equals that key, so no returned
record carries a label ending in `_excess` or `_sink`. -/
theorem C9_excess_sink_assets_excluded (mvs out after : PyDict Value)
    (vb : Bool) (g : String) (exp : List String) (e : String)
    (l : List Value) (r : Value)
    (h : convert_mvs_params_to_epa mvs vb = .ok (out, after))
    (hge : (g, exp) ∈ (EPA_ASSET_KEYS : PyDict (List String)))
    (he : pyGet MAP_MVS_EPA g = some e)
    (hl : pyGet out e = some (.list l)) (hr : r ∈ l) :
    ∃ a label, r = .dict a ∧ pyGet a LABEL = some (.str label) ∧
      strIn "_excess" label = false ∧ strIn "_sink" label = false ∧
      ¬ "_excess".data <:+ label.data ∧ ¬ "_sink".data <:+ label.data := by
  obtain ⟨entries, a0, label, v, hmvse, hmem, hproc, hreq, hx1, hx2⟩ :=
    mvs_output_record_trace mvs out after vb g exp e l r h hge he hl hr
  have hexp : exp.contains LABEL = true := by
    have hall : ∀ ge ∈ (EPA_ASSET_KEYS : PyDict (List String)),
        ge.2.contains LABEL = true := by decide
    exact hall (g, exp) hge
  refine ⟨pruneAssetFields exp a0, label, hreq, ?_, hx1, hx2, ?_, ?_⟩
  · rw [pruneAssetFields_get exp a0 LABEL hexp]
    exact processAssetMvs_label g label v a0 hproc
  · intro hsuf
    have h9 : strIn "_excess" label = true := by
      rw [strIn]
      exact decide_eq_true hsuf.isInfix
    rw [hx1] at h9
    exact Bool.noConfusion h9
  · intro hsuf
    have h9 : strIn "_sink" label = true := by
      rw [strIn]
      exact decide_eq_true hsuf.isInfix
    rw [hx2] at h9
    exact Bool.noConfusion h9

/-- Witness for C9 at a concrete convertible payload whose consumption group
holds a `demand_excess` entry: the returned bus record carries the label
`dcbus`, free of the `_excess` and `_sink` markers. -/
theorem C9_excess_sink_assets_excluded_witness :
    ∃ out after,
      convert_mvs_params_to_epa mvsPayloadConvertible false
        = .ok (out, after) ∧
      ∃ l, pyGet out "energy_busses" = some (.list l) ∧
      ∃ r, r ∈ l ∧ ∃ a label, r = .dict a ∧
        pyGet a LABEL = some (.str label) ∧
        strIn "_excess" label = false ∧ strIn "_sink" label = false ∧
        ¬ "_excess".data <:+ label.data ∧ ¬ "_sink".data <:+ label.data := by
  refine ⟨_, _, rfl, _, rfl, _, List.mem_cons_self _ _, ?_⟩
  exact C9_excess_sink_assets_excluded mvsPayloadConvertible _ _ false
    ENERGY_BUSSES [LABEL, "assets", "energy_vector"] "energy_busses" _ _
    rfl (by decide) rfl rfl (List.mem_cons_self _ _)
